import Mathlib

/-! # BIPLAN interpreter: a shallow embedding of `src/BIPLAN.h`

The interpreter class `BIPLAN_Interpreter` is embedded as pure functions over an
explicit `State`.  Every function that can recurse or loop without a static bound
takes a fuel argument and returns `none` when the fuel runs out; a run that the
machine aborts (a division that traps) yields `none` as well.  The program is
read through `char *`, with `char` a signed type: a byte of 128 or more that is
taken as a number reads as the byte less 256.

Two headers of the repository are not part of the sources at hand:
`BIPLAN_Defines.h` (opcode values, capacities, the cell type) and
`BIPLAN_Decoder.h` (the token cursor).  Capacities are parameters (`Config`);
opcode values and the decoder are modelled from the specification and marked
as such.
-/

namespace BIPLAN

/-! ## Opcodes -/

/-- Modelled from the spec: the numeric opcode values of `BIPLAN_Defines.h` are
missing; section 3 of the specification lists the opcodes as distinct 8-bit tags.
`END_OF_INPUT` is the zero byte that ends the stream; the other tags are given
pairwise distinct values below 128 that are not ASCII digits. -/
@[simp] def BP_ENDOFINPUT : Nat := 0
@[simp] def BP_FUN_DEF : Nat := 1
@[simp] def BP_COMMA : Nat := 2
@[simp] def BP_L_RPARENT : Nat := 3
@[simp] def BP_R_RPARENT : Nat := 4
@[simp] def BP_ADDRESS : Nat := 5
@[simp] def BP_S_ADDRESS : Nat := 6
@[simp] def BP_FUNCTION : Nat := 7
@[simp] def BP_ACCESS : Nat := 8
@[simp] def BP_ACCESS_END : Nat := 9
@[simp] def BP_VAR_ACCESS : Nat := 10
@[simp] def BP_STR_ACCESS : Nat := 11
@[simp] def BP_INCREMENT : Nat := 12
@[simp] def BP_DECREMENT : Nat := 13
@[simp] def BP_BITWISE_NOT : Nat := 14
@[simp] def BP_NUMBER : Nat := 15
@[simp] def BP_DREAD : Nat := 16
@[simp] def BP_MILLIS : Nat := 17
@[simp] def BP_AGET : Nat := 18
@[simp] def BP_RND : Nat := 19
@[simp] def BP_SQRT : Nat := 20
@[simp] def BP_SERIAL_RX : Nat := 21
@[simp] def BP_INPUT : Nat := 22
@[simp] def BP_INPUT_AV : Nat := 23
@[simp] def BP_SERIAL_AV : Nat := 24
@[simp] def BP_SIZEOF : Nat := 25
@[simp] def BP_STOI : Nat := 26
@[simp] def BP_MULT : Nat := 27
@[simp] def BP_DIV : Nat := 28
@[simp] def BP_MOD : Nat := 29
@[simp] def BP_PLUS : Nat := 30
@[simp] def BP_MINUS : Nat := 31
@[simp] def BP_AND : Nat := 32
@[simp] def BP_OR : Nat := 33
@[simp] def BP_XOR : Nat := 34
@[simp] def BP_L_SHIFT : Nat := 35
@[simp] def BP_R_SHIFT : Nat := 36
@[simp] def BP_EQ : Nat := 37
@[simp] def BP_NOT_EQ : Nat := 38
@[simp] def BP_LTOEQ : Nat := 39
@[simp] def BP_GTOEQ : Nat := 40
@[simp] def BP_LT : Nat := 41
@[simp] def BP_GT : Nat := 42
@[simp] def BP_LOGIC_OR : Nat := 43
@[simp] def BP_LOGIC_AND : Nat := 44
@[simp] def BP_CHAR : Nat := 45
@[simp] def BP_STRING : Nat := 46
@[simp] def BP_SEMICOLON : Nat := 47
@[simp] def BP_CR : Nat := 58
@[simp] def BP_IF : Nat := 59
@[simp] def BP_ENDIF : Nat := 60
@[simp] def BP_ELSE : Nat := 61
@[simp] def BP_RETURN : Nat := 62
@[simp] def BP_FOR : Nat := 63
@[simp] def BP_NEXT : Nat := 64
@[simp] def BP_WHILE : Nat := 65
@[simp] def BP_REDO : Nat := 66
@[simp] def BP_BREAK : Nat := 67
@[simp] def BP_CONTINUE : Nat := 68
@[simp] def BP_PRINT : Nat := 69
@[simp] def BP_END : Nat := 70
@[simp] def BP_DWRITE : Nat := 71
@[simp] def BP_PINMODE : Nat := 72
@[simp] def BP_DELAY : Nat := 73
@[simp] def BP_RESTART : Nat := 74
@[simp] def BP_SERIAL_TX : Nat := 75

/-! ## Configuration, host and state -/

/-- Compile-time constants of `BIPLAN_Defines.h`, taken as parameters:
`BP_VARIABLES`, `BP_STRINGS`, `BP_STRING_MAX_LENGTH`, `BP_CYCLE_DEPTH`,
`BP_FUN_DEPTH`, `BP_MAX_FUNCTIONS`, `BP_PARAMS`, `BP_ADDRESS_OFFSET`, the width
in bits of `BP_VAR_TYPE`, and the width `IW` in bits of the C type `int` of the
platform (the result type of `atoi`), which C puts at 16 or more.
`BP_PARAMS` is at most 255: `index_function_definitions` counts the parameter
slots in a `uint8_t` (`for(uint8_t i = 0; i < BP_PARAMS; i++)`), a loop that
ends only for such a value. -/
structure Config where
  NV : Nat
  NS : Nat
  SMAX : Nat
  CD : Nat
  FD : Nat
  FM : Nat
  PARAMS : Nat
  OFFSET : Nat
  W : Nat
  IW : Nat
  params_le : PARAMS ≤ 255
  int_ge : 16 ≤ IW

/-- Error kinds passed to the error callback (`BP_ERROR_*`). -/
inductive Err where
  | SYMBOL | VARIABLE_GET | VARIABLE_SET | FUNCTION_CALL | FUNCTION_END
  | PARAMETERS | RETURN | BLOCK | STATEMENT | CYCLE_MAX | CYCLE_NEXT
  | WHILE_MAX | REDO
  deriving DecidableEq, Repr

/-- Observable calls into the host (`BPM_PRINT_WRITE`, `BPM_SERIAL_WRITE`,
`BPM_IO_WRITE`, `BPM_IO_MODE`, `BPM_DELAY`), in program order. -/
inductive Event where
  | printInt (v : Int)
  | printChar (v : Int)
  | printStr (s : List Int)
  | serialWrite (v : Int)
  | ioWrite (pin v : Int)
  | ioMode (pin v : Int)
  | delay (ms : Int)
  deriving DecidableEq, Repr

/-- Values the host returns to the interpreter (`BPM_IO_READ`, `BPM_MILLIS`,
`BPM_AREAD`, `BPM_RANDOM`, `BPM_SERIAL_READ`, `BPM_INPUT`, `BPM_STOI`, ...).
The host is outside the repository; its answers are a fixed oracle here.
`strAddr` stands for the cast of a string slot's address to a cell. -/
structure Host where
  ioRead : Int → Int
  millis : Int
  analogRead : Int → Int
  random1 : Int → Int
  random2 : Int → Int → Int
  serialRead : Int
  input : Int
  inputAvailable : Int
  serialAvailable : Int
  stoi : List Int → Int
  strAddr : Int → Int

structure param_type where
  value : Int
  id : Int

structure fun_type where
  address : Nat
  params : Int → param_type

structure def_type where
  address : Nat
  id : Int
  params : Int → Int

structure cycle_type where
  address : Nat
  direction : Bool
  var : Int
  var_id : Int
  to_ : Int

/-- Buffers and state of `BIPLAN_Interpreter`, the decoder cursor `pos`, and the
two logs that stand for the callbacks: `errors` (calls of `error_fun`, with the
decoder position) and `out` (calls into the host).  Arrays are total functions
on indices, so an access outside the declared capacity reads or writes a cell of
its own; `strings` is the flat layout of `strings[BP_STRINGS][BP_STRING_MAX_LENGTH]`,
cell `strings[s][c]` being index `s * SMAX + c`. -/
structure State where
  vars : Int → Int
  string : Int → Int
  strings : Int → Int
  cycles : Int → cycle_type
  functions : Int → fun_type
  definitions : Int → def_type
  cycle_id : Int
  fun_cycle_id : Int
  fun_id : Int
  ended : Bool
  return_type : Nat
  pos : Nat
  errors : List (Nat × Err)
  out : List Event

/-- What the interpreter is built and started with: the constants, the host and
the byte program (`program_start` is address 0 of `prog`). -/
structure Env where
  cfg : Config
  host : Host
  prog : List Nat

/-! ## Machine integers -/

/-- Conversion to `uint8_t`. -/
def u8 (x : Int) : Int := x % 256
/-- Conversion to `uint16_t`. -/
def u16 (x : Int) : Int := x % 65536
/-- Conversion to `int8_t` (two's complement). -/
def i8 (x : Int) : Int := (x + 128) % 256 - 128
/-- Conversion to `int16_t` (two's complement). -/
def i16 (x : Int) : Int := (x + 32768) % 65536 - 32768
/-- Conversion to `BP_VAR_TYPE`, a signed integer of `W` bits, `W ≥ 1` (two's
complement: the value modulo `2 ^ W` in `[-2 ^ (W - 1), 2 ^ (W - 1))`). -/
def wrapCell (cfg : Config) (x : Int) : Int :=
  (x + 2 ^ (cfg.W - 1)) % (2 * 2 ^ (cfg.W - 1)) - 2 ^ (cfg.W - 1)

/-- Conversion to `int`, a signed integer of `IW` bits (two's complement). -/
def wrapInt (cfg : Config) (x : Int) : Int :=
  (x + 2 ^ (cfg.IW - 1)) % (2 * 2 ^ (cfg.IW - 1)) - 2 ^ (cfg.IW - 1)

/-- The values representable in `BP_VAR_TYPE`. -/
def InCell (cfg : Config) (x : Int) : Prop :=
  -(2 ^ (cfg.W - 1)) ≤ x ∧ x < 2 ^ (cfg.W - 1)

/-! ## Decoder -/

/-- Byte of the program at an address; the stream ends with a zero byte and
reads as zero behind it. -/
def byteAt (prog : List Nat) (a : Nat) : Nat := prog.getD a 0

/-- The byte `k` places before address `a`. -/
def byteBefore (prog : List Nat) (a k : Nat) : Nat :=
  if k ≤ a then byteAt prog (a - k) else 0

/-- The value of `*(decoder_position() - k)`: the program is read through
`char *`, and `char` is a signed type (as with gcc on x86 and on AVR), so a byte
of 128 or more reads as a negative number. -/
def charBefore (prog : List Nat) (a k : Nat) : Int := i8 (byteBefore prog a k : Int)

/-- The value of `*p` for `char *p` at address `a` of the program. -/
def charAt (prog : List Nat) (a : Nat) : Int := i8 (byteAt prog a : Int)

def isDigit (b : Nat) : Bool := 48 ≤ b && b ≤ 57

/-- Number of ASCII digits at the head of a byte sequence. -/
def digitRun : List Nat → Nat
  | [] => 0
  | b :: l => if isDigit b then digitRun l + 1 else 0

/-- Decimal value of the ASCII digits at the head of a byte sequence. -/
def digitsValue : List Nat → Nat → Nat
  | [], acc => acc
  | b :: l, acc => if isDigit b then digitsValue l (acc * 10 + (b - 48)) else acc

/-- Length of a string literal's payload with its closing delimiter; an
unterminated literal ends at the end of the stream. -/
def stringRun : List Nat → Nat
  | [] => 0
  | b :: l => if b = BP_STRING then 1 else if b = BP_ENDOFINPUT then 0 else stringRun l + 1

/-- Payload bytes of a string literal, up to its closing delimiter. -/
def stringPayload : List Nat → List Nat
  | [] => []
  | b :: l => if b = BP_STRING ∨ b = BP_ENDOFINPUT then [] else b :: stringPayload l

/-- Modelled from the spec: `BIPLAN_Decoder.h` is missing.  Length in bytes of
the token at address `a` (sections 4.A and 6): `NUMBER` is followed by ASCII
digits up to the first non-digit, `STRING` by a delimited byte sequence (closed
by a `STRING` byte), `ADDRESS`, `S_ADDRESS` and `FUNCTION` by exactly one
payload byte; every other opcode is one byte; the cursor does not move past
`END_OF_INPUT`. -/
def tokenLength (prog : List Nat) (a : Nat) : Nat :=
  let b := byteAt prog a
  if b = BP_ENDOFINPUT then 0
  else if b = BP_NUMBER then 1 + digitRun (prog.drop (a + 1))
  else if b = BP_STRING then 1 + stringRun (prog.drop (a + 1))
  else if b = BP_ADDRESS ∨ b = BP_S_ADDRESS ∨ b = BP_FUNCTION then 2
  else 1

/-- Modelled from the spec: `peek()` of the missing decoder, the current opcode. -/
def decoder_get (env : Env) (st : State) : Nat := byteAt env.prog st.pos

/-- Modelled from the spec: `advance()` of the missing decoder: move to the next
opcode, literal payloads being consumed with their sentinel. -/
def decoder_next (env : Env) (st : State) : State :=
  { st with pos := st.pos + tokenLength env.prog st.pos }

/-- Modelled from the spec: `goto(Addr)` of the missing decoder. -/
def decoder_goto (a : Nat) (st : State) : State := { st with pos := a }

/-- Modelled from the spec: `finished()` of the missing decoder (section 4.A):
"true once the stream is exhausted or the interpreter marks end". -/
def decoder_finished (env : Env) (st : State) : Bool :=
  decoder_get env st == BP_ENDOFINPUT || st.ended

/-- Modelled from the spec: `extract_number(Addr)` of the missing decoder, which
the source reaches as `v = atoi(decoder_position())`: the decimal value of the
`NUMBER` literal at the address as `atoi` returns it, an `int`, converted to a
cell by the assignment.  A literal beyond `int` is undefined in C; it is cut to
the width of `int` here, as the C library does. -/
def extract_number (env : Env) (a : Nat) : Int :=
  wrapCell env.cfg (wrapInt env.cfg (digitsValue (env.prog.drop (a + 1)) 0 : Nat))

/-- Store the bytes `l` at `base, base + 1, ...` of a buffer. -/
def writeBytes (mem : Int → Int) (base : Int) : List Nat → Int → Int
  | [] => mem
  | b :: l => writeBytes (Function.update mem base (b : Int)) (base + 1) l

/-- Modelled from the spec: `extract_string(out_buf, cap)` of the missing decoder
(`decoder_string` in the source): copy the payload of the `STRING` literal at
the cursor into the buffer starting at `base`, truncated to `cap` bytes with the
terminating zero. -/
def decoder_string (env : Env) (st : State) (mem : Int → Int) (base : Int) (cap : Nat) :
    Int → Int :=
  let bytes := (stringPayload (env.prog.drop (st.pos + 1))).take (cap - 1)
  Function.update (writeBytes mem base bytes) (base + bytes.length) 0

/-- The zero-terminated string that starts at `base`, reading at most `n` bytes. -/
def cstr (mem : Int → Int) (base : Int) : Nat → List Int
  | 0 => []
  | n + 1 => if mem base = 0 then [] else mem base :: cstr mem (base + 1) n

/-! ## Interpreter primitives -/

/-- Source `error`: call the error callback, then set `ended`. -/
def error (st : State) (k : Err) : State :=
  { st with errors := st.errors ++ [(st.pos, k)], ended := true }

/-- A direct call of the callback `error_fun` (position, kind), without `ended`. -/
def error_fun (st : State) (k : Err) : State :=
  { st with errors := st.errors ++ [(st.pos, k)] }

/-- Source `finished`. -/
def finished (env : Env) (st : State) : Bool := st.ended || decoder_finished env st

/-- Source `set_default`. -/
def set_default (st : State) : State :=
  { st with cycle_id := 0, fun_id := 0, ended := false }

/-- Source `expect`. -/
def expect (env : Env) (c : Nat) (st : State) : State :=
  if c ≠ decoder_get env st then error st Err.SYMBOL else decoder_next env st

/-- Source `ignore`; its Boolean result is used by no caller and is left out. -/
def ignore (env : Env) (c : Nat) (st : State) : State :=
  if c = decoder_get env st then decoder_next env st else st

/-- Source `end_call`. -/
def end_call (env : Env) (st : State) : State :=
  { expect env BP_END st with ended := true }

/-- Source `restart_call`. -/
def restart_call (st : State) : State := decoder_goto 0 (set_default st)

/-- Source `get_variable`. -/
def get_variable (env : Env) (n : Int) (st : State) : Int × State :=
  if 0 ≤ n ∧ n ≤ (env.cfg.NV : Int) then (st.vars n, st)
  else (0, error st Err.VARIABLE_GET)

/-- Source `set_variable`. -/
def set_variable (env : Env) (n : Int) (v : Int) (st : State) : State :=
  if 0 ≤ n ∧ n ≤ (env.cfg.NV : Int) then
    { st with vars := Function.update st.vars n v }
  else error st Err.VARIABLE_SET

/-- Loop of source `unary`; `u` is the `int8_t` counter. -/
def unaryLoop (env : Env) : Nat → Int → State → Option (Int × State)
  | 0, _, _ => none
  | n + 1, u, st =>
    if decoder_get env st = BP_INCREMENT ∨ decoder_get env st = BP_DECREMENT then
      unaryLoop env n
        (if decoder_get env st = BP_INCREMENT then i8 (u + 1) else i8 (u - 1))
        (decoder_next env st)
    else some (u, st)

/-- Source `unary`. -/
def unary (env : Env) (fuel : Nat) (st : State) : Option (Int × State) :=
  unaryLoop env fuel 0 st

/-- Loop of source `find_definition` over `i = k, ..., BP_MAX_FUNCTIONS - 1`,
`n` being the number of indices left. -/
def findDefinitionLoop (st : State) (d : Int) : Nat → Int → Option Int
  | 0, _ => none
  | n + 1, i => if (st.definitions i).id = d then some i else findDefinitionLoop st d n (i + 1)

/-- Source `find_definition`; the argument is converted to `uint8_t`. -/
def find_definition (env : Env) (d : Int) (st : State) : Int × State :=
  match findDefinitionLoop st (u8 d) env.cfg.FM 0 with
  | some i => (i, st)
  | none => (0, error st Err.FUNCTION_CALL)

/-- Loop of source `find_function_end`; `n` is the `uint8_t` nesting counter. -/
def findFunctionEndLoop (env : Env) : Nat → Int → State → Option State
  | 0, _, _ => none
  | fuel + 1, n, st =>
    if decoder_get env st ≠ BP_R_RPARENT ∨ n > 1 then
      let st1 := if decoder_get env st = BP_ENDOFINPUT then error st Err.FUNCTION_END else st
      let n1 := if decoder_get env st1 = BP_L_RPARENT then u8 (n + 1) else n
      let n2 := if decoder_get env st1 = BP_R_RPARENT then u8 (n1 - 1) else n1
      findFunctionEndLoop env fuel n2 (decoder_next env st1)
    else some st

/-- Source `find_function_end`. -/
def find_function_end (env : Env) (fuel : Nat) (st : State) : Option State :=
  findFunctionEndLoop env fuel 0 st

/-- The loop `while(definitions[d].params[p++] != BP_PARAMS);` of source
`find_param_list_length`: the value of the `uint8_t` counter `p` when the loop
ends.  `p` wraps at 256, so a loop that has not ended after 256 tests never
ends (`none`). -/
def paramScan (params : Int → Int) (sentinel : Int) : Nat → Int → Option Int
  | 0, _ => none
  | n + 1, p => if params p ≠ sentinel then paramScan params sentinel n (u8 (p + 1))
                else some (u8 (p + 1))

/-- Source `find_param_list_length`. -/
def find_param_list_length (env : Env) (d : Int) (st : State) : Option (Int × State) :=
  let (d1, st1) := find_definition env (u8 d) st
  match paramScan (st1.definitions (u8 d1)).params (env.cfg.PARAMS : Int) 256 0 with
  | none => none
  | some p =>
    if p < (env.cfg.PARAMS : Int) then some (p, st1)
    else some (0, { error st1 Err.PARAMETERS with ended := true })

/-- Loop of source `skip_block`; `id` is the `uint16_t` depth.  The body of the
`do ... while(id >= 1)` runs once per unit of fuel. -/
def skipBlockLoop (env : Env) : Nat → Int → State → Option State
  | 0, _, _ => none
  | fuel + 1, id, st =>
    let id1 := if decoder_get env st = BP_IF then u16 (id + 1) else id
    let id2 := if decoder_get env st = BP_ENDIF then u16 (id1 - 1) else id1
    if decoder_get env st = BP_ELSE ∧ id2 = 1 then some st
    else
      let st1 := if decoder_get env st = BP_ENDOFINPUT then error st Err.BLOCK else st
      let st2 := decoder_next env st1
      if id2 ≥ 1 then skipBlockLoop env fuel id2 st2 else some st2

/-- Source `skip_block`. -/
def skip_block (env : Env) (fuel : Nat) (st : State) : Option State :=
  skipBlockLoop env fuel 1 st

/-- Source `else_call`. -/
def else_call (env : Env) (fuel : Nat) (st : State) : Option State :=
  skip_block env fuel (ignore env BP_CR (decoder_next env st))

/-- Loop of source `continue_call`; `id` is the `uint16_t` depth. -/
def continueLoop (env : Env) : Nat → Int → State → Option State
  | 0, _, _ => none
  | fuel + 1, id, st =>
    if st.cycle_id ≥ id then
      if decoder_get env st = BP_NEXT ∨ decoder_get env st = BP_REDO then
        if st.cycle_id = id then some st
        else
          let id1 := u16 (id - 1)
          let id2 := if decoder_get env st = BP_WHILE ∨ decoder_get env st = BP_FOR
                     then u16 (id1 + 1) else id1
          continueLoop env fuel id2 (decoder_next env st)
      else
        let id2 := if decoder_get env st = BP_WHILE ∨ decoder_get env st = BP_FOR
                   then u16 (id + 1) else id
        continueLoop env fuel id2 (decoder_next env st)
    else some st

/-- Source `continue_call`. -/
def continue_call (env : Env) (fuel : Nat) (st : State) : Option State :=
  continueLoop env fuel st.cycle_id st

/-- Source `break_call`. -/
def break_call (env : Env) (fuel : Nat) (st : State) : Option State :=
  match continue_call env fuel st with
  | none => none
  | some st1 =>
    let st2 := decoder_next env st1
    some { st2 with cycle_id := u8 (st2.cycle_id - 1) }

/-- Source `next_call`. -/
def next_call (env : Env) (st : State) : State :=
  let st1 := decoder_next env st
  if st1.cycle_id ≠ 0 then
    let c := st1.cycles (st1.cycle_id - 1)
    let vi := c.var_id
    let (v, st2) := get_variable env vi st1
    let d := c.direction
    if (d ∧ v < c.to_) ∨ (¬ d ∧ v > c.to_) then
      let st3 := decoder_goto c.address st2
      set_variable env vi (if d then wrapCell env.cfg (v + 1) else wrapCell env.cfg (v - 1)) st3
    else
      let st3 := if vi ≠ (env.cfg.NV : Int) then set_variable env vi c.var st2 else st2
      let k := u8 (st3.cycle_id - 1)
      { st3 with cycle_id := k,
                 cycles := Function.update st3.cycles k
                   { st3.cycles k with var_id := u8 (env.cfg.NV : Int) } }
  else error st1 Err.CYCLE_NEXT

/-- Loop of the false branch of source `while_call`; `c` is the `uint16_t` depth. -/
def whileSkipLoop (env : Env) : Nat → Int → State → Option State
  | 0, _, _ => none
  | fuel + 1, c, st =>
    if decoder_get env st ≠ BP_REDO ∧ c > 0 then
      let c1 := if decoder_get env st = BP_WHILE then u16 (c + 1) else c
      let c2 := if decoder_get env st = BP_REDO then u16 (c1 - 1) else c1
      whileSkipLoop env fuel c2 (decoder_next env st)
    else some st

/-- Source `sizeof_call`. -/
def sizeof_call (env : Env) (st : State) : Int × State :=
  let st1 := ignore env BP_L_RPARENT (decoder_next env st)
  if decoder_get env st1 = BP_S_ADDRESS then
    let st2 := decoder_next env st1
    let id : Int := charBefore env.prog st2.pos 1 - (env.cfg.OFFSET : Int)
    let l : Int := (cstr st2.strings (id * (env.cfg.SMAX : Int))
      (env.cfg.NS * env.cfg.SMAX)).length
    (l, ignore env BP_R_RPARENT st2)
  else if decoder_get env st1 = BP_ADDRESS then
    ((env.cfg.W / 8 : Nat), ignore env BP_R_RPARENT (decoder_next env st1))
  else (0, st1)

/-- Source `stoi_call`. -/
def stoi_call (env : Env) (st : State) : Int × State :=
  let st1 := ignore env BP_L_RPARENT (decoder_next env st)
  let (v1, st2) :=
    if decoder_get env st1 = BP_S_ADDRESS then
      let s := decoder_next env st1
      let id : Int := charBefore env.prog s.pos 1 - (env.cfg.OFFSET : Int)
      (env.host.stoi (cstr s.strings (id * (env.cfg.SMAX : Int))
        (env.cfg.NS * env.cfg.SMAX)), s)
    else ((0 : Int), st1)
  let (v2, st3) :=
    if decoder_get env st2 = BP_STRING then
      (env.host.stoi (cstr st2.string 0 env.cfg.SMAX), decoder_next env st2)
    else (v1, st2)
  (v2, ignore env BP_R_RPARENT st3)

/-- The operands on which `/` and `%` trap: a zero divisor, and the least cell
value divided by -1. -/
def divTraps (cfg : Config) (f1 f2 : Int) : Bool :=
  f2 = 0 || (f1 = -(2 ^ (cfg.W - 1)) && f2 = -1)

/-- Source `term`: the operator switch (`*`, `/`, `%`).  Division truncates
towards zero.  A division that traps ends the run of the interpreter: it yields
no value (`none`). -/
def termOp (cfg : Config) (operation : Nat) (f1 f2 : Int) : Option Int :=
  if operation = BP_MULT then some (wrapCell cfg (f1 * f2))
  else if operation = BP_DIV then
    if divTraps cfg f1 f2 then none else some (wrapCell cfg (Int.tdiv f1 f2))
  else if operation = BP_MOD then
    if divTraps cfg f1 f2 then none else some (wrapCell cfg (Int.tmod f1 f2))
  else some f1

/-- Source `expression`: the operator switch (`+`, `-`, `&`, `|`, `^`, `<<`,
`>>`).  Shifts are arithmetic; a negative shift amount is undefined in C and
counts as zero. -/
def expressionOp (cfg : Config) (operation : Nat) (t1 t2 : Int) : Int :=
  if operation = BP_PLUS then wrapCell cfg (t1 + t2)
  else if operation = BP_MINUS then wrapCell cfg (t1 - t2)
  else if operation = BP_AND then Int.land t1 t2
  else if operation = BP_OR then Int.lor t1 t2
  else if operation = BP_XOR then Int.xor t1 t2
  else if operation = BP_L_SHIFT then wrapCell cfg (t1 * 2 ^ t2.toNat)
  else if operation = BP_R_SHIFT then t1 / 2 ^ t2.toNat
  else t1

/-- The C truth value of a proposition. -/
def b2i (p : Prop) [Decidable p] : Int := if p then 1 else 0

/-- Source `relation`: the operator switch. -/
def relationOp (operation : Nat) (r1 r2 : Int) : Int :=
  if operation = BP_NOT_EQ then b2i (r1 ≠ r2)
  else if operation = BP_EQ then b2i (r1 = r2)
  else if operation = BP_GTOEQ then b2i (r1 ≥ r2)
  else if operation = BP_LTOEQ then b2i (r1 ≤ r2)
  else if operation = BP_LOGIC_OR then b2i (r1 ≠ 0 ∨ r2 ≠ 0)
  else if operation = BP_LOGIC_AND then b2i (r1 ≠ 0 ∧ r2 ≠ 0)
  else if operation = BP_LT then b2i (r1 < r2)
  else if operation = BP_GT then b2i (r1 > r2)
  else r1

def isTermOp (o : Nat) : Bool := o = BP_MULT || o = BP_DIV || o = BP_MOD

def isExpressionOp (o : Nat) : Bool :=
  o = BP_PLUS || o = BP_MINUS || o = BP_AND || o = BP_OR || o = BP_XOR ||
  o = BP_L_SHIFT || o = BP_R_SHIFT

def isRelationOp (o : Nat) : Bool :=
  o = BP_EQ || o = BP_NOT_EQ || o = BP_LTOEQ || o = BP_GTOEQ || o = BP_LT ||
  o = BP_GT || o = BP_LOGIC_OR || o = BP_LOGIC_AND

/-- The payload of the token just consumed, less the offset:
`*(decoder_position() - 1) - BP_ADDRESS_OFFSET`, an `int`. -/
def payloadId (env : Env) (st : State) : Int :=
  charBefore env.prog st.pos 1 - (env.cfg.OFFSET : Int)

/-- Assignment `functions[fun_id].params[i].id = v`. -/
def setParamId (st : State) (i v : Int) : State :=
  let f := st.functions st.fun_id
  { st with
    functions := Function.update st.functions st.fun_id
      { f with params := Function.update f.params i { f.params i with id := v } } }

/-- Assignment `functions[fun_id].params[i].value = v`. -/
def setParamValue (st : State) (i v : Int) : State :=
  let f := st.functions st.fun_id
  { st with
    functions := Function.update st.functions st.fun_id
      { f with params := Function.update f.params i { f.params i with value := v } } }

/-- The loop of source `return_call` that sets back the saved variables of
frame `functions[fun_id]`, for `i` up to `BP_PARAMS - 1`; `n` slots are left. -/
def restoreLoop (env : Env) : Nat → Int → State → State
  | 0, _, st => st
  | n + 1, i, st =>
    let p := (st.functions st.fun_id).params i
    if p.id ≠ (env.cfg.NV : Int) then
      let st1 := set_variable env p.id p.value st
      restoreLoop env n (i + 1)
        (setParamValue (setParamId st1 i (u8 (env.cfg.NV : Int))) i 0)
    else restoreLoop env n (i + 1) st

/-- The loop of source `string_assignment_call` that copies slot `ci` to slot
`si` byte by byte; `n` bytes are left. -/
def copyLoop (cfg : Config) (si ci : Int) : Nat → Int → (Int → Int) → Int → Int
  | 0, _, mem => mem
  | n + 1, i, mem =>
    copyLoop cfg si ci n (i + 1)
      (Function.update mem (si * (cfg.SMAX : Int) + i) (mem (ci * (cfg.SMAX : Int) + i)))

/-- The loop of source `serial_tx_call` that writes a buffer byte by byte. -/
def serialBytes (mem : Int → Int) (base : Int) : Nat → Int → List Event
  | 0, _ => []
  | n + 1, i => Event.serialWrite (mem (base + i)) :: serialBytes mem base n (i + 1)

/-- The string of slot `v` as `BPM_PRINT_WRITE` receives it. -/
def slotString (env : Env) (st : State) (v : Int) : List Int :=
  cstr st.strings (v * (env.cfg.SMAX : Int)) (env.cfg.NS * env.cfg.SMAX)

def emit (st : State) (e : Event) : State := { st with out := st.out ++ [e] }

/-! ## Evaluator and executor -/

mutual

/-- Source `var_factor`.  The cells of `strings` are of type `char`: a stored
byte of 128 or more reads as a negative number. -/
def var_factor (env : Env) : Nat → State → Option (Int × State)
  | 0, _ => none
  | n + 1, st =>
    match unary env n st with
    | none => none
    | some (pre, st1) =>
      let type := decoder_get env st1
      let st2 := decoder_next env st1
      let id := i16 (payloadId env st2)
      match (if type = BP_ADDRESS then some (get_variable env id st2)
             else if decoder_get env st2 = BP_ACCESS then
               match expression env n (decoder_next env st2) with
               | none => none
               | some (e, st3) =>
                 some (i8 (st3.strings (id * (env.cfg.SMAX : Int) + e)),
                       { expect env BP_ACCESS_END st3 with return_type := BP_ACCESS })
             else some (id, { st2 with return_type := BP_S_ADDRESS })) with
      | none => none
      | some (v, st5) =>
        match (if decoder_get env st5 = BP_INCREMENT ∨ decoder_get env st5 = BP_DECREMENT
               then unary env n st5 else some (0, st5)) with
        | none => none
        | some (post, st6) =>
          some (wrapCell env.cfg (v + pre),
                if pre ≠ 0 ∨ post ≠ 0
                then set_variable env id (wrapCell env.cfg (v + pre + post)) st6
                else st6)

/-- Source `factor`.  `~((unsigned)v)` is the two's complement `-v - 1`. -/
def factor (env : Env) : Nat → State → Option (Int × State)
  | 0, _ => none
  | n + 1, st =>
    let bitwise_not := decoder_get env st = BP_BITWISE_NOT
    let st0 := ignore env BP_BITWISE_NOT st
    let op := decoder_get env st0
    if op = BP_DREAD then
      match expression env n (decoder_next env st0) with
      | none => none
      | some (e, s) => some (env.host.ioRead e, s)
    else
      match (
        if op = BP_VAR_ACCESS then
          match expression env n (decoder_next env st0) with
          | none => none
          | some (e, s) => some (s.vars e, expect env BP_ACCESS_END s)
        else if op = BP_STR_ACCESS then
          match expression env n (decoder_next env st0) with
          | none => none
          | some (e, s) => some (wrapCell env.cfg (env.host.strAddr e), expect env BP_ACCESS_END s)
        else if op = BP_NUMBER then
          some (extract_number env st0.pos, expect env BP_NUMBER st0)
        else if op = BP_MILLIS then
          some (env.host.millis % 32767, decoder_next env st0)
        else if op = BP_AGET then
          match expression env n (decoder_next env st0) with
          | none => none
          | some (e, s) => some (env.host.analogRead e, s)
        else if op = BP_RND then random_call env n (decoder_next env st0)
        else if op = BP_SQRT then
          match expression env n (decoder_next env st0) with
          | none => none
          | some (e, s) => some ((Nat.sqrt e.toNat : Int), s)
        else if op = BP_FUNCTION then
          match function_call env n st0 with
          | none => none
          | some (v, s) => some (v, decoder_next env s)
        else if op = BP_SERIAL_RX then some (env.host.serialRead, decoder_next env st0)
        else if op = BP_INPUT then some (env.host.input, decoder_next env st0)
        else if op = BP_INPUT_AV then some (env.host.inputAvailable, decoder_next env st0)
        else if op = BP_SERIAL_AV then some (env.host.serialAvailable, decoder_next env st0)
        else if op = BP_L_RPARENT then
          match relation env n (decoder_next env st0) with
          | none => none
          | some (v, s) => some (v, expect env BP_R_RPARENT s)
        else if op = BP_SIZEOF then some (sizeof_call env st0)
        else if op = BP_STOI then some (stoi_call env st0)
        else var_factor env n st0) with
      | none => none
      | some (v, s) => some (if bitwise_not then wrapCell env.cfg (-v - 1) else v, s)

/-- Loop of source `term`: `f1` is the value so far, the operator is the
current opcode. -/
def termLoop (env : Env) : Nat → Int → State → Option (Int × State)
  | 0, _, _ => none
  | n + 1, f1, st =>
    if isTermOp (decoder_get env st) then
      match factor env n (decoder_next env st) with
      | none => none
      | some (f2, s) =>
        match termOp env.cfg (decoder_get env st) f1 f2 with
        | none => none
        | some f => termLoop env n f s
    else some (f1, st)

/-- Source `term`. -/
def term (env : Env) : Nat → State → Option (Int × State)
  | 0, _ => none
  | n + 1, st =>
    match factor env n st with
    | none => none
    | some (f1, s) => termLoop env n f1 s

/-- Loop of source `expression`. -/
def expressionLoop (env : Env) : Nat → Int → State → Option (Int × State)
  | 0, _, _ => none
  | n + 1, t1, st =>
    if isExpressionOp (decoder_get env st) then
      match term env n (decoder_next env st) with
      | none => none
      | some (t2, s) =>
        expressionLoop env n (expressionOp env.cfg (decoder_get env st) t1 t2) s
    else some (t1, st)

/-- Source `expression`. -/
def expression (env : Env) : Nat → State → Option (Int × State)
  | 0, _ => none
  | n + 1, st =>
    match term env n st with
    | none => none
    | some (t1, s) => expressionLoop env n t1 s

/-- Loop of source `relation`. -/
def relationLoop (env : Env) : Nat → Int → State → Option (Int × State)
  | 0, _, _ => none
  | n + 1, r1, st =>
    if isRelationOp (decoder_get env st) then
      match expression env n (decoder_next env st) with
      | none => none
      | some (r2, s) => relationLoop env n (relationOp (decoder_get env st) r1 r2) s
    else some (r1, st)

/-- Source `relation`. -/
def relation (env : Env) : Nat → State → Option (Int × State)
  | 0, _ => none
  | n + 1, st =>
    match expression env n st with
    | none => none
    | some (r1, s) => relationLoop env n r1 s

/-- Source `random_call`. -/
def random_call (env : Env) : Nat → State → Option (Int × State)
  | 0, _ => none
  | n + 1, st =>
    match expression env n (ignore env BP_L_RPARENT st) with
    | none => none
    | some (a, s) =>
      if decoder_get env s = BP_COMMA then
        match expression env n (decoder_next env s) with
        | none => none
        | some (e, s1) => some (env.host.random2 a e, ignore env BP_R_RPARENT s1)
      else some (env.host.random1 a, ignore env BP_R_RPARENT s)

/-- The `do ... while` of source `function_call` that binds the parameters:
`f` is the function id, `p` the parameter list length, `i` the `int16_t` index. -/
def bindLoop (env : Env) (f p : Int) : Nat → Int → State → Option State
  | 0, _, _ => none
  | n + 1, i, st =>
    let (d, st1) := find_definition env f st
    let v := u16 ((st1.definitions d).params i - (env.cfg.OFFSET : Int))
    let st2 := decoder_next env st1
    let st3 := setParamId st2 i (u8 v)
    let (g, st4) := get_variable env v st3
    let st5 := setParamValue st4 i g
    match relation env n st5 with
    | none => none
    | some (r, st6) =>
      let st7 := set_variable env v r st6
      let i1 := i16 (i + 1)
      if i1 < (env.cfg.PARAMS : Int) ∧ i1 < p - 1 then bindLoop env f p n i1 st7
      else some st7

/-- The loop `while(decoder_get() != BP_RETURN) statement();` of source
`function_call`, followed by its `return return_call();`. -/
def bodyLoop (env : Env) : Nat → State → Option (Int × State)
  | 0, _ => none
  | n + 1, st =>
    if decoder_get env st ≠ BP_RETURN then
      match statement env n st with
      | none => none
      | some s => bodyLoop env n s
    else return_call env n st

/-- Source `function_call`. -/
def function_call (env : Env) : Nat → State → Option (Int × State)
  | 0, _ => none
  | n + 1, st =>
    let st0 := { st with fun_cycle_id := st.cycle_id }
    let start := st0.pos
    match find_function_end env n st0 with
    | none => none
    | some st1 =>
      let endp := st1.pos
      let st2 := expect env BP_FUNCTION (decoder_goto start st1)
      let f : Int := u16 (charBefore env.prog st2.pos 1)
      match find_param_list_length env f st2 with
      | none => none
      | some (p, st3) =>
        match (if byteAt env.prog (st3.pos + 1) = BP_R_RPARENT
               then some (expect env BP_L_RPARENT st3)
               else if decoder_get env st3 = BP_L_RPARENT then bindLoop env f p n 0 st3
               else some st3) with
        | none => none
        | some st4 =>
          let st5 := ignore env BP_CR (expect env BP_R_RPARENT st4)
          if st5.fun_id < (env.cfg.FD : Int) then
            let st6 := { st5 with
              functions := Function.update st5.functions st5.fun_id
                { st5.functions st5.fun_id with address := endp },
              fun_id := st5.fun_id + 1 }
            let (d, st7) := find_definition env f st6
            bodyLoop env n (decoder_goto (st7.definitions d).address st7)
          else some (0, error st5 Err.FUNCTION_CALL)

/-- Source `return_call`. -/
def return_call (env : Env) : Nat → State → Option (Int × State)
  | 0, _ => none
  | n + 1, st =>
    let st1 := decoder_next env st
    if st1.fun_id > 0 then
      match (if decoder_get env st1 ≠ BP_CR then relation env n st1 else some (0, st1)) with
      | none => none
      | some (rel, st2) =>
        let st3 := { st2 with fun_id := st2.fun_id - 1 }
        let st4 := restoreLoop env env.cfg.PARAMS 0 st3
        let st5 := decoder_goto (st4.functions st4.fun_id).address st4
        some (rel, { st5 with cycle_id := st5.fun_cycle_id })
    else some (0, error st1 Err.RETURN)

/-- The `do ... while` of source `print_call`. -/
def printLoop (env : Env) : Nat → State → Option State
  | 0, _ => none
  | n + 1, st =>
    let is_char := decoder_get env st = BP_CHAR
    let st1 := if is_char ∨ decoder_get env st = BP_COMMA then decoder_next env st else st
    match (
      if decoder_get env st1 = BP_STR_ACCESS then
        match relation env n (decoder_next env st1) with
        | none => none
        | some (v, s) =>
          some (expect env BP_ACCESS_END (emit s (Event.printStr (slotString env s v))))
      else if decoder_get env st1 = BP_STRING then
        let buf := decoder_string env st1 st1.string 0 env.cfg.SMAX
        let s := { st1 with string := buf }
        some (decoder_next env (emit s (Event.printStr (cstr buf 0 env.cfg.SMAX))))
      else if decoder_get env st1 = BP_S_ADDRESS then
        match var_factor env n st1 with
        | none => none
        | some (v, s) =>
          if s.return_type = BP_ACCESS then
            if is_char then some (emit s (Event.printChar (u8 v)))
            else some (emit s (Event.printInt v))
          else some (emit s (Event.printStr (slotString env s v)))
      else
        match relation env n st1 with
        | none => none
        | some (v, s) =>
          if s.return_type = BP_S_ADDRESS then
            some (emit s (Event.printStr (slotString env s v)))
          else if is_char then some (emit s (Event.printChar (u8 v)))
          else some (emit s (Event.printInt v))) with
    | none => none
    | some s =>
      if decoder_get env s ≠ BP_SEMICOLON ∧ decoder_get env s ≠ BP_CR ∧
         decoder_get env s ≠ BP_R_RPARENT ∧ decoder_get env s ≠ BP_SEMICOLON
      then printLoop env n s else some s

/-- Source `print_call`. -/
def print_call (env : Env) : Nat → State → Option State
  | 0, _ => none
  | n + 1, st =>
    match printLoop env n (ignore env BP_L_RPARENT (decoder_next env st)) with
    | none => none
    | some s => some (ignore env BP_R_RPARENT s)

/-- Source `if_call`. -/
def if_call (env : Env) : Nat → State → Option State
  | 0, _ => none
  | n + 1, st =>
    match relation env n (decoder_next env st) with
    | none => none
    | some (r, st1) =>
      let st2 := ignore env BP_CR st1
      match (if r = 0 then skip_block env n st2 else some st2) with
      | none => none
      | some st3 =>
        if decoder_get env st3 = BP_ELSE then
          let st4 := ignore env BP_CR (decoder_next env st3)
          if r ≠ 0 then skip_block env n st4 else some st4
        else some st3

/-- Source `variable_assignment_call`. -/
def variable_assignment_call (env : Env) : Nat → State → Option State
  | 0, _ => none
  | n + 1, st =>
    if decoder_get env st = BP_VAR_ACCESS then
      match relation env n (decoder_next env st) with
      | none => none
      | some (vi, st1) =>
        match relation env n (expect env BP_ACCESS_END st1) with
        | none => none
        | some (r, st2) => some (set_variable env vi r st2)
    else
      let st1 := decoder_next env st
      let vi := payloadId env st1
      match relation env n st1 with
      | none => none
      | some (r, st2) => some (set_variable env vi r st2)

/-- Source `string_assignment_call`. -/
def string_assignment_call (env : Env) : Nat → State → Option State
  | 0, _ => none
  | n + 1, st =>
    let str_acc := decoder_get env st = BP_STR_ACCESS
    let st1 := decoder_next env st
    match (if str_acc then
             match expression env n st1 with
             | none => none
             | some (e, s) => some (e, expect env BP_ACCESS_END s)
           else some (payloadId env st1, st1)) with
    | none => none
    | some (si, st2) =>
      match (if decoder_get env st2 = BP_ACCESS then
               match expression env n (decoder_next env st2) with
               | none => none
               | some (e, s) => some (e, expect env BP_ACCESS_END s)
             else some ((env.cfg.SMAX : Int), st2)) with
      | none => none
      | some (ci, st3) =>
        let base := si * (env.cfg.SMAX : Int)
        if ci = (env.cfg.SMAX : Int) then
          if decoder_get env st3 = BP_STRING then
            let s := { st3 with strings := decoder_string env st3 st3.strings base env.cfg.SMAX }
            some (decoder_next env (expect env BP_STRING s))
          else if decoder_get env st3 = BP_S_ADDRESS then
            let s := decoder_next env st3
            let cj := payloadId env s
            some (decoder_next env
              { s with strings := copyLoop env.cfg si cj env.cfg.SMAX 0 s.strings })
          else some st3
        else
          if decoder_get env st3 = BP_STRING then
            let s := expect env BP_STRING st3
            some (decoder_next env
              { s with
                strings := Function.update s.strings (base + ci)
                  (byteBefore env.prog s.pos 2 : Int) })
          else
            match expression env n st3 with
            | none => none
            | some (e, s) =>
              some (decoder_next env
                { s with strings := Function.update s.strings (base + ci) (u8 e) })

/-- Source `for_call`. -/
def for_call (env : Env) : Nat → State → Option State
  | 0, _ => none
  | n + 1, st =>
    let st1 := expect env BP_ADDRESS (ignore env BP_L_RPARENT (decoder_next env st))
    let vi := u8 (payloadId env st1)
    let st2 :=
      if st1.cycle_id < (env.cfg.CD : Int) then
        let (v, s) := get_variable env vi st1
        { s with
          cycles := Function.update s.cycles s.cycle_id
            { s.cycles s.cycle_id with var := v } }
      else st1
    match expression env n st2 with
    | none => none
    | some (a, st3) =>
      let st4 := expect env BP_COMMA (set_variable env vi a st3)
      match expression env n st4 with
      | none => none
      | some (e, st5) =>
        let st6 := ignore env BP_CR (ignore env BP_R_RPARENT st5)
        if st6.cycle_id < (env.cfg.CD : Int) then
          let (g, st7) := get_variable env vi st6
          some { st7 with
            cycles := Function.update st7.cycles st7.cycle_id
              { st7.cycles st7.cycle_id with
                var_id := vi, address := st7.pos, direction := decide (g < e), to_ := e },
            cycle_id := u8 (st7.cycle_id + 1) }
        else some (error_fun st6 Err.CYCLE_MAX)

/-- Source `while_call`. -/
def while_call (env : Env) : Nat → State → Option State
  | 0, _ => none
  | n + 1, st =>
    let start := st.pos
    match relation env n (decoder_next env st) with
    | none => none
    | some (r, st1) =>
      if r ≠ 0 then
        if st1.cycle_id < (env.cfg.CD : Int) then
          some { st1 with
            cycles := Function.update st1.cycles st1.cycle_id
              { st1.cycles st1.cycle_id with address := start },
            cycle_id := u8 (st1.cycle_id + 1) }
        else some (error st1 Err.WHILE_MAX)
      else whileSkipLoop env n 1 st1

/-- Source `redo_call`. -/
def redo_call (env : Env) : Nat → State → Option State
  | 0, _ => none
  | n + 1, st =>
    let st1 := decoder_next env st
    let endp := st1.pos
    if st1.cycle_id ≠ 0 then
      let st2 := decoder_next env (decoder_goto (st1.cycles (st1.cycle_id - 1)).address st1)
      match relation env n st2 with
      | none => none
      | some (r, st3) =>
        if r ≠ 0 then some (decoder_next env st3)
        else
          let st4 := decoder_goto endp st3
          some { st4 with cycle_id := u8 (st4.cycle_id - 1) }
    else some (error st1 Err.REDO)

/-- Source `digitalWrite_call`. -/
def digitalWrite_call (env : Env) : Nat → State → Option State
  | 0, _ => none
  | n + 1, st =>
    match expression env n (ignore env BP_L_RPARENT (decoder_next env st)) with
    | none => none
    | some (pin, st1) =>
      match expression env n (expect env BP_COMMA st1) with
      | none => none
      | some (v, st2) => some (ignore env BP_R_RPARENT (emit st2 (Event.ioWrite pin v)))

/-- Source `pinMode_call`. -/
def pinMode_call (env : Env) : Nat → State → Option State
  | 0, _ => none
  | n + 1, st =>
    match expression env n (ignore env BP_L_RPARENT (decoder_next env st)) with
    | none => none
    | some (pin, st1) =>
      match expression env n (expect env BP_COMMA st1) with
      | none => none
      | some (v, st2) => some (ignore env BP_R_RPARENT (emit st2 (Event.ioMode pin v)))

/-- Source `delay_call`. -/
def delay_call (env : Env) : Nat → State → Option State
  | 0, _ => none
  | n + 1, st =>
    match expression env n (ignore env BP_L_RPARENT (decoder_next env st)) with
    | none => none
    | some (ms, st1) => some (ignore env BP_R_RPARENT (emit st1 (Event.delay ms)))

/-- Source `serial_tx_call`. -/
def serial_tx_call (env : Env) : Nat → State → Option State
  | 0, _ => none
  | n + 1, st =>
    let st1 := ignore env BP_L_RPARENT (decoder_next env st)
    if decoder_get env st1 = BP_STRING then
      let buf := decoder_string env st1 st1.string 0 env.cfg.SMAX
      let s := { st1 with string := buf, out := st1.out ++ serialBytes buf 0 env.cfg.SMAX 0 }
      some (ignore env BP_R_RPARENT (decoder_next env s))
    else if decoder_get env st1 = BP_S_ADDRESS then
      let s := decoder_next env st1
      let id := u8 (payloadId env s)
      some (ignore env BP_R_RPARENT
        { s with out := s.out ++
            serialBytes s.strings (id * (env.cfg.SMAX : Int)) env.cfg.SMAX 0 })
    else
      match relation env n st1 with
      | none => none
      | some (v, s) => some (ignore env BP_R_RPARENT (emit s (Event.serialWrite v)))

/-- Source `statement`. -/
def statement (env : Env) : Nat → State → Option State
  | 0, _ => none
  | n + 1, st0 =>
    let st := { st0 with return_type := 0 }
    let op := decoder_get env st
    if op = BP_SEMICOLON ∨ op = BP_CR ∨ op = BP_ENDIF then some (decoder_next env st)
    else if op = BP_FUNCTION then
      match function_call env n st with
      | none => none
      | some (_, s) => some (ignore env BP_CR (expect env BP_R_RPARENT s))
    else if op = BP_VAR_ACCESS ∨ op = BP_ADDRESS then variable_assignment_call env n st
    else if op = BP_STR_ACCESS ∨ op = BP_S_ADDRESS then string_assignment_call env n st
    else if op = BP_INCREMENT ∨ op = BP_DECREMENT then
      match var_factor env n st with
      | none => none
      | some (_, s) => some (ignore env BP_CR s)
    else if op = BP_RETURN then
      match return_call env n st with
      | none => none
      | some (_, s) => some s
    else if op = BP_IF then if_call env n st
    else if op = BP_ELSE then else_call env n st
    else if op = BP_FOR then for_call env n st
    else if op = BP_WHILE then while_call env n st
    else if op = BP_REDO then redo_call env n st
    else if op = BP_NEXT then some (next_call env st)
    else if op = BP_BREAK then break_call env n st
    else if op = BP_CONTINUE then continue_call env n st
    else if op = BP_PRINT then print_call env n st
    else if op = BP_END then some (end_call env st)
    else if op = BP_DWRITE then digitalWrite_call env n st
    else if op = BP_PINMODE then pinMode_call env n st
    else if op = BP_DELAY then delay_call env n st
    else if op = BP_RESTART then some (restart_call st)
    else if op = BP_SERIAL_TX then serial_tx_call env n st
    else some (error st Err.STATEMENT)

end

/-! ## Loading and running -/

/-- The loop `for(uint8_t i = 0; i < BP_PARAMS; i++)
definitions[l].params[i] = BP_PARAMS;` of source `index_function_definitions`;
`i` is the `uint8_t` counter and `n` bounds the rounds.  With `BP_PARAMS` at most
255 (`Config`) the test fails after `BP_PARAMS` rounds, so 256 rounds are never
used up. -/
def fillParams (cfg : Config) : Nat → Int → (Int → Int) → Int → Int
  | 0, _, ps => ps
  | n + 1, i, ps =>
    if i < (cfg.PARAMS : Int) then
      fillParams cfg n (u8 (i + 1)) (Function.update ps i (cfg.PARAMS : Int))
    else ps

/-- The inner `while` of source `index_function_definitions`, reading the
parameter list from address `p`; `param` is the `uint16_t` slot counter.  The
result is the address the loop ends at and the parameter slots.  The slot is a
`uint16_t` and receives `*p`, a `char`: a byte of 128 or more is stored with its
sign extended. -/
def indexParams (prog : List Nat) : Nat → Nat → Int → (Int → Int) → Nat × (Int → Int)
  | 0, p, _, ps => (p, ps)
  | n + 1, p, param, ps =>
    if byteAt prog p = BP_COMMA ∨ byteAt prog p = BP_L_RPARENT then
      let p1 := p + 1
      let r : Nat × Int × (Int → Int) :=
        if byteAt prog p1 = BP_ADDRESS then
          (p1 + 2, u16 (param + 1), Function.update ps param (u16 (charAt prog (p1 + 1))))
        else (p1, param, ps)
      if byteAt prog r.1 = BP_R_RPARENT then (r.1, r.2.2)
      else indexParams prog n r.1 r.2.1 r.2.2
    else (p, ps)

/-- The outer `for(; *p && p; p++)` of source `index_function_definitions`;
`l` is the `uint16_t` definition counter.  The id is a `uint8_t` and holds the
byte. -/
def indexLoop (env : Env) : Nat → Nat → Int → State → State
  | 0, _, _, st => st
  | n + 1, p, l, st =>
    if byteAt env.prog p ≠ 0 then
      if byteAt env.prog p = BP_FUN_DEF then
        let l1 := u16 (l + 1)
        let ps0 := fillParams env.cfg 256 0 (st.definitions l1).params
        let r := indexParams env.prog (env.prog.length + 1) (p + 2) 0 ps0
        indexLoop env n (r.1 + 1) l1
          { st with
            definitions := Function.update st.definitions l1
              { address := r.1 + 2, id := (byteAt env.prog (p + 1) : Int), params := r.2 } }
      else indexLoop env n (p + 1) l st
    else st

/-- Source `index_function_definitions`.  Every round of either loop moves the
pointer forward and both stop on a zero byte, so the length of the program
bounds the number of rounds. -/
def index_function_definitions (env : Env) (st : State) : State :=
  indexLoop env (env.prog.length + 1) 0 0 st

/-- The interpreter object before `initialize`: the members with a default
initializer hold it (`cycle_id`, `fun_cycle_id`, `fun_id`, `ended`,
`return_type`, the ids of call-frame slots and of cycle frames, which are
`BP_VARIABLES` as `uint8_t`); the buffers without one are taken as zeroed. -/
def fresh (cfg : Config) : State :=
  { vars := fun _ => 0
    string := fun _ => 0
    strings := fun _ => 0
    cycles := fun _ =>
      { address := 0, direction := false, var := 0, var_id := u8 (cfg.NV : Int), to_ := 0 }
    functions := fun _ =>
      { address := 0, params := fun _ => { value := 0, id := u8 (cfg.NV : Int) } }
    definitions := fun _ => { address := 0, id := 0, params := fun _ => 0 }
    cycle_id := 0
    fun_cycle_id := 0
    fun_id := 0
    ended := false
    return_type := 0
    pos := 0
    errors := []
    out := [] }

/-- Source `initialize`, on a fresh object. -/
def initialise (env : Env) : State :=
  decoder_goto 0 (index_function_definitions env (set_default (fresh env.cfg)))

/-- Source `run`. -/
def run (env : Env) (fuel : Nat) (st : State) : Option State :=
  if ¬ decoder_finished env st then statement env fuel st else some st

/-- The embedder's loop `while(!finished()) run();`, at most `k` rounds. -/
def runUntilFinished (env : Env) (fuel : Nat) : Nat → State → Option State
  | 0, st => some st
  | k + 1, st =>
    if finished env st then some st
    else
      match run env fuel st with
      | none => none
      | some s => runUntilFinished env fuel k s


/-! ## Vocabulary of the statements -/

/-- ASCII decimal digits of a natural number, most significant first. -/
def decimal (n : Nat) : List Nat :=
  if n = 0 then [48] else ((Nat.digits 10 n).reverse).map (fun d => d + 48)

/-- An atomic operand of an expression: a `NUMBER` literal or an `ADDRESS`
reference with its payload byte. -/
inductive Operand where
  | num (n : Nat)
  | var (x : Nat)

/-- The bytes of an operand in the stream. -/
def Operand.bytes : Operand → List Nat
  | .num n => BP_NUMBER :: decimal n
  | .var x => [BP_ADDRESS, x]

/-- The value an operand denotes, given the values of the variables. -/
def Operand.value (cfg : Config) (vars : Int → Int) : Operand → Int
  | .num n => (n : Int)
  | .var x => vars ((x : Int) - (cfg.OFFSET : Int))

/-- A literal is representable in an `int` and in a cell; a reference names a
variable in `[0, NV)` by a payload byte below 128 (a byte that reads the same
through `char`), and the variable holds a cell value. -/
def Operand.ok (cfg : Config) (vars : Int → Int) : Operand → Prop
  | .num n => InCell cfg (n : Int) ∧ (n : Int) < 2 ^ (cfg.IW - 1)
  | .var x => cfg.OFFSET ≤ x ∧ x < 128 ∧ (x : Int) - (cfg.OFFSET : Int) < (cfg.NV : Int) ∧
      InCell cfg (vars ((x : Int) - (cfg.OFFSET : Int)))

/-- The opcode that follows an operand ends it: no digit, no `++` or `--`. -/
def AtomEnd (t : Nat) : Prop := isDigit t = false ∧ t ≠ BP_INCREMENT ∧ t ≠ BP_DECREMENT

/-- The bytes of `op₁ x₁ op₂ x₂ ...`, given the bytes of each operand. -/
def chainBytes {α : Type} (f : α → List Nat) : List (Nat × α) → List Nat
  | [] => []
  | x :: l => x.1 :: (f x.2 ++ chainBytes f l)

/-- A product `o₀ op₁ o₁ ... opₙ oₙ` of atomic operands (`op` among `*`, `/`, `%`). -/
structure TermS where
  head : Operand
  tail : List (Nat × Operand)

/-- A sum `t₀ op₁ t₁ ... opₙ tₙ` of products (`op` among `+ - & | ^ << >>`). -/
structure ExprS where
  head : TermS
  tail : List (Nat × TermS)

/-- A chain `e₀ op₁ e₁ ... opₙ eₙ` of sums (`op` a comparison or `&&`, `||`). -/
structure RelS where
  head : ExprS
  tail : List (Nat × ExprS)

def TermS.bytes (t : TermS) : List Nat := t.head.bytes ++ chainBytes Operand.bytes t.tail

def ExprS.bytes (e : ExprS) : List Nat := e.head.bytes ++ chainBytes TermS.bytes e.tail

def RelS.bytes (r : RelS) : List Nat := r.head.bytes ++ chainBytes ExprS.bytes r.tail

/-- Left fold of the operator switch `op` over the values of a chain. -/
def foldOps {α : Type} (op : Nat → Int → Int → Int) (val : α → Int) (v : Int) :
    List (Nat × α) → Int
  | [] => v
  | x :: l => foldOps op val (op x.1 v (val x.2)) l

/-- The value of `f1 op f2` for `op` among `*`, `/`, `%` where the operation
does not trap. -/
def termValue (cfg : Config) (operation : Nat) (f1 f2 : Int) : Int :=
  (termOp cfg operation f1 f2).getD 0

/-- No step of the product `v op₁ x₁ op₂ x₂ ...` traps: no divisor is zero and
the least cell value is not divided by -1. -/
def NoTrap {α : Type} (cfg : Config) (val : α → Int) : Int → List (Nat × α) → Prop
  | _, [] => True
  | v, x :: l =>
    termOp cfg x.1 v (val x.2) ≠ none ∧ NoTrap cfg val (termValue cfg x.1 v (val x.2)) l

def TermS.value (cfg : Config) (vars : Int → Int) (t : TermS) : Int :=
  foldOps (termValue cfg) (Operand.value cfg vars) (t.head.value cfg vars) t.tail

def ExprS.value (cfg : Config) (vars : Int → Int) (e : ExprS) : Int :=
  foldOps (expressionOp cfg) (TermS.value cfg vars) (e.head.value cfg vars) e.tail

def RelS.value (cfg : Config) (vars : Int → Int) (r : RelS) : Int :=
  foldOps relationOp (ExprS.value cfg vars) (r.head.value cfg vars) r.tail

def TermS.ok (cfg : Config) (vars : Int → Int) (t : TermS) : Prop :=
  t.head.ok cfg vars ∧ (∀ x ∈ t.tail, isTermOp x.1 = true ∧ x.2.ok cfg vars) ∧
  NoTrap cfg (Operand.value cfg vars) (t.head.value cfg vars) t.tail

def ExprS.ok (cfg : Config) (vars : Int → Int) (e : ExprS) : Prop :=
  e.head.ok cfg vars ∧ ∀ x ∈ e.tail, isExpressionOp x.1 = true ∧ x.2.ok cfg vars

def RelS.ok (cfg : Config) (vars : Int → Int) (r : RelS) : Prop :=
  r.head.ok cfg vars ∧ ∀ x ∈ r.tail, isRelationOp x.1 = true ∧ x.2.ok cfg vars

/-- The opcode after a product: it ends an operand and is no term operator. -/
def TermEnd (t : Nat) : Prop := AtomEnd t ∧ isTermOp t = false

/-- The opcode after a sum. -/
def ExprEnd (t : Nat) : Prop := TermEnd t ∧ isExpressionOp t = false

/-- The opcode after a relation chain. -/
def RelEnd (t : Nat) : Prop := ExprEnd t ∧ isRelationOp t = false

/-- The mathematical meaning of the operators `+`, `-`, `<<`, `>>`. -/
def arithOp (o : Nat) (x y : Int) : Int :=
  if o = BP_PLUS then x + y
  else if o = BP_MINUS then x - y
  else if o = BP_L_SHIFT then x * 2 ^ y.toNat
  else if o = BP_R_SHIFT then x / 2 ^ y.toNat
  else x

/-- `op` is one of `+`, `-`, `<<`, `>>`. -/
def isArithOp (o : Nat) : Prop :=
  o = BP_PLUS ∨ o = BP_MINUS ∨ o = BP_L_SHIFT ∨ o = BP_R_SHIFT

/-- No step of the chain `v op₁ x₁ op₂ x₂ ...` overflows a cell, and every shift
amount lies in `0 .. W - 1`. -/
def NoOverflow {α : Type} (cfg : Config) (val : α → Int) : Int → List (Nat × α) → Prop
  | _, [] => True
  | v, x :: l =>
    InCell cfg (arithOp x.1 v (val x.2)) ∧
    ((x.1 = BP_L_SHIFT ∨ x.1 = BP_R_SHIFT) → 0 ≤ val x.2 ∧ val x.2 < (cfg.W : Int)) ∧
    NoOverflow cfg val (arithOp x.1 v (val x.2)) l

/-- Configuration of the worked examples: 16 variables, 4 string slots of 8
bytes, cycle depth 4, call depth 6, 4 definitions, 4 parameter slots, address
offset 48, 32-bit cells, 32-bit `int`. -/
def cfgEx : Config := ⟨16, 4, 8, 4, 6, 4, 4, 48, 32, 32, by decide, by decide⟩

/-- A host that answers zero to every read. -/
def hostEx : Host :=
  ⟨fun _ => 0, 0, fun _ => 0, fun _ => 0, fun _ _ => 0, 0, 0, 0, 0, fun _ => 0, fun _ => 0⟩

/-- The stream of `a + b * 2` (`a`, `b` the variables 0 and 1), then `CR`. -/
def progSum : List Nat := [5, 48, 30, 5, 49, 27, 15, 50, 58, 0]

/-- A state with `a = 3` and `b = 4`. -/
def stSum : State :=
  { fresh cfgEx with vars := fun i => if i = 0 then 3 else if i = 1 then 4 else 0 }

/-- The stream of `1 < 2 && 5 < 3`, then `CR`. -/
def progCmp : List Nat := [15, 49, 41, 15, 50, 44, 15, 53, 41, 15, 51, 58, 0]

/-- The stream of `10 - 3 - 2`, then `CR`. -/
def progSub : List Nat := [15, 49, 48, 31, 15, 51, 31, 15, 50, 58, 0]

/-- The program
`x = 7; r = f(g(1)); end; f(x) { return x }  g(y) { return y }`
with `r`, `x`, `y` the variables 0, 3, 4 and `f`, `g` the function ids 70, 71.
The call `f(g(1))` starts at address 7. -/
def progNested : List Nat :=
  [5, 51, 15, 55, 58,
   5, 48, 7, 70, 3, 7, 71, 3, 15, 49, 4, 4, 58,
   70, 58,
   1, 70, 3, 5, 51, 4, 58, 62, 5, 51, 58,
   1, 71, 3, 5, 52, 4, 58, 62, 5, 52, 58, 0]

def envNested : Env := ⟨cfgEx, hostEx, progNested⟩

/-- The state of `progNested` after `x = 7`, the decoder at the call `f(g(1))`. -/
def stNested : State := decoder_goto 7 (set_variable envNested 3 7 (initialise envNested))

/-- The program `i = 9; for(i = 1 to 3) break; next; end`, `i` the variable 0. -/
def progBreak : List Nat :=
  [5, 48, 15, 57, 58, 63, 3, 5, 48, 15, 49, 2, 15, 51, 4, 58, 67, 58, 64, 58, 70, 0]

def envBreak : Env := ⟨cfgEx, hostEx, progBreak⟩

/-- The program `break; next; end`, run from the start with no loop open. -/
def progStray : List Nat := [67, 58, 64, 58, 70, 0]

def envStray : Env := ⟨cfgEx, hostEx, progStray⟩

/-- The program `for(i = 1 to 3) next; end`, `i` the variable 0. -/
def progFor : List Nat := [63, 3, 5, 48, 15, 49, 2, 15, 51, 4, 58, 64, 58, 70, 0]

def envFor : Env := ⟨cfgEx, hostEx, progFor⟩

/-- The state of `progFor` at its `FOR` with the cycle stack full
(`cycle_id = BP_CYCLE_DEPTH`). -/
def stForFull : State := { initialise envFor with cycle_id := 4 }

/-- The state at the start of the `k`-th further run of a loop body: each round
runs the body (any state transformer `body`) and then `next_call` on the `NEXT`
that closes it. -/
def loopStates (env : Env) (body : State → State) : Nat → State → State
  | 0, s => s
  | k + 1, s => loopStates env body k (next_call env (body s))

/-- The program `for(i = 1 to 3) ; next; end` with an empty statement as body:
`FOR` at 0, the body (`CR`) at 11, `NEXT` at 12; `i` is the variable 0. -/
def progCount : List Nat := [63, 3, 5, 48, 15, 49, 2, 15, 51, 4, 58, 58, 64, 58, 70, 0]

def envCount : Env := ⟨cfgEx, hostEx, progCount⟩

/-- The body of the loop of `progCount`, run by `statement`. -/
def bodyCount (s : State) : State := (statement envCount 1 s).getD s

/-- The program
`n = 5; print fact(n); end; fact(n) { if n <= 1 return 1 endif; return n * fact(n - 1) }`
with `n` the variable 2 and `fact` the function id 65.  The call `fact(n)` of
the main program starts at address 6 and closes at 11; the body of `fact`
starts at 22, and its inner call `fact(n - 1)` runs from 39 to 47. -/
def progFact : List Nat :=
  [5, 50, 15, 53, 58,
   69, 7, 65, 3, 5, 50, 4, 58,
   70, 58,
   1, 65, 3, 5, 50, 4, 58,
   59, 5, 50, 39, 15, 49, 58, 62, 15, 49, 58, 60, 58,
   62, 5, 50, 27, 7, 65, 3, 5, 50, 31, 15, 49, 4, 58, 0]

/-- The definition table holds `fact` as `index_function_definitions` leaves it
for `progFact`: entry 1 has id 65, body address 22 and the one parameter byte 50
followed by the sentinel `BP_PARAMS`; entry 0 has another id. -/
def FactDefs (cfg : Config) (st : State) : Prop :=
  (st.definitions 0).id ≠ 65 ∧ (st.definitions 1).id = 65 ∧ (st.definitions 1).address = 22 ∧
  (st.definitions 1).params 0 = 50 ∧ (st.definitions 1).params 1 = (cfg.PARAMS : Int)

/-- Every parameter slot of the call frames from index `f` on is free (its id is
`BP_VARIABLES`). -/
def FramesFree (cfg : Config) (st : State) (f : Int) : Prop :=
  ∀ k i : Int, f ≤ k → 0 ≤ i → i < (cfg.PARAMS : Int) →
    ((st.functions k).params i).id = (cfg.NV : Int)

/-- The constants suit `progFact`: offset 48, variable 2 exists, ids fit a byte,
one parameter fits the slots and is no sentinel, two definitions fit the table. -/
def FactConfig (cfg : Config) : Prop :=
  cfg.OFFSET = 48 ∧ 2 < cfg.NV ∧ cfg.NV ≤ 255 ∧ 3 ≤ cfg.PARAMS ∧ cfg.PARAMS ≠ 50 ∧ 2 ≤ cfg.FM

/-- The interpreter initialised on `progFact`, with the given values of the
variables, the decoder at the call `fact(n)` of the main program. -/
def stFact (cfg : Config) (host : Host) (vars : Int → Int) : State :=
  { initialise ⟨cfg, host, progFact⟩ with vars := vars, pos := 6 }

/-- The stream of
`if r == 0  r = 1  x = g()  endif  return  end`, `g() return h()`,
`h() restart  return 0` (`r`, `x` the variables 0 and 1, `g`, `h` the functions
65 and 66); the statement `x = g()` is at address 12, its call at 14, the
`return` of the main program at 21, the body of `g` at 30, of `h` at 41. -/
def progRestart : List Nat :=
  [59, 5, 48, 37, 15, 48, 58,
   5, 48, 15, 49, 58,
   5, 49, 7, 65, 3, 4, 58,
   60, 58,
   62, 58,
   70, 58,
   1, 65, 3, 4, 58, 62, 7, 66, 3, 4, 58,
   1, 66, 3, 4, 58, 74, 58, 62, 15, 48, 58, 0]

def envRestart : Env := ⟨cfgEx, hostEx, progRestart⟩

/-- The stream of `end`, `print 7` (each followed by `CR`). -/
def progEnd : List Nat := [70, 58, 69, 15, 55, 58, 0]

def envEnd : Env := ⟨cfgEx, hostEx, progEnd⟩

/-- The stream of `s = 5`, `x = s`, `end`, where `x` is variable 0 and `s` is the
reference with payload byte 64, variable id 16 = `BP_VARIABLES`. -/
def progSent : List Nat := [5, 64, 15, 53, 58, 5, 48, 5, 64, 58, 70, 58, 0]

def envSent : Env := ⟨cfgEx, hostEx, progSent⟩

/-- The stream of `x = f()`, `end`, `f() for(i = 1 to 1) y = g() next return 0`,
`g() return 1` (`x`, `y`, `i` the variables 0, 1, 2; `f`, `g` the functions 65
and 66); the call `f()` is at address 2. -/
def progCyc : List Nat :=
  [5, 48, 7, 65, 3, 4, 58,
   70, 58,
   1, 65, 3, 4, 58,
   63, 3, 5, 50, 15, 49, 2, 15, 49, 4, 58,
   5, 49, 7, 66, 3, 4, 58,
   64, 58,
   62, 15, 48, 58,
   1, 66, 3, 4, 58,
   62, 15, 49, 58, 0]

def envCyc : Env := ⟨cfgEx, hostEx, progCyc⟩

/-- The stream of `if 1`, `if 0`, `print 1`, `endif else`, `print 2`, `endif`,
`end`: the inner `IF` is at address 4, its `ENDIF` at 12, and the `ELSE` of the
outer `IF` follows at 13 with no separator in between. -/
def progElse : List Nat :=
  [59, 15, 49, 58,
   59, 15, 48, 58,
   69, 15, 49, 58,
   60, 61, 58,
   69, 15, 50, 58,
   60, 58,
   70, 58, 0]

def envElse : Env := ⟨cfgEx, hostEx, progElse⟩

/-- The stream of `while 0`, `while 1`, `redo`, `redo`, `end`: the `REDO` of the
inner loop is at address 8, the `REDO` of the outer loop at 10. -/
def progWhile : List Nat := [65, 15, 48, 58, 65, 15, 49, 58, 66, 58, 66, 58, 70, 58, 0]

def envWhile : Env := ⟨cfgEx, hostEx, progWhile⟩

/-- The stream of `for(i = 1 to 2)`, `if i == 1`, `continue`, `endif`,
`for(j = 1 to 1)`, `next`, `next`, `end`: `CONTINUE` is at address 18, the inner
`FOR` at 22, the `NEXT` of the outer loop at 35. -/
def progCont : List Nat :=
  [63, 3, 5, 48, 15, 49, 2, 15, 50, 4, 58,
   59, 5, 48, 37, 15, 49, 58,
   68, 58,
   60, 58,
   63, 3, 5, 49, 15, 49, 2, 15, 49, 4, 58,
   64, 58,
   64, 58,
   70, 58, 0]

def envCont : Env := ⟨cfgEx, hostEx, progCont⟩

/-- The stream of `for(i = 1 to 2)`, `break`, `end`, with no `NEXT`: `BREAK` is
at address 11, `END_OF_INPUT` at 15. -/
def progStuck : List Nat := [63, 3, 5, 48, 15, 49, 2, 15, 50, 4, 58, 67, 58, 70, 58, 0]

def envStuck : Env := ⟨cfgEx, hostEx, progStuck⟩

/-- The slot named on the left of a string assignment: by the payload byte of an
`S_ADDRESS` reference, or by an expression between `STR_ACCESS` and `ACCESS_END`. -/
inductive Slot where
  | named (b : Nat)
  | computed (e : ExprS)

/-- The bytes of a slot reference in the stream. -/
def Slot.bytes : Slot → List Nat
  | .named b => [BP_S_ADDRESS, b]
  | .computed e => BP_STR_ACCESS :: (e.bytes ++ [BP_ACCESS_END])

/-- The slot index a reference denotes. -/
def Slot.value (cfg : Config) (vars : Int → Int) : Slot → Int
  | .named b => (b : Int) - (cfg.OFFSET : Int)
  | .computed e => e.value cfg vars

/-- A named slot has a payload byte below 128 (a byte that reads the same
through `char`); a computed one has a well-formed index expression. -/
def Slot.ok (cfg : Config) (vars : Int → Int) : Slot → Prop
  | .named b => b < 128
  | .computed e => e.ok cfg vars

/-- The stream of `while 0`, `print 7`, `redo`, `end`: the `REDO` is at address
8, the first token behind it at 9. -/
def progSkip : List Nat := [65, 15, 48, 58, 69, 15, 55, 58, 66, 58, 70, 58, 0]

def envSkip : Env := ⟨cfgEx, hostEx, progSkip⟩

/-- The stream of `x = 2`, `while x print 7`, `x = x - 1`, `redo`, `end` (`x` the
variable 0): the `WHILE` is at address 5, the first token of its body, `PRINT`,
follows the condition at address 8 with no `CR` in between; the `REDO` is at 20. -/
def progRedo : List Nat :=
  [5, 48, 15, 50, 58,
   65, 5, 48,
   69, 15, 55, 58,
   5, 48, 5, 48, 31, 15, 49, 58,
   66, 58,
   70, 58, 0]

def envRedo : Env := ⟨cfgEx, hostEx, progRedo⟩

/-- The bytes of a run of `++` (`true`) and `--` (`false`) tokens. -/
def runBytes (r : List Bool) : List Nat :=
  r.map (fun b => if b then BP_INCREMENT else BP_DECREMENT)

/-- The net count of a run: the number of `++` less the number of `--`. -/
def netCount : List Bool → Int
  | [] => 0
  | b :: l => (if b then 1 else -1) + netCount l

/-- The stream of `++ ++ x -- t` with `x` the variable 0 and `t` a `CR`. -/
def progUnary : List Nat := [12, 12, 5, 48, 13, 58, 0]

/-- A state with `x = 10`. -/
def stUnary : State :=
  { fresh cfgEx with vars := fun k => if k = 0 then 10 else 0 }

/-- The bytes of a parameter list `ADDRESS p₀ COMMA ADDRESS p₁ ...`, given the
payload bytes. -/
def paramBytes : List Nat → List Nat
  | [] => []
  | [p] => [BP_ADDRESS, p]
  | p :: q :: l => BP_ADDRESS :: p :: BP_COMMA :: paramBytes (q :: l)

/-- The bytes of a definition header `FUN_DEF id ( ADDRESS p₀ , ... )`. -/
def headerBytes (id : Nat) (ps : List Nat) : List Nat :=
  BP_FUN_DEF :: id :: BP_L_RPARENT :: (paramBytes ps ++ [BP_R_RPARENT])

/-- A piece of the stream as the indexing scan reads it: a byte that is neither
`FUN_DEF` nor the end of the stream, or a definition header. -/
inductive Chunk where
  | byte (b : Nat)
  | header (id : Nat) (ps : List Nat)

def Chunk.bytes : Chunk → List Nat
  | .byte b => [b]
  | .header id ps => headerBytes id ps

def Chunk.ok (cfg : Config) : Chunk → Prop
  | .byte b => b ≠ 0 ∧ b ≠ BP_FUN_DEF
  | .header _ ps => ps.length < cfg.PARAMS

/-- An equation that has been used: `Used a b` is `a = b`. -/
def Used {α : Type} (a b : α) : Prop := a = b

/-- Every result of a run that returns satisfies `Q`. -/
def Post {α : Type} (Q : α → Prop) (r : Option α) : Prop := ∀ a, r = some a → Q a

theorem byteAt_of_drop {prog : List Nat} {p : Nat} {l : List Nat} (h : prog.drop p = l) (k : Nat) :
    byteAt prog (p + k) = l.getD k 0 := by
  subst h
  simp [byteAt, List.getD_eq_getElem?_getD, List.getElem?_drop]

theorem drop_of_drop {prog : List Nat} {p : Nat} {l : List Nat} (h : prog.drop p = l) (k : Nat) :
    prog.drop (p + k) = l.drop k := by
  subst h
  simp [List.drop_drop]

theorem digitRun_append (ds : List Nat) (t : Nat) (rest : List Nat)
    (hds : ∀ d ∈ ds, isDigit d = true) (ht : isDigit t = false) :
    digitRun (ds ++ t :: rest) = ds.length := by
  induction ds with
  | nil => simp [digitRun, ht]
  | cons d ds ih =>
    have hd : isDigit d = true := hds d (by simp)
    have := ih (fun x hx => hds x (by simp [hx]))
    simp [digitRun, hd, this]

theorem digitsValue_append (ds : List Nat) (t : Nat) (rest : List Nat) (acc : Nat)
    (hds : ∀ d ∈ ds, isDigit d = true) (ht : isDigit t = false) :
    digitsValue (ds ++ t :: rest) acc = ds.foldl (fun a d => a * 10 + (d - 48)) acc := by
  induction ds generalizing acc with
  | nil => simp [digitsValue, ht]
  | cons d ds ih =>
    have hd : isDigit d = true := hds d (by simp)
    have := ih (acc * 10 + (d - 48)) (fun x hx => hds x (by simp [hx]))
    simp [digitsValue, hd, this]

theorem decimal_isDigit (n : Nat) : ∀ d ∈ decimal n, isDigit d = true := by
  intro d hd
  unfold decimal at hd
  split at hd
  · simp at hd; subst hd; decide
  · simp only [List.mem_map, List.mem_reverse] at hd
    obtain ⟨x, hx, rfl⟩ := hd
    have := Nat.digits_lt_base (by norm_num : 1 < 10) hx
    simp [isDigit]; omega

theorem foldl_digits (l : List Nat) :
    (l.reverse.map (fun d => d + 48)).foldl (fun a d => a * 10 + (d - 48)) 0 = Nat.ofDigits 10 l := by
  induction l with
  | nil => simp [Nat.ofDigits]
  | cons h t ih =>
    simp only [List.reverse_cons, List.map_append, List.foldl_append, ih, List.map_cons, List.map_nil,
      List.foldl_cons, List.foldl_nil, Nat.ofDigits_cons]
    omega

theorem decimal_value (n : Nat) :
    (decimal n).foldl (fun a d => a * 10 + (d - 48)) 0 = n := by
  unfold decimal
  split
  · subst_vars; simp
  · rw [foldl_digits, Nat.ofDigits_digits]

theorem decimal_length_pos (n : Nat) : 0 < (decimal n).length := by
  unfold decimal
  split
  · simp
  · rename_i h
    simp only [List.length_map, List.length_reverse]
    exact List.length_pos.mpr (by simpa [Nat.digits_eq_nil_iff_eq_zero] using h)

theorem wrapCell_of_inCell (cfg : Config) (x : Int) (h : InCell cfg x) : wrapCell cfg x = x := by
  unfold InCell at h
  unfold wrapCell
  have hpos : (0 : Int) < 2 ^ (cfg.W - 1) := by positivity
  rw [Int.emod_eq_of_lt (by omega) (by omega)]
  omega

theorem i8_of_lt (x : Nat) (h : x < 128) : i8 (x : Int) = (x : Int) := by
  unfold i8
  omega

theorem wrapInt_of_lt (cfg : Config) (x : Int) (h0 : 0 ≤ x) (h : x < 2 ^ (cfg.IW - 1)) :
    wrapInt cfg x = x := by
  unfold wrapInt
  have hpos : (0 : Int) < 2 ^ (cfg.IW - 1) := by positivity
  rw [Int.emod_eq_of_lt (by omega) (by omega)]
  omega

/-- A literal below `2 ^ 15` fits every `int`. -/
theorem int_small (cfg : Config) (x : Int) (h : x < 32768) : x < 2 ^ (cfg.IW - 1) := by
  have h1 : (2 : Int) ^ 15 ≤ 2 ^ (cfg.IW - 1) :=
    pow_le_pow_right₀ (by norm_num) (by have := cfg.int_ge; omega)
  have h2 : (2 : Int) ^ 15 = 32768 := by norm_num
  omega

theorem decoder_goto_self (st : State) : decoder_goto st.pos st = st := rfl

@[simp] theorem decoder_get_goto (env : Env) (p : Nat) (st : State) :
    decoder_get env (decoder_goto p st) = byteAt env.prog p := rfl

@[simp] theorem decoder_next_goto (env : Env) (p : Nat) (st : State) :
    decoder_next env (decoder_goto p st) = decoder_goto (p + tokenLength env.prog p) st := rfl

@[simp] theorem decoder_goto_goto (p q : Nat) (st : State) :
    decoder_goto p (decoder_goto q st) = decoder_goto p st := rfl

@[simp] theorem decoder_goto_pos (p : Nat) (st : State) : (decoder_goto p st).pos = p := rfl

@[simp] theorem decoder_goto_vars (p : Nat) (st : State) : (decoder_goto p st).vars = st.vars := rfl

theorem get_variable_ok (env : Env) (n : Int) (st : State) (h0 : 0 ≤ n)
    (h1 : n ≤ (env.cfg.NV : Int)) : get_variable env n st = (st.vars n, st) := by
  simp [get_variable, h0, h1]

theorem factor_operand (env : Env) (st : State) (p : Nat) (o : Operand) (t : Nat) (rest : List Nat)
    (fuel : Nat) (hp : env.prog.drop p = o.bytes ++ t :: rest) (hok : o.ok env.cfg st.vars)
    (ht : AtomEnd t) (hf : 3 ≤ fuel) :
    factor env fuel (decoder_goto p st) =
      some (o.value env.cfg st.vars, decoder_goto (p + o.bytes.length) st) := by
  obtain ⟨k, rfl⟩ : ∃ k, fuel = k + 3 := ⟨fuel - 3, by omega⟩
  obtain ⟨hdig, hinc, hdec⟩ := ht
  simp only [BP_INCREMENT, BP_DECREMENT] at hinc hdec
  cases o with
  | num n =>
    simp only [Operand.bytes, List.cons_append] at hp
    have h0 := byteAt_of_drop hp 0
    have h1 := drop_of_drop hp 1
    simp only [List.getD_cons_zero, Nat.add_zero, List.drop_succ_cons, List.drop_zero] at h0 h1
    have hlen : tokenLength env.prog p = 1 + (decimal n).length := by
      simp [tokenLength, h0, h1, digitRun_append _ _ _ (decimal_isDigit n) hdig]
    have hval : extract_number env p = (n : Int) := by
      simp only [extract_number, h1, digitsValue_append _ _ _ _ (decimal_isDigit n) hdig, decimal_value]
      rw [wrapInt_of_lt _ _ (by positivity) hok.2]
      exact wrapCell_of_inCell _ _ hok.1
    simp [factor, ignore, h0, expect, hlen, hval, Operand.value, Operand.bytes]
    congr 1; omega
  | var x =>
    obtain ⟨hx1, hx2, hx3, hx4⟩ := hok
    simp only [Operand.bytes, List.cons_append, List.nil_append] at hp
    have h0 := byteAt_of_drop hp 0
    have h1 := byteAt_of_drop hp 1
    have h2 := byteAt_of_drop hp 2
    simp at h0 h1 h2
    have hlen : tokenLength env.prog p = 2 := by simp [tokenLength, h0]
    have hid : i16 ((x : Int) - (env.cfg.OFFSET : Int)) = (x : Int) - (env.cfg.OFFSET : Int) := by
      unfold i16; omega
    have hg : get_variable env ((x : Int) - (env.cfg.OFFSET : Int)) (decoder_goto (p + 2) st) =
        (st.vars ((x : Int) - (env.cfg.OFFSET : Int)), decoder_goto (p + 2) st) :=
      get_variable_ok _ _ _ (by omega) (by omega)
    simp [factor, ignore, h0, var_factor, unary, unaryLoop, hlen, payloadId, charBefore, byteBefore,
      h1, i8_of_lt x hx2, hid, hg, h2, hinc, hdec, Operand.value, Operand.bytes,
      wrapCell_of_inCell _ _ hx4]

theorem isTermOp_cases {o : Nat} (h : isTermOp o = true) : o = 27 ∨ o = 28 ∨ o = 29 := by
  simpa [isTermOp, or_assoc] using h

theorem isExpressionOp_cases {o : Nat} (h : isExpressionOp o = true) :
    o = 30 ∨ o = 31 ∨ o = 32 ∨ o = 33 ∨ o = 34 ∨ o = 35 ∨ o = 36 := by
  simpa [isExpressionOp, or_assoc] using h

theorem isRelationOp_cases {o : Nat} (h : isRelationOp o = true) :
    o = 37 ∨ o = 38 ∨ o = 39 ∨ o = 40 ∨ o = 41 ∨ o = 42 ∨ o = 43 ∨ o = 44 := by
  simpa [isRelationOp, or_assoc] using h

theorem atomEnd_of_termOp {o : Nat} (h : isTermOp o = true) : AtomEnd o := by
  rcases isTermOp_cases h with h | h | h <;> subst h <;> simp [AtomEnd, isDigit]

theorem termEnd_of_expressionOp {o : Nat} (h : isExpressionOp o = true) : TermEnd o := by
  rcases isExpressionOp_cases h with h | h | h | h | h | h | h <;> subst h <;>
    simp [TermEnd, AtomEnd, isDigit, isTermOp]

theorem exprEnd_of_relationOp {o : Nat} (h : isRelationOp o = true) : ExprEnd o := by
  rcases isRelationOp_cases h with h | h | h | h | h | h | h | h <;> subst h <;>
    simp [ExprEnd, TermEnd, AtomEnd, isDigit, isTermOp, isExpressionOp]

theorem tokenLength_op {prog : List Nat} {p o : Nat} (h0 : byteAt prog p = o)
    (h : isTermOp o = true ∨ isExpressionOp o = true ∨ isRelationOp o = true) :
    tokenLength prog p = 1 := by
  rcases h with h | h | h
  · rcases isTermOp_cases h with h | h | h <;> subst h <;> simp [tokenLength, h0]
  · rcases isExpressionOp_cases h with h | h | h | h | h | h | h <;> subst h <;>
      simp [tokenLength, h0]
  · rcases isRelationOp_cases h with h | h | h | h | h | h | h | h <;> subst h <;>
      simp [tokenLength, h0]

/-- What follows the operand of a product: the next operator or the end token. -/
theorem chain_next {α : Type} (f : α → List Nat) (l : List (Nat × α)) (t : Nat) (rest : List Nat)
    (P : Nat → Prop) (hl : ∀ x ∈ l, P x.1) (ht : P t) :
    ∃ t1 rest1, chainBytes f l ++ t :: rest = t1 :: rest1 ∧ P t1 := by
  cases l with
  | nil => exact ⟨t, rest, rfl, ht⟩
  | cons x l => exact ⟨x.1, _, rfl, hl x (by simp)⟩

theorem operand_two_le_length (o : Operand) : 2 ≤ o.bytes.length := by
  cases o with
  | num n => have := decimal_length_pos n; simp [Operand.bytes]; omega
  | var x => simp [Operand.bytes]

theorem termLoop_chain (env : Env) (st : State) (l : List (Nat × Operand)) :
    ∀ (f1 : Int) (p : Nat) (t : Nat) (rest : List Nat) (fuel : Nat),
      env.prog.drop p = chainBytes Operand.bytes l ++ t :: rest →
      (∀ x ∈ l, isTermOp x.1 = true ∧ x.2.ok env.cfg st.vars) →
      NoTrap env.cfg (Operand.value env.cfg st.vars) f1 l → TermEnd t →
      (chainBytes Operand.bytes l).length + 4 ≤ fuel →
      termLoop env fuel f1 (decoder_goto p st) =
        some (foldOps (termValue env.cfg) (Operand.value env.cfg st.vars) f1 l,
              decoder_goto (p + (chainBytes Operand.bytes l).length) st) := by
  induction l with
  | nil =>
    intro f1 p t rest fuel hp _ _ ht hf
    obtain ⟨k, rfl⟩ : ∃ k, fuel = k + 1 := ⟨fuel - 1, by omega⟩
    have h0 := byteAt_of_drop hp 0
    simp [chainBytes] at h0
    simp [termLoop, h0, ht.2, foldOps, chainBytes]
  | cons x l ih =>
    intro f1 p t rest fuel hp hok hnt ht hf
    obtain ⟨k, rfl⟩ : ∃ k, fuel = k + 1 := ⟨fuel - 1, by omega⟩
    have hx := hok x (by simp)
    obtain ⟨hnt1, hnt2⟩ := hnt
    obtain ⟨v, hv⟩ := Option.ne_none_iff_exists'.mp hnt1
    have hv2 : termValue env.cfg x.1 f1 (x.2.value env.cfg st.vars) = v := by
      simp [termValue, hv]
    rw [hv2] at hnt2
    simp only [chainBytes, List.cons_append, List.append_assoc, List.length_cons,
      List.length_append] at hp hf
    have h0 := byteAt_of_drop hp 0
    have h1 := drop_of_drop hp 1
    simp only [List.getD_cons_zero, Nat.add_zero, List.drop_succ_cons, List.drop_zero] at h0 h1
    obtain ⟨t1, rest1, hnext, ht1⟩ := chain_next Operand.bytes l t rest AtomEnd
      (fun y hy => atomEnd_of_termOp (hok y (by simp [hy])).1) ht.1
    rw [hnext] at h1
    have hfac := factor_operand env st (p + 1) x.2 t1 rest1 k h1 hx.2 ht1 (by
      have := operand_two_le_length x.2
      omega)
    have h2 := drop_of_drop h1 x.2.bytes.length
    rw [List.drop_left', ← hnext] at h2
    have := ih v (p + 1 + x.2.bytes.length) t rest k h2
      (fun y hy => hok y (by simp [hy])) hnt2 ht (by omega)
    simp only [termLoop, decoder_get_goto, h0, hx.1, if_true, decoder_next_goto,
      tokenLength_op h0 (Or.inl hx.1), hfac, hv, this, foldOps, hv2, chainBytes, List.length_cons,
      List.length_append]
    congr 3; omega
    rfl
theorem termS_two_le_length (c : TermS) : 2 ≤ c.bytes.length := by
  have := operand_two_le_length c.head
  simp [TermS.bytes]; omega

theorem exprS_two_le_length (c : ExprS) : 2 ≤ c.bytes.length := by
  have := termS_two_le_length c.head
  simp [ExprS.bytes]; omega

theorem term_chain (env : Env) (st : State) (c : TermS) (p t : Nat) (rest : List Nat) (fuel : Nat)
    (hp : env.prog.drop p = c.bytes ++ t :: rest) (hok : c.ok env.cfg st.vars) (ht : TermEnd t)
    (hf : c.bytes.length + 5 ≤ fuel) :
    term env fuel (decoder_goto p st) =
      some (c.value env.cfg st.vars, decoder_goto (p + c.bytes.length) st) := by
  obtain ⟨k, rfl⟩ : ∃ k, fuel = k + 1 := ⟨fuel - 1, by omega⟩
  simp only [TermS.bytes, List.append_assoc, List.length_append] at hp hf
  obtain ⟨t1, rest1, hnext, ht1⟩ := chain_next Operand.bytes c.tail t rest AtomEnd
    (fun y hy => atomEnd_of_termOp (hok.2.1 y hy).1) ht.1
  have hp1 := hp
  rw [hnext] at hp1
  have hfac := factor_operand env st p c.head t1 rest1 k hp1 hok.1 ht1 (by
    have := operand_two_le_length c.head
    omega)
  have h2 := drop_of_drop hp c.head.bytes.length
  rw [List.drop_left'] at h2
  have := termLoop_chain env st c.tail (c.head.value env.cfg st.vars) (p + c.head.bytes.length) t rest k
    h2 hok.2.1 hok.2.2 ht (by omega)
  simp only [term, hfac, this, TermS.value, TermS.bytes, List.length_append]
  congr 3; omega
  rfl

theorem expressionLoop_chain (env : Env) (st : State) (l : List (Nat × TermS)) :
    ∀ (t1 : Int) (p : Nat) (t : Nat) (rest : List Nat) (fuel : Nat),
      env.prog.drop p = chainBytes TermS.bytes l ++ t :: rest →
      (∀ x ∈ l, isExpressionOp x.1 = true ∧ x.2.ok env.cfg st.vars) → ExprEnd t →
      (chainBytes TermS.bytes l).length + 6 ≤ fuel →
      expressionLoop env fuel t1 (decoder_goto p st) =
        some (foldOps (expressionOp env.cfg) (TermS.value env.cfg st.vars) t1 l,
              decoder_goto (p + (chainBytes TermS.bytes l).length) st) := by
  induction l with
  | nil =>
    intro f1 p t rest fuel hp _ ht hf
    obtain ⟨k, rfl⟩ : ∃ k, fuel = k + 1 := ⟨fuel - 1, by omega⟩
    have h0 := byteAt_of_drop hp 0
    simp [chainBytes] at h0
    simp [expressionLoop, h0, ht.2, foldOps, chainBytes]
  | cons x l ih =>
    intro f1 p t rest fuel hp hok ht hf
    obtain ⟨k, rfl⟩ : ∃ k, fuel = k + 1 := ⟨fuel - 1, by omega⟩
    have hx := hok x (by simp)
    simp only [chainBytes, List.cons_append, List.append_assoc, List.length_cons,
      List.length_append] at hp hf
    have h0 := byteAt_of_drop hp 0
    have h1 := drop_of_drop hp 1
    simp only [List.getD_cons_zero, Nat.add_zero, List.drop_succ_cons, List.drop_zero] at h0 h1
    obtain ⟨t1, rest1, hnext, ht1⟩ := chain_next TermS.bytes l t rest TermEnd
      (fun y hy => termEnd_of_expressionOp (hok y (by simp [hy])).1) ht.1
    have h1a := h1
    rw [hnext] at h1a
    have hfac := term_chain env st x.2 (p + 1) t1 rest1 k h1a hx.2 ht1 (by omega)
    have h2 := drop_of_drop h1 x.2.bytes.length
    rw [List.drop_left'] at h2
    have := ih (expressionOp env.cfg x.1 f1 (x.2.value env.cfg st.vars)) (p + 1 + x.2.bytes.length)
      t rest k h2 (fun y hy => hok y (by simp [hy])) ht (by omega)
    simp only [expressionLoop, decoder_get_goto, h0, hx.1, if_true, decoder_next_goto,
      tokenLength_op h0 (Or.inr (Or.inl hx.1)), hfac, this, foldOps, chainBytes, List.length_cons,
      List.length_append]
    congr 3; omega
    rfl

theorem expression_chain (env : Env) (st : State) (c : ExprS) (p t : Nat) (rest : List Nat)
    (fuel : Nat) (hp : env.prog.drop p = c.bytes ++ t :: rest) (hok : c.ok env.cfg st.vars)
    (ht : ExprEnd t) (hf : c.bytes.length + 7 ≤ fuel) :
    expression env fuel (decoder_goto p st) =
      some (c.value env.cfg st.vars, decoder_goto (p + c.bytes.length) st) := by
  obtain ⟨k, rfl⟩ : ∃ k, fuel = k + 1 := ⟨fuel - 1, by omega⟩
  simp only [ExprS.bytes, List.append_assoc, List.length_append] at hp hf
  obtain ⟨t1, rest1, hnext, ht1⟩ := chain_next TermS.bytes c.tail t rest TermEnd
    (fun y hy => termEnd_of_expressionOp (hok.2 y hy).1) ht.1
  have hp1 := hp
  rw [hnext] at hp1
  have hfac := term_chain env st c.head p t1 rest1 k hp1 hok.1 ht1 (by omega)
  have h2 := drop_of_drop hp c.head.bytes.length
  rw [List.drop_left'] at h2
  have := expressionLoop_chain env st c.tail (c.head.value env.cfg st.vars) (p + c.head.bytes.length)
    t rest k h2 hok.2 ht (by omega)
  simp only [expression, hfac, this, ExprS.value, ExprS.bytes, List.length_append]
  congr 3; omega
  rfl

theorem relationLoop_chain (env : Env) (st : State) (l : List (Nat × ExprS)) :
    ∀ (r1 : Int) (p : Nat) (t : Nat) (rest : List Nat) (fuel : Nat),
      env.prog.drop p = chainBytes ExprS.bytes l ++ t :: rest →
      (∀ x ∈ l, isRelationOp x.1 = true ∧ x.2.ok env.cfg st.vars) → RelEnd t →
      (chainBytes ExprS.bytes l).length + 8 ≤ fuel →
      relationLoop env fuel r1 (decoder_goto p st) =
        some (foldOps relationOp (ExprS.value env.cfg st.vars) r1 l,
              decoder_goto (p + (chainBytes ExprS.bytes l).length) st) := by
  induction l with
  | nil =>
    intro f1 p t rest fuel hp _ ht hf
    obtain ⟨k, rfl⟩ : ∃ k, fuel = k + 1 := ⟨fuel - 1, by omega⟩
    have h0 := byteAt_of_drop hp 0
    simp [chainBytes] at h0
    simp [relationLoop, h0, ht.2, foldOps, chainBytes]
  | cons x l ih =>
    intro f1 p t rest fuel hp hok ht hf
    obtain ⟨k, rfl⟩ : ∃ k, fuel = k + 1 := ⟨fuel - 1, by omega⟩
    have hx := hok x (by simp)
    simp only [chainBytes, List.cons_append, List.append_assoc, List.length_cons,
      List.length_append] at hp hf
    have h0 := byteAt_of_drop hp 0
    have h1 := drop_of_drop hp 1
    simp only [List.getD_cons_zero, Nat.add_zero, List.drop_succ_cons, List.drop_zero] at h0 h1
    obtain ⟨t1, rest1, hnext, ht1⟩ := chain_next ExprS.bytes l t rest ExprEnd
      (fun y hy => exprEnd_of_relationOp (hok y (by simp [hy])).1) ht.1
    have h1a := h1
    rw [hnext] at h1a
    have hfac := expression_chain env st x.2 (p + 1) t1 rest1 k h1a hx.2 ht1 (by omega)
    have h2 := drop_of_drop h1 x.2.bytes.length
    rw [List.drop_left'] at h2
    have := ih (relationOp x.1 f1 (x.2.value env.cfg st.vars)) (p + 1 + x.2.bytes.length)
      t rest k h2 (fun y hy => hok y (by simp [hy])) ht (by omega)
    simp only [relationLoop, decoder_get_goto, h0, hx.1, if_true, decoder_next_goto,
      tokenLength_op h0 (Or.inr (Or.inr hx.1)), hfac, this, foldOps, chainBytes, List.length_cons,
      List.length_append]
    congr 3; omega
    rfl

theorem relation_chain (env : Env) (st : State) (c : RelS) (p t : Nat) (rest : List Nat)
    (fuel : Nat) (hp : env.prog.drop p = c.bytes ++ t :: rest) (hok : c.ok env.cfg st.vars)
    (ht : RelEnd t) (hf : c.bytes.length + 9 ≤ fuel) :
    relation env fuel (decoder_goto p st) =
      some (c.value env.cfg st.vars, decoder_goto (p + c.bytes.length) st) := by
  obtain ⟨k, rfl⟩ : ∃ k, fuel = k + 1 := ⟨fuel - 1, by omega⟩
  simp only [RelS.bytes, List.append_assoc, List.length_append] at hp hf
  obtain ⟨t1, rest1, hnext, ht1⟩ := chain_next ExprS.bytes c.tail t rest ExprEnd
    (fun y hy => exprEnd_of_relationOp (hok.2 y hy).1) ht.1
  have hp1 := hp
  rw [hnext] at hp1
  have hfac := expression_chain env st c.head p t1 rest1 k hp1 hok.1 ht1 (by omega)
  have h2 := drop_of_drop hp c.head.bytes.length
  rw [List.drop_left'] at h2
  have := relationLoop_chain env st c.tail (c.head.value env.cfg st.vars) (p + c.head.bytes.length)
    t rest k h2 hok.2 ht (by omega)
  simp only [relation, hfac, this, RelS.value, RelS.bytes, List.length_append]
  congr 3; omega
  rfl
@[simp] theorem decoder_goto_string (p : Nat) (st : State) :
    (decoder_goto p st).string = st.string := rfl

@[simp] theorem decoder_goto_strings (p : Nat) (st : State) :
    (decoder_goto p st).strings = st.strings := rfl

@[simp] theorem decoder_goto_cycles (p : Nat) (st : State) :
    (decoder_goto p st).cycles = st.cycles := rfl

@[simp] theorem decoder_goto_functions (p : Nat) (st : State) :
    (decoder_goto p st).functions = st.functions := rfl

@[simp] theorem decoder_goto_definitions (p : Nat) (st : State) :
    (decoder_goto p st).definitions = st.definitions := rfl

@[simp] theorem decoder_goto_cycle_id (p : Nat) (st : State) :
    (decoder_goto p st).cycle_id = st.cycle_id := rfl

@[simp] theorem decoder_goto_fun_cycle_id (p : Nat) (st : State) :
    (decoder_goto p st).fun_cycle_id = st.fun_cycle_id := rfl

@[simp] theorem decoder_goto_fun_id (p : Nat) (st : State) :
    (decoder_goto p st).fun_id = st.fun_id := rfl

@[simp] theorem decoder_goto_ended (p : Nat) (st : State) :
    (decoder_goto p st).ended = st.ended := rfl

@[simp] theorem decoder_goto_return_type (p : Nat) (st : State) :
    (decoder_goto p st).return_type = st.return_type := rfl

@[simp] theorem decoder_goto_errors (p : Nat) (st : State) :
    (decoder_goto p st).errors = st.errors := rfl

@[simp] theorem decoder_goto_out (p : Nat) (st : State) :
    (decoder_goto p st).out = st.out := rfl

theorem decoder_next_eq (env : Env) (st : State) :
    decoder_next env st = decoder_goto (st.pos + tokenLength env.prog st.pos) st := rfl

theorem decoder_get_eq (env : Env) (st : State) : decoder_get env st = byteAt env.prog st.pos := rfl

theorem expect_hit (env : Env) (c : Nat) (s : State) (h : byteAt env.prog s.pos = c) :
    expect env c s = decoder_goto (s.pos + tokenLength env.prog s.pos) s := by
  simp [expect, decoder_get_eq, h, decoder_next_eq]

theorem ignore_hit (env : Env) (c : Nat) (s : State) (h : byteAt env.prog s.pos = c) :
    ignore env c s = decoder_goto (s.pos + tokenLength env.prog s.pos) s := by
  simp [ignore, decoder_get_eq, h, decoder_next_eq]

theorem ignore_miss (env : Env) (c : Nat) (s : State) (h : byteAt env.prog s.pos ≠ c) :
    ignore env c s = s := by
  simp [ignore, decoder_get_eq, Ne.symm h]

theorem set_variable_ok (env : Env) (n v : Int) (s : State) (h0 : 0 ≤ n)
    (h1 : n ≤ (env.cfg.NV : Int)) :
    set_variable env n v s = { s with vars := Function.update s.vars n v } := by
  simp [set_variable, h0, h1]

theorem exprEnd_comma : ExprEnd 2 := by
  simp [ExprEnd, TermEnd, AtomEnd, isDigit, isTermOp, isExpressionOp]

theorem exprEnd_rparent : ExprEnd 4 := by
  simp [ExprEnd, TermEnd, AtomEnd, isDigit, isTermOp, isExpressionOp]

theorem expression_operand (env : Env) (s : State) (o : Operand) (t : Nat)
    (rest : List Nat) (fuel : Nat) (hp : env.prog.drop s.pos = o.bytes ++ t :: rest)
    (hok : o.ok env.cfg s.vars) (ht : ExprEnd t) (hf : o.bytes.length + 7 ≤ fuel) :
    expression env fuel s =
      some (o.value env.cfg s.vars, decoder_goto (s.pos + o.bytes.length) s) := by
  have := expression_chain env s ⟨⟨o, []⟩, []⟩ s.pos t rest fuel
    (by simpa [ExprS.bytes, TermS.bytes, chainBytes] using hp)
    (by simpa [ExprS.ok, TermS.ok, NoTrap] using hok) ht
    (by simp [ExprS.bytes, TermS.bytes, chainBytes]; omega)
  simpa [ExprS.bytes, TermS.bytes, chainBytes, ExprS.value, TermS.value, foldOps,
    decoder_goto_self] using this

theorem for_call_enter (env : Env) (st : State) (x : Nat) (A B : Operand) (rest : List Nat)
    (fuel : Nat)
    (hp : env.prog.drop st.pos = BP_FOR :: BP_L_RPARENT :: BP_ADDRESS :: x ::
      (A.bytes ++ BP_COMMA :: (B.bytes ++ BP_R_RPARENT :: BP_CR :: rest)))
    (hx1 : env.cfg.OFFSET ≤ x) (hx2 : x < 256)
    (hx3 : (x : Int) - (env.cfg.OFFSET : Int) < (env.cfg.NV : Int))
    (hA : A.ok env.cfg st.vars)
    (hB : B.ok env.cfg (Function.update st.vars ((x : Int) - (env.cfg.OFFSET : Int))
      (A.value env.cfg st.vars)))
    (hc0 : 0 ≤ st.cycle_id) (hc1 : st.cycle_id < (env.cfg.CD : Int)) (hCD : env.cfg.CD ≤ 255)
    (hf : A.bytes.length + B.bytes.length + 10 ≤ fuel) :
    ∃ s1, for_call env fuel st = some s1 ∧
      s1.pos = st.pos + (A.bytes.length + B.bytes.length + 7) ∧
      s1.cycle_id = st.cycle_id + 1 ∧
      s1.vars = Function.update st.vars ((x : Int) - (env.cfg.OFFSET : Int))
        (A.value env.cfg st.vars) ∧
      s1.cycles st.cycle_id =
        { address := st.pos + (A.bytes.length + B.bytes.length + 7),
          direction := decide (A.value env.cfg st.vars <
            B.value env.cfg (Function.update st.vars ((x : Int) - (env.cfg.OFFSET : Int))
              (A.value env.cfg st.vars))),
          var := st.vars ((x : Int) - (env.cfg.OFFSET : Int)),
          var_id := (x : Int) - (env.cfg.OFFSET : Int),
          to_ := B.value env.cfg (Function.update st.vars ((x : Int) - (env.cfg.OFFSET : Int))
              (A.value env.cfg st.vars)) } ∧
      s1.errors = st.errors := by
  obtain ⟨k, rfl⟩ : ∃ k, fuel = k + 1 := ⟨fuel - 1, by omega⟩
  generalize hvi : (x : Int) - (env.cfg.OFFSET : Int) = vi at *
  have hv0 : 0 ≤ vi := by omega
  have b0 := byteAt_of_drop hp 0
  have b1 := byteAt_of_drop hp 1
  have b2 := byteAt_of_drop hp 2
  have b3 := byteAt_of_drop hp 3
  have d4 := drop_of_drop hp 4
  simp at b0 b1 b2 b3 d4
  have l0 : tokenLength env.prog st.pos = 1 := by simp [tokenLength, b0]
  have l1 : tokenLength env.prog (st.pos + 1) = 1 := by simp [tokenLength, b1]
  have l2 : tokenLength env.prog (st.pos + 2) = 2 := by simp [tokenLength, b2]
  have hu8 : u8 vi = vi := by unfold u8; omega
  have hu8c : u8 (st.cycle_id + 1) = st.cycle_id + 1 := by unfold u8; omega
  have hpay : ∀ s : State, u8 (payloadId env (decoder_goto (st.pos + 4) s)) = vi := by
    intro s
    simp only [payloadId, charBefore, byteBefore, decoder_goto_pos, Nat.add_sub_cancel,
      show 1 ≤ st.pos + 4 by omega, if_true, show st.pos + 4 - 1 = st.pos + 3 by omega, b3]
    unfold u8 i8
    omega
  have hg : ∀ s : State, get_variable env vi s = (s.vars vi, s) :=
    fun s => get_variable_ok env vi s hv0 (by omega)
  have hs : ∀ (v : Int) (s : State),
      set_variable env vi v s = { s with vars := Function.update s.vars vi v } :=
    fun v s => set_variable_ok env vi v s hv0 (by omega)
  have d5 := drop_of_drop d4 (A.bytes.length + 1)
  rw [show A.bytes ++ 2 :: (B.bytes ++ 4 :: 58 :: rest) =
    (A.bytes ++ [2]) ++ (B.bytes ++ 4 :: 58 :: rest) by simp,
    show A.bytes.length + 1 = (A.bytes ++ [2]).length by simp, List.drop_left] at d5
  have bc := byteAt_of_drop (drop_of_drop d4 A.bytes.length) 0
  simp at bc
  have lc : tokenLength env.prog (st.pos + 4 + A.bytes.length) = 1 := by simp [tokenLength, bc]
  have d6 := drop_of_drop d5 B.bytes.length
  simp only [List.drop_left] at d6
  have br := byteAt_of_drop d6 0
  have bcr := byteAt_of_drop d6 1
  simp at br bcr d5
  have lr : tokenLength env.prog (st.pos + 4 + (A.bytes.length + 1) + B.bytes.length) = 1 := by
    simp [tokenLength, br]
  have lcr : tokenLength env.prog (st.pos + 4 + (A.bytes.length + 1) + B.bytes.length + 1) = 1 := by
    simp [tokenLength, bcr]
  simp only [Nat.add_assoc, Nat.reduceAdd, List.length_append, List.length_singleton] at bc lc d5 br bcr lr lcr
  have e1 := fun (s : State) h1 h2 =>
    expression_operand env s A 2 (B.bytes ++ 4 :: 58 :: rest) k h1 h2 exprEnd_comma (by omega)
  have e2 := fun (s : State) h1 h2 =>
    expression_operand env s B 4 (58 :: rest) k h1 h2 exprEnd_rparent (by omega)
  simp [for_call, decoder_next_eq, decoder_get_eq, ignore_hit, expect_hit, b0, b1, b2, l0, l1, l2,
    hpay, hu8, hc1, hg, hs, e1, d4, hA, bc, lc, e2, d5, hB, br, lr, bcr, lcr, hu8c, Nat.add_assoc]
  omega

theorem next_call_continue (env : Env) (s : State) (c : Int) (F : cycle_type)
    (hn : byteAt env.prog s.pos = BP_NEXT) (hc : s.cycle_id = c + 1) (hc0 : 0 ≤ c)
    (hF : s.cycles c = F) (hv0 : 0 ≤ F.var_id) (hv1 : F.var_id < (env.cfg.NV : Int))
    (hcond : (F.direction = true ∧ s.vars F.var_id < F.to_) ∨
             (F.direction = false ∧ s.vars F.var_id > F.to_)) :
    (next_call env s).pos = F.address ∧ (next_call env s).cycle_id = c + 1 ∧
    (next_call env s).cycles c = F ∧
    (next_call env s).vars F.var_id =
      wrapCell env.cfg (if F.direction then s.vars F.var_id + 1 else s.vars F.var_id - 1) := by
  have hl : tokenLength env.prog s.pos = 1 := by simp [tokenLength, hn]
  have hne : c + 1 ≠ 0 := by omega
  have hcond2 := hcond
  simp only [gt_iff_lt] at hcond2
  simp [next_call, decoder_next_eq, hc, hne, hF, get_variable_ok env _ _ hv0 (le_of_lt hv1),
    set_variable_ok env _ _ _ hv0 (le_of_lt hv1), hcond2]
  split <;> rfl

theorem next_call_exit (env : Env) (s : State) (c : Int) (F : cycle_type)
    (hn : byteAt env.prog s.pos = BP_NEXT) (hc : s.cycle_id = c + 1) (hc0 : 0 ≤ c)
    (hc1 : c < 255)
    (hF : s.cycles c = F) (hv0 : 0 ≤ F.var_id) (hv1 : F.var_id < (env.cfg.NV : Int))
    (hcond : ¬ ((F.direction = true ∧ s.vars F.var_id < F.to_) ∨
             (F.direction = false ∧ s.vars F.var_id > F.to_))) :
    (next_call env s).pos = s.pos + 1 ∧ (next_call env s).cycle_id = c ∧
    (next_call env s).vars F.var_id = F.var := by
  have hl : tokenLength env.prog s.pos = 1 := by simp [tokenLength, hn]
  have hne : c + 1 ≠ 0 := by omega
  have hu : u8 c = c := by unfold u8; omega
  have hcond2 := hcond
  simp only [gt_iff_lt] at hcond2
  have hvne : F.var_id ≠ (env.cfg.NV : Int) := by omega
  simp [next_call, decoder_next_eq, hc, hne, hF, get_variable_ok env _ _ hv0 (le_of_lt hv1),
    set_variable_ok env _ _ _ hv0 (le_of_lt hv1), hcond2, hvne, hl, hu]
theorem inCell_between (cfg : Config) (x lo hi : Int) (hlo : InCell cfg lo) (hhi : InCell cfg hi)
    (h1 : lo ≤ x) (h2 : x ≤ hi) : InCell cfg x := by
  unfold InCell at *
  omega

theorem loop_runs (env : Env) (body : State → State) (c : Int) (F : cycle_type) (pn : Nat)
    (hn : byteAt env.prog pn = BP_NEXT) (hc0 : 0 ≤ c) (hv0 : 0 ≤ F.var_id)
    (hv1 : F.var_id < (env.cfg.NV : Int)) (hto : InCell env.cfg F.to_)
    (hbody : ∀ s : State, s.pos = F.address → s.cycle_id = c + 1 →
      (body s).pos = pn ∧ (body s).vars F.var_id = s.vars F.var_id ∧
      (body s).cycle_id = s.cycle_id ∧ (body s).cycles c = s.cycles c) :
    ∀ (k : Nat) (s : State), s.pos = F.address → s.cycle_id = c + 1 → s.cycles c = F →
      InCell env.cfg (s.vars F.var_id) →
      ((F.direction = true ∧ s.vars F.var_id + k ≤ F.to_) ∨
       (F.direction = false ∧ F.to_ ≤ s.vars F.var_id - k)) →
      (loopStates env body k s).pos = F.address ∧ (loopStates env body k s).cycle_id = c + 1 ∧
      (loopStates env body k s).cycles c = F ∧
      (loopStates env body k s).vars F.var_id =
        (if F.direction then s.vars F.var_id + k else s.vars F.var_id - k) := by
  intro k
  induction k with
  | zero =>
    intro s hp hc hF _ _
    simp [loopStates, hp, hc, hF]
  | succ k ih =>
    intro s hp hc hF hin hk
    obtain ⟨b1, b2, b3, b4⟩ := hbody s hp hc
    rw [hc] at b3
    rw [hF] at b4
    have hcond : (F.direction = true ∧ (body s).vars F.var_id < F.to_) ∨
        (F.direction = false ∧ (body s).vars F.var_id > F.to_) := by
      rw [b2]
      rcases hk with h | h
      · exact Or.inl ⟨h.1, by push_cast at h; omega⟩
      · exact Or.inr ⟨h.1, by push_cast at h; omega⟩
    obtain ⟨n1, n2, n3, n4⟩ := next_call_continue env (body s) c F (by rw [b1]; exact hn) b3 hc0
      b4 hv0 hv1 hcond
    rw [b2] at n4
    have hstep : (next_call env (body s)).vars F.var_id =
        (if F.direction then s.vars F.var_id + 1 else s.vars F.var_id - 1) := by
      rw [n4]
      apply wrapCell_of_inCell
      rcases hk with h | h
      · simp only [h.1, if_true]
        exact inCell_between _ _ _ _ hin hto (by omega) (by push_cast at h; omega)
      · simp only [h.1, Bool.false_eq_true, if_false]
        exact inCell_between _ _ _ _ hto hin (by push_cast at h; omega) (by omega)
    have hin2 : InCell env.cfg ((next_call env (body s)).vars F.var_id) := by
      rw [hstep]
      rcases hk with h | h
      · simp only [h.1, if_true]
        exact inCell_between _ _ _ _ hin hto (by omega) (by push_cast at h; omega)
      · simp only [h.1, Bool.false_eq_true, if_false]
        exact inCell_between _ _ _ _ hto hin (by push_cast at h; omega) (by omega)
    have hk2 : (F.direction = true ∧ (next_call env (body s)).vars F.var_id + k ≤ F.to_) ∨
        (F.direction = false ∧ F.to_ ≤ (next_call env (body s)).vars F.var_id - k) := by
      rw [hstep]
      rcases hk with h | h
      · left; refine ⟨h.1, ?_⟩; simp only [h.1, if_true]; push_cast at h; omega
      · right; refine ⟨h.1, ?_⟩; simp only [h.1, Bool.false_eq_true, if_false]; push_cast at h; omega
    obtain ⟨r1, r2, r3, r4⟩ := ih (next_call env (body s)) n1 n2 n3 hin2 hk2
    refine ⟨r1, r2, r3, ?_⟩
    simp only [loopStates] at r4 ⊢
    rw [r4, hstep]
    cases hd : F.direction <;> simp <;> omega

theorem loop_leaves (env : Env) (body : State → State) (c : Int) (F : cycle_type) (pn : Nat)
    (hn : byteAt env.prog pn = BP_NEXT) (hc0 : 0 ≤ c) (hc1 : c < 255) (hv0 : 0 ≤ F.var_id)
    (hv1 : F.var_id < (env.cfg.NV : Int))
    (hbody : ∀ s : State, s.pos = F.address → s.cycle_id = c + 1 →
      (body s).pos = pn ∧ (body s).vars F.var_id = s.vars F.var_id ∧
      (body s).cycle_id = s.cycle_id ∧ (body s).cycles c = s.cycles c)
    (s : State) (hp : s.pos = F.address) (hc : s.cycle_id = c + 1) (hF : s.cycles c = F)
    (hv : s.vars F.var_id = F.to_) :
    (next_call env (body s)).pos = pn + 1 ∧ (next_call env (body s)).cycle_id = c ∧
    (next_call env (body s)).vars F.var_id = F.var := by
  obtain ⟨b1, b2, b3, b4⟩ := hbody s hp hc
  rw [hc] at b3
  rw [hF] at b4
  have := next_call_exit env (body s) c F (by rw [b1]; exact hn) b3 hc0 hc1 b4 hv0 hv1
    (by rw [b2, hv]; simp)
  rw [b1] at this
  exact this

theorem loopStates_succ (env : Env) (body : State → State) (k : Nat) (s : State) :
    loopStates env body (k + 1) s = next_call env (body (loopStates env body k s)) := by
  induction k generalizing s with
  | zero => rfl
  | succ k ih => rw [loopStates, ih]; rfl
theorem find_definition_second (env : Env) (d : Int) (st : State) (hd : u8 d = d)
    (h0 : (st.definitions 0).id ≠ d) (h1 : (st.definitions 1).id = d) (hFM : 2 ≤ env.cfg.FM) :
    find_definition env d st = (1, st) := by
  obtain ⟨m, hm⟩ : ∃ m, env.cfg.FM = m + 2 := ⟨env.cfg.FM - 2, by omega⟩
  simp [find_definition, hm, findDefinitionLoop, hd, h0, h1]

theorem restoreLoop_free (env : Env) (n : Nat) :
    ∀ (i : Int) (st : State),
      (∀ j : Int, i ≤ j → j < i + n → ((st.functions st.fun_id).params j).id = (env.cfg.NV : Int)) →
      restoreLoop env n i st = st := by
  induction n with
  | zero => intro i st _; rfl
  | succ n ih =>
    intro i st h
    have h0 := h i (le_refl i) (by push_cast; omega)
    simp only [restoreLoop, h0, ne_eq, not_true_eq_false, if_false]
    exact ih (i + 1) st (fun j hj1 hj2 => h j (by omega) (by push_cast; omega))

theorem find_param_list_length_fact (env : Env) (st : State) (hc : FactConfig env.cfg)
    (hd : FactDefs env.cfg st) :
    find_param_list_length env 65 st = some (2, st) := by
  obtain ⟨_, _, _, hP, hP2, hFM⟩ := hc
  obtain ⟨d0, d1, _, d3, d4⟩ := hd
  have hfd := find_definition_second env 65 st (by decide) d0 d1 hFM
  have h50 : ¬ (50 : Int) = (env.cfg.PARAMS : Int) := by omega
  have h2 : (2 : Int) < (env.cfg.PARAMS : Int) := by omega
  simp [find_param_list_length, u8, hfd, paramScan, d3, d4, h50, h2]

/-! ## The factorial program -/

@[simp] theorem progFact_at_5 : byteAt progFact 5 = 69 := by decide

@[simp] theorem progFact_at_6 : byteAt progFact 6 = 7 := by decide

@[simp] theorem progFact_at_7 : byteAt progFact 7 = 65 := by decide

@[simp] theorem progFact_at_8 : byteAt progFact 8 = 3 := by decide

@[simp] theorem progFact_at_9 : byteAt progFact 9 = 5 := by decide

@[simp] theorem progFact_at_10 : byteAt progFact 10 = 50 := by decide

@[simp] theorem progFact_at_11 : byteAt progFact 11 = 4 := by decide

@[simp] theorem progFact_at_12 : byteAt progFact 12 = 58 := by decide

@[simp] theorem progFact_at_13 : byteAt progFact 13 = 70 := by decide

@[simp] theorem progFact_at_22 : byteAt progFact 22 = 59 := by decide

@[simp] theorem progFact_at_23 : byteAt progFact 23 = 5 := by decide

@[simp] theorem progFact_at_24 : byteAt progFact 24 = 50 := by decide

@[simp] theorem progFact_at_25 : byteAt progFact 25 = 39 := by decide

@[simp] theorem progFact_at_26 : byteAt progFact 26 = 15 := by decide

@[simp] theorem progFact_at_27 : byteAt progFact 27 = 49 := by decide

@[simp] theorem progFact_at_28 : byteAt progFact 28 = 58 := by decide

@[simp] theorem progFact_at_29 : byteAt progFact 29 = 62 := by decide

@[simp] theorem progFact_at_30 : byteAt progFact 30 = 15 := by decide

@[simp] theorem progFact_at_31 : byteAt progFact 31 = 49 := by decide

@[simp] theorem progFact_at_32 : byteAt progFact 32 = 58 := by decide

@[simp] theorem progFact_at_33 : byteAt progFact 33 = 60 := by decide

@[simp] theorem progFact_at_34 : byteAt progFact 34 = 58 := by decide

@[simp] theorem progFact_at_35 : byteAt progFact 35 = 62 := by decide

@[simp] theorem progFact_at_36 : byteAt progFact 36 = 5 := by decide

@[simp] theorem progFact_at_37 : byteAt progFact 37 = 50 := by decide

@[simp] theorem progFact_at_38 : byteAt progFact 38 = 27 := by decide

@[simp] theorem progFact_at_39 : byteAt progFact 39 = 7 := by decide

@[simp] theorem progFact_at_40 : byteAt progFact 40 = 65 := by decide

@[simp] theorem progFact_at_41 : byteAt progFact 41 = 3 := by decide

@[simp] theorem progFact_at_42 : byteAt progFact 42 = 5 := by decide

@[simp] theorem progFact_at_43 : byteAt progFact 43 = 50 := by decide

@[simp] theorem progFact_at_44 : byteAt progFact 44 = 31 := by decide

@[simp] theorem progFact_at_45 : byteAt progFact 45 = 15 := by decide

@[simp] theorem progFact_at_46 : byteAt progFact 46 = 49 := by decide

@[simp] theorem progFact_at_47 : byteAt progFact 47 = 4 := by decide

@[simp] theorem progFact_at_48 : byteAt progFact 48 = 58 := by decide

@[simp] theorem progFact_at_49 : byteAt progFact 49 = 0 := by decide

@[simp] theorem progFact_len_5 : tokenLength progFact 5 = 1 := by decide

@[simp] theorem progFact_len_6 : tokenLength progFact 6 = 2 := by decide

@[simp] theorem progFact_len_8 : tokenLength progFact 8 = 1 := by decide

@[simp] theorem progFact_len_9 : tokenLength progFact 9 = 2 := by decide

@[simp] theorem progFact_len_11 : tokenLength progFact 11 = 1 := by decide

@[simp] theorem progFact_len_12 : tokenLength progFact 12 = 1 := by decide

@[simp] theorem progFact_len_22 : tokenLength progFact 22 = 1 := by decide

@[simp] theorem progFact_len_23 : tokenLength progFact 23 = 2 := by decide

@[simp] theorem progFact_len_25 : tokenLength progFact 25 = 1 := by decide

@[simp] theorem progFact_len_26 : tokenLength progFact 26 = 2 := by decide

@[simp] theorem progFact_len_28 : tokenLength progFact 28 = 1 := by decide

@[simp] theorem progFact_len_29 : tokenLength progFact 29 = 1 := by decide

@[simp] theorem progFact_len_30 : tokenLength progFact 30 = 2 := by decide

@[simp] theorem progFact_len_32 : tokenLength progFact 32 = 1 := by decide

@[simp] theorem progFact_len_33 : tokenLength progFact 33 = 1 := by decide

@[simp] theorem progFact_len_34 : tokenLength progFact 34 = 1 := by decide

@[simp] theorem progFact_len_35 : tokenLength progFact 35 = 1 := by decide

@[simp] theorem progFact_len_36 : tokenLength progFact 36 = 2 := by decide

@[simp] theorem progFact_len_38 : tokenLength progFact 38 = 1 := by decide

@[simp] theorem progFact_len_39 : tokenLength progFact 39 = 2 := by decide

@[simp] theorem progFact_len_41 : tokenLength progFact 41 = 1 := by decide

@[simp] theorem progFact_len_42 : tokenLength progFact 42 = 2 := by decide

@[simp] theorem progFact_len_44 : tokenLength progFact 44 = 1 := by decide

@[simp] theorem progFact_len_45 : tokenLength progFact 45 = 2 := by decide

@[simp] theorem progFact_len_47 : tokenLength progFact 47 = 1 := by decide

@[simp] theorem progFact_len_48 : tokenLength progFact 48 = 1 := by decide

theorem fact_inner_site (cfg : Config) (host : Host) (T : State) (v : Int) (k : Nat)
    (hc : FactConfig cfg) (hd : FactDefs cfg T) (hp : T.pos = 39)
    (hf1 : T.fun_id < (cfg.FD : Int))
    (hv : T.vars 2 = v) (hv1 : 1 ≤ v) (hvin : InCell cfg v) :
    ∃ T2, function_call ⟨cfg, host, progFact⟩ (k + 20) T =
        bodyLoop ⟨cfg, host, progFact⟩ (k + 19) T2 ∧
      T2.pos = 22 ∧ T2.vars = Function.update T.vars 2 (v - 1) ∧ T2.fun_id = T.fun_id + 1 ∧
      (T2.functions T.fun_id).address = 47 ∧
      (T2.functions T.fun_id).params 0 = ⟨v, 2⟩ ∧
      (∀ i : Int, i ≠ 0 → (T2.functions T.fun_id).params i = (T.functions T.fun_id).params i) ∧
      (∀ j : Int, j ≠ T.fun_id → T2.functions j = T.functions j) ∧
      T2.definitions = T.definitions ∧ T2.errors = T.errors ∧ T2.out = T.out ∧
      T2.ended = T.ended := by
  obtain ⟨hO, hNV, hNV2, hP, hP2, hFM⟩ := hc
  have hd' := hd
  obtain ⟨d0, d1, d2, d3, d4⟩ := hd
  generalize henv : (⟨cfg, host, progFact⟩ : Env) = env
  have hprog : env.prog = progFact := by rw [← henv]
  have hcfg : env.cfg = cfg := by rw [← henv]
  have hfd : ∀ s : State, s.definitions = T.definitions → find_definition env 65 s = (1, s) := by
    intro s hs
    exact find_definition_second env 65 s (by decide) (by rw [hs]; exact d0) (by rw [hs]; exact d1)
      (by rw [hcfg]; exact hFM)
  have hfp : ∀ s : State, s.definitions = T.definitions →
      find_param_list_length env 65 s = some (2, s) := by
    intro s hs
    exact find_param_list_length_fact env s (by rw [hcfg]; exact ⟨hO, hNV, hNV2, hP, hP2, hFM⟩)
      (by rw [hcfg]; unfold FactDefs; rw [hs]; exact hd')
  have hg : ∀ s : State, get_variable env 2 s = (s.vars 2, s) :=
    fun s => get_variable_ok env 2 s (by norm_num) (by rw [hcfg]; omega)
  have hs : ∀ (x : Int) (s : State),
      set_variable env 2 x s = { s with vars := Function.update s.vars 2 x } :=
    fun x s => set_variable_ok env 2 x s (by norm_num) (by rw [hcfg]; omega)
  have hvin1 : InCell cfg (v - 1) := by unfold InCell at hvin ⊢; omega
  have h1in : InCell cfg ((1 : Nat) : Int) := by unfold InCell at hvin ⊢; push_cast; omega
  have harg : ∀ s : State, s.pos = 42 → s.vars 2 = v →
      relation env (k + 18) s = some (v - 1, decoder_goto 47 s) := by
    intro s h1 h2
    have hok : Operand.ok env.cfg s.vars (.var 50) := by
      simp only [Operand.ok, hcfg, hO]
      norm_num
      refine ⟨by omega, ?_⟩
      rw [h2]; exact hvin
    have hok1 : Operand.ok env.cfg s.vars (.num 1) := by
      simp only [Operand.ok, hcfg]; exact ⟨h1in, int_small _ _ (by norm_num)⟩
    have := relation_chain env s ⟨⟨⟨.var 50, []⟩, [(BP_MINUS, ⟨.num 1, []⟩)]⟩, []⟩ s.pos 4 [58, 0]
      (k + 18) (by rw [h1, hprog]; simp [progFact, RelS.bytes, ExprS.bytes, TermS.bytes,
        chainBytes, Operand.bytes, decimal])
      (by simp [RelS.ok, ExprS.ok, TermS.ok, NoTrap, hok, hok1, isExpressionOp])
      (by simp [RelEnd, ExprEnd, TermEnd, AtomEnd, isDigit, isTermOp, isExpressionOp, isRelationOp])
      (by simp [RelS.bytes, ExprS.bytes, TermS.bytes, chainBytes, Operand.bytes, decimal])
    rw [decoder_goto_self] at this
    rw [this]
    simp [RelS.value, ExprS.value, TermS.value, foldOps, expressionOp, Operand.value, hcfg, hO, h2,
      RelS.bytes, ExprS.bytes, TermS.bytes, chainBytes, Operand.bytes, decimal, h1,
      wrapCell_of_inCell _ _ hvin1]
  have hlt : T.fun_id < (env.cfg.FD : Int) := by rw [hcfg]; exact hf1
  refine ⟨{ T with
    fun_cycle_id := T.cycle_id, pos := 22, vars := Function.update T.vars 2 (v - 1),
    functions := Function.update T.functions T.fun_id
      { address := 47, params := Function.update (T.functions T.fun_id).params 0 ⟨v, 2⟩ },
    fun_id := T.fun_id + 1 }, ?_, ?_⟩
  · simp [function_call, find_function_end, findFunctionEndLoop, decoder_get_eq, decoder_next_eq,
      hp, hprog, u8, u16, i16, i8, expect_hit, ignore_hit, charBefore, byteBefore,
      hfp, hfd, bindLoop, hcfg, hO, d3, d4, setParamId, setParamValue, hg, hs, harg, hv, hf1, d2,
      decoder_goto]
  · simp
    refine ⟨fun i hi => ?_, fun j hj => ?_⟩
    · simp [Function.update_noteq hi]
    · simp [Function.update_noteq hj]
theorem restoreLoop_first (env : Env) (st : State) (n : Nat) (id val : Int)
    (h0 : (st.functions st.fun_id).params 0 = ⟨val, id⟩) (hid : id ≠ (env.cfg.NV : Int))
    (hid0 : 0 ≤ id) (hid1 : id ≤ (env.cfg.NV : Int)) (hNV : env.cfg.NV ≤ 255)
    (hfree : ∀ j : Int, 1 ≤ j → j < 1 + n →
      ((st.functions st.fun_id).params j).id = (env.cfg.NV : Int)) :
    restoreLoop env (n + 1) 0 st =
      { st with
        vars := Function.update st.vars id val,
        functions := Function.update st.functions st.fun_id
          { st.functions st.fun_id with
            params := Function.update (st.functions st.fun_id).params 0 ⟨0, (env.cfg.NV : Int)⟩ } } := by
  have hu : u8 (env.cfg.NV : Int) = (env.cfg.NV : Int) := by unfold u8; omega
  rw [restoreLoop]
  simp only [h0, ne_eq, hid, not_false_eq_true, if_true, zero_add]
  rw [restoreLoop_free]
  · simp [setParamId, setParamValue, set_variable_ok env id val st hid0 hid1, hu]
  · intro j hj1 hj2
    have hj0 : j ≠ 0 := by omega
    simp [setParamId, setParamValue, set_variable_ok env id val st hid0 hid1, hu,
      Function.update_noteq hj0, hfree j hj1 hj2]

theorem fact_cond (cfg : Config) (host : Host) (s : State) (v : Int) (fuel : Nat)
    (hc : FactConfig cfg) (hp : s.pos = 23) (hv : s.vars 2 = v) (hv1 : 1 ≤ v)
    (hvin : InCell cfg v) (hf : 14 ≤ fuel) :
    relation ⟨cfg, host, progFact⟩ fuel s = some (b2i (v ≤ 1), decoder_goto 28 s) := by
  obtain ⟨hO, hNV, hNV2, hP, hP2, hFM⟩ := hc
  have h1in : InCell cfg ((1 : Nat) : Int) := by unfold InCell at hvin ⊢; push_cast; omega
  have hok : Operand.ok cfg s.vars (.var 50) := by
    simp only [Operand.ok, hO]
    norm_num
    refine ⟨by omega, ?_⟩
    rw [hv]; exact hvin
  have hok1 : Operand.ok cfg s.vars (.num 1) := ⟨h1in, int_small _ _ (by norm_num)⟩
  have := relation_chain ⟨cfg, host, progFact⟩ s
    ⟨⟨⟨.var 50, []⟩, []⟩, [(BP_LTOEQ, ⟨⟨.num 1, []⟩, []⟩)]⟩ s.pos 58 (progFact.drop 29)
    fuel (by rw [hp]; simp [progFact, RelS.bytes, ExprS.bytes, TermS.bytes,
      chainBytes, Operand.bytes, decimal])
    (by simp [RelS.ok, ExprS.ok, TermS.ok, NoTrap, hok, hok1, isRelationOp])
    (by simp [RelEnd, ExprEnd, TermEnd, AtomEnd, isDigit, isTermOp, isExpressionOp, isRelationOp])
    (by simp [RelS.bytes, ExprS.bytes, TermS.bytes, chainBytes, Operand.bytes, decimal]; omega)
  rw [decoder_goto_self] at this
  rw [this]
  simp [RelS.value, ExprS.value, TermS.value, foldOps, relationOp, Operand.value, hO, hv,
    RelS.bytes, ExprS.bytes, TermS.bytes, chainBytes, Operand.bytes, decimal, hp]

theorem fact_one (cfg : Config) (host : Host) (s : State) (fuel : Nat)
    (hp : s.pos = 30) (hin : InCell cfg 1) (hf : 11 ≤ fuel) :
    relation ⟨cfg, host, progFact⟩ fuel s = some (1, decoder_goto 32 s) := by
  have hok1 : Operand.ok cfg s.vars (.num 1) := by
    simp only [Operand.ok]; exact ⟨by exact_mod_cast hin, int_small _ _ (by norm_num)⟩
  have := relation_chain ⟨cfg, host, progFact⟩ s
    ⟨⟨⟨.num 1, []⟩, []⟩, []⟩ s.pos 58 (progFact.drop 33)
    fuel (by rw [hp]; simp [progFact, RelS.bytes, ExprS.bytes, TermS.bytes,
      chainBytes, Operand.bytes, decimal])
    (by simp [RelS.ok, ExprS.ok, TermS.ok, NoTrap, hok1])
    (by simp [RelEnd, ExprEnd, TermEnd, AtomEnd, isDigit, isTermOp, isExpressionOp, isRelationOp])
    (by simp [RelS.bytes, ExprS.bytes, TermS.bytes, chainBytes, Operand.bytes, decimal]; omega)
  rw [decoder_goto_self] at this
  rw [this]
  simp [RelS.value, ExprS.value, TermS.value, foldOps, Operand.value,
    RelS.bytes, ExprS.bytes, TermS.bytes, chainBytes, Operand.bytes, decimal, hp]
set_option maxHeartbeats 1600000 in
theorem fact_body_one (cfg : Config) (host : Host) (hc : FactConfig cfg)
    (S : State) (f : Int) (ret : Nat) (saved : Int) (fuel : Nat)
    (hp : S.pos = 22) (hv : S.vars 2 = 1) (hin : InCell cfg 1)
    (hf0 : 0 ≤ f) (hfid : S.fun_id = f + 1)
    (hret : (S.functions f).address = ret) (hsl : (S.functions f).params 0 = ⟨saved, 2⟩)
    (hfree : ∀ i : Int, 1 ≤ i → i < (cfg.PARAMS : Int) →
      ((S.functions f).params i).id = (cfg.NV : Int))
    (hfuel : 30 ≤ fuel) :
    bodyLoop ⟨cfg, host, progFact⟩ fuel S =
      some (1, { S with
        return_type := 0, pos := ret, vars := Function.update S.vars 2 saved, fun_id := f,
        functions := Function.update S.functions f
          { S.functions f with
            params := Function.update (S.functions f).params 0 ⟨0, (cfg.NV : Int)⟩ },
        cycle_id := S.fun_cycle_id }) := by
  obtain ⟨k, rfl⟩ : ∃ k, fuel = k + 30 := ⟨fuel - 30, by omega⟩
  have hc' := hc
  obtain ⟨hO, hNV, hNV2, hP, hP2, hFM⟩ := hc
  obtain ⟨P, hP'⟩ : ∃ P, cfg.PARAMS = P + 1 := ⟨cfg.PARAMS - 1, by omega⟩
  have hcond : ∀ (fu : Nat) (s : State), 14 ≤ fu → s.pos = 23 → s.vars 2 = 1 →
      relation ⟨cfg, host, progFact⟩ fu s = some (1, decoder_goto 28 s) := by
    intro fu s h1 h2 h3
    have := fact_cond cfg host s 1 fu hc' h2 h3 (le_refl 1) hin h1
    simpa [b2i] using this
  have hone : ∀ (fu : Nat) (s : State), 11 ≤ fu → s.pos = 30 →
      relation ⟨cfg, host, progFact⟩ fu s = some (1, decoder_goto 32 s) :=
    fun fu s h1 h2 => fact_one cfg host s fu h2 hin h1
  have hpos : 0 < f + 1 := by omega
  simp [bodyLoop, statement, if_call, return_call, decoder_get_eq, decoder_next_eq, hp, hcond, hv,
    ignore_hit, hone, hfid, hpos, hP']
  rw [restoreLoop_first ⟨cfg, host, progFact⟩ _ P 2 saved (by simpa using hsl) (by simp; omega)
    (by norm_num) (by simp; omega) hNV2 (by
      intro j hj1 hj2
      simpa using hfree j hj1 (by rw [hP']; push_cast; omega))]
  simp [decoder_goto, hret]
theorem factor_operand_at (env : Env) (s : State) (o : Operand) (t : Nat) (rest : List Nat)
    (fuel : Nat) (hp : env.prog.drop s.pos = o.bytes ++ t :: rest) (hok : o.ok env.cfg s.vars)
    (ht : AtomEnd t) (hf : 3 ≤ fuel) :
    factor env fuel s = some (o.value env.cfg s.vars, decoder_goto (s.pos + o.bytes.length) s) := by
  have := factor_operand env s s.pos o t rest fuel hp hok ht hf
  rw [decoder_goto_self] at this
  exact this

theorem factor_function (env : Env) (s : State) (n : Nat)
    (h : byteAt env.prog s.pos = 7) :
    factor env (n + 1) s =
      match function_call env n s with
      | none => none
      | some (v, s1) => some (v, decoder_next env s1) := by
  simp [factor, decoder_get_eq, ignore_miss, h]
  cases function_call env n s with
  | none => rfl
  | some r => rfl

theorem termLoop_stop (env : Env) (s : State) (n : Nat) (f1 : Int)
    (h : isTermOp (byteAt env.prog s.pos) = false) :
    termLoop env (n + 1) f1 s = some (f1, s) := by
  simp [termLoop, decoder_get_eq, h]

theorem termLoop_step (env : Env) (s : State) (n : Nat) (f1 : Int)
    (h : isTermOp (byteAt env.prog s.pos) = true) :
    termLoop env (n + 1) f1 s =
      match factor env n (decoder_next env s) with
      | none => none
      | some (f2, s1) =>
        match termOp env.cfg (byteAt env.prog s.pos) f1 f2 with
        | none => none
        | some f => termLoop env n f s1 := by
  simp [termLoop, decoder_get_eq, h]

theorem expressionLoop_stop (env : Env) (s : State) (n : Nat) (t1 : Int)
    (h : isExpressionOp (byteAt env.prog s.pos) = false) :
    expressionLoop env (n + 1) t1 s = some (t1, s) := by
  simp [expressionLoop, decoder_get_eq, h]

theorem relationLoop_stop (env : Env) (s : State) (n : Nat) (r1 : Int)
    (h : isRelationOp (byteAt env.prog s.pos) = false) :
    relationLoop env (n + 1) r1 s = some (r1, s) := by
  simp [relationLoop, decoder_get_eq, h]

theorem bodyLoop_step (env : Env) (s : State) (n : Nat)
    (h : byteAt env.prog s.pos ≠ 62) :
    bodyLoop env (n + 1) s =
      match statement env n s with
      | none => none
      | some s1 => bodyLoop env n s1 := by
  simp [bodyLoop, decoder_get_eq, h]

theorem bodyLoop_return (env : Env) (s : State) (n : Nat)
    (h : byteAt env.prog s.pos = 62) :
    bodyLoop env (n + 1) s = return_call env n s := by
  simp [bodyLoop, decoder_get_eq, h]

theorem statement_if (env : Env) (s : State) (n : Nat) (h : byteAt env.prog s.pos = 59) :
    statement env (n + 1) s = if_call env n { s with return_type := 0 } := by
  simp [statement, decoder_get_eq, h]

theorem statement_cr (env : Env) (s : State) (n : Nat) (h : byteAt env.prog s.pos = 58) :
    statement env (n + 1) s = some (decoder_next env { s with return_type := 0 }) := by
  simp [statement, decoder_get_eq, h]

/-- The product `n * fact(n - 1)` at address 36, given the result of the call. -/
theorem fact_product (cfg : Config) (host : Host) (hc : FactConfig cfg)
    (s S2 : State) (v r : Int) (j : Nat)
    (hp : s.pos = 36) (hv : s.vars 2 = v) (hvin : InCell cfg v)
    (hcall : function_call ⟨cfg, host, progFact⟩ (j + 3) (decoder_goto 39 s) = some (r, S2))
    (h2pos : S2.pos = 47) :
    relation ⟨cfg, host, progFact⟩ (j + 8) s =
      some (wrapCell cfg (v * r), decoder_goto 48 S2) := by
  obtain ⟨hO, hNV, hNV2, hP, hP2, hFM⟩ := hc
  have hfacn : factor ⟨cfg, host, progFact⟩ (j + 5) s = some (v, decoder_goto 38 s) := by
    have := factor_operand_at ⟨cfg, host, progFact⟩ s (.var 50) 27 (progFact.drop 39) (j + 5)
      (by rw [hp]; simp [progFact, Operand.bytes])
      (by simp only [Operand.ok, hO]
          norm_num
          refine ⟨by omega, ?_⟩
          rw [hv]; exact hvin)
      (by simp [AtomEnd, isDigit]) (by omega)
    simpa [Operand.value, hO, hv, Operand.bytes, hp] using this
  simp [relation, expression, term, hfacn, termLoop_step, termLoop_stop, expressionLoop_stop,
    relationLoop_stop, factor_function, isTermOp, isExpressionOp, isRelationOp, decoder_next_eq,
    hcall, h2pos, termOp]
theorem fact_if_false (cfg : Config) (host : Host) (hc : FactConfig cfg) (s : State) (v : Int)
    (j : Nat) (hp : s.pos = 22) (hv : s.vars 2 = v) (hv2 : 2 ≤ v) (hvin : InCell cfg v) :
    if_call ⟨cfg, host, progFact⟩ (j + 15) s = some (decoder_goto 34 s) := by
  have hcond : relation ⟨cfg, host, progFact⟩ (j + 14) (decoder_goto 23 s) =
      some (0, decoder_goto 28 s) := by
    have := fact_cond cfg host (decoder_goto 23 s) v (j + 14) hc rfl hv (by omega) hvin (by omega)
    have hb : b2i (v ≤ 1) = 0 := by simp [b2i]; omega
    rw [hb] at this
    exact this
  simp [if_call, decoder_next_eq, hp, hcond, ignore_hit, skip_block, skipBlockLoop, decoder_get_eq,
    u16]

theorem fact_body_step (cfg : Config) (host : Host) (hc : FactConfig cfg)
    (S S2 : State) (f : Int) (ret : Nat) (saved v r : Int) (k : Nat)
    (hp : S.pos = 22) (hv : S.vars 2 = v) (hv2 : 2 ≤ v) (hvin : InCell cfg v)
    (hf0 : 0 ≤ f) (hfid : S.fun_id = f + 1)
    (hret : (S.functions f).address = ret) (hsl : (S.functions f).params 0 = ⟨saved, 2⟩)
    (hfree : ∀ i : Int, 1 ≤ i → i < (cfg.PARAMS : Int) →
      ((S.functions f).params i).id = (cfg.NV : Int))
    (hcall : function_call ⟨cfg, host, progFact⟩ (k + 20) { S with return_type := 0, pos := 39 } =
      some (r, S2))
    (h2pos : S2.pos = 47) (h2fid : S2.fun_id = f + 1) (h2fr : S2.functions f = S.functions f) :
    bodyLoop ⟨cfg, host, progFact⟩ (k + 29) S =
      some (wrapCell cfg (v * r), { S2 with
        pos := ret, vars := Function.update S2.vars 2 saved, fun_id := f,
        functions := Function.update S2.functions f
          { S2.functions f with
            params := Function.update (S2.functions f).params 0 ⟨0, (cfg.NV : Int)⟩ },
        cycle_id := S2.fun_cycle_id }) := by
  have hc' := hc
  obtain ⟨hO, hNV, hNV2, hP, hP2, hFM⟩ := hc
  obtain ⟨P, hP'⟩ : ∃ P, cfg.PARAMS = P + 1 := ⟨cfg.PARAMS - 1, by omega⟩
  have hif := fact_if_false cfg host hc' { S with return_type := 0 } v (k + 12) hp hv hv2 hvin
  have hprod := fact_product cfg host hc' (decoder_goto 36 { S with return_type := 0 }) S2 v r
    (k + 17) rfl hv hvin hcall h2pos
  have hpos : 0 < f + 1 := by omega
  simp only [decoder_goto, hp, hfid, Nat.add_assoc, Nat.reduceAdd] at hif hprod
  simp [bodyLoop_step, bodyLoop_return, statement_if, statement_cr, hp, hif, decoder_next_eq,
    decoder_goto, return_call, hfid, hpos, decoder_get_eq, hprod, h2fid, hP']
  rw [restoreLoop_first ⟨cfg, host, progFact⟩ _ P 2 saved (by simpa [h2fr] using hsl)
    (by simp; omega) (by norm_num) (by simp; omega) hNV2 (by
      intro j hj1 hj2
      simpa [h2fr] using hfree j hj1 (by rw [hP']; push_cast; omega))]
  simp [hret, h2fr]
theorem inCell_of_nat_le (cfg : Config) (a b : Nat) (h : a ≤ b) (hb : InCell cfg (b : Int)) :
    InCell cfg (a : Int) := by
  unfold InCell at *
  have : (a : Int) ≤ b := by exact_mod_cast h
  have h2 : (0 : Int) < 2 ^ (cfg.W - 1) := by positivity
  omega

theorem fact_body (cfg : Config) (host : Host) (hc : FactConfig cfg) :
    ∀ (m : Nat), 1 ≤ m → ∀ (S : State) (f : Int) (ret : Nat) (saved : Int) (fuel : Nat),
      FactDefs cfg S → S.pos = 22 → S.vars 2 = (m : Int) →
      InCell cfg ((m.factorial : Nat) : Int) →
      0 ≤ f → S.fun_id = f + 1 → f + m ≤ (cfg.FD : Int) →
      (S.functions f).address = ret → (S.functions f).params 0 = ⟨saved, 2⟩ →
      (∀ i : Int, 1 ≤ i → i < (cfg.PARAMS : Int) →
        ((S.functions f).params i).id = (cfg.NV : Int)) →
      FramesFree cfg S (f + 1) → 10 * m + 20 ≤ fuel →
      ∃ S', bodyLoop ⟨cfg, host, progFact⟩ fuel S = some (((m.factorial : Nat) : Int), S') ∧
        S'.pos = ret ∧ S'.vars = Function.update S.vars 2 saved ∧ S'.fun_id = f ∧
        S'.errors = S.errors ∧ S'.definitions = S.definitions ∧
        (∀ j : Int, j < f → S'.functions j = S.functions j) ∧ FramesFree cfg S' f ∧
        S'.out = S.out ∧ S'.ended = S.ended := by
  intro m hm
  induction m, hm using Nat.le_induction with
  | base =>
    intro S f ret saved fuel hd hp hv hin hf0 hfid hfd hret hsl hfree hff hfuel
    have h1 : InCell cfg 1 := by simpa using hin
    have hb := fact_body_one cfg host hc S f ret saved fuel hp (by simpa using hv)
      h1 hf0 hfid hret hsl hfree (by omega)
    simp only [Nat.factorial_one, Nat.cast_one]
    refine ⟨_, hb, rfl, rfl, rfl, rfl, rfl, ?_, ?_, rfl, rfl⟩
    · intro j hj
      simp [Function.update_noteq (ne_of_lt hj)]
    · intro k i hk hi0 hi1
      by_cases hkf : k = f
      · subst hkf
        by_cases hi : i = 0
        · subst hi; simp
        · simp [Function.update_noteq hi]
          exact hfree i (by omega) hi1
      · simp [Function.update_noteq hkf]
        exact hff k i (by omega) hi0 hi1
  | succ m hm ih =>
    intro S f ret saved fuel hd hp hv hin hf0 hfid hfd hret hsl hfree hff hfuel
    obtain ⟨k, rfl⟩ : ∃ k, fuel = k + 29 := ⟨fuel - 29, by omega⟩
    have hvin : InCell cfg ((m + 1 : Nat) : Int) :=
      inCell_of_nat_le cfg _ _ (Nat.self_le_factorial (m + 1)) hin
    have hmin : InCell cfg ((m.factorial : Nat) : Int) :=
      inCell_of_nat_le cfg _ _ (Nat.factorial_le (Nat.le_succ m)) hin
    -- the inner call
    obtain ⟨T2, hsite, t1, t2, t3, t4, t5, t6, t7, t8, t9, t10, t11⟩ :=
      fact_inner_site cfg host { S with return_type := 0, pos := 39 } ((m + 1 : Nat) : Int) k hc
        hd rfl (by simp [hfid]; push_cast at hfd; omega) hv (by push_cast; omega) hvin
    simp only at t2 t3 t4 t5 t6 t7 t8 t9 t10 t11
    rw [hfid] at t3 t4 t5 t6 t7
    obtain ⟨S2, hbody, s1, s2, s3, s4, s5, s6, s7, s8, s9⟩ :=
      ih T2 (f + 1) 47 ((m + 1 : Nat) : Int) (k + 19)
        (by unfold FactDefs; rw [t8]; exact hd) t1
        (by rw [t2]; simp) hmin (by omega) t3 (by push_cast at hfd ⊢; omega) t4 t5
        (by intro i hi1 hi2
            rw [t6 i (by omega)]
            exact hff (f + 1) i (le_refl _) (by omega) hi2)
        (by intro j i hj hi0 hi1
            rw [t7 j (by omega)]
            exact hff j i (by omega) hi0 hi1)
        (by omega)
    have h2fr : S2.functions f = S.functions f := by
      rw [s6 f (by omega), t7 f (by omega)]
    have hstep := fact_body_step cfg host hc S S2 f ret saved ((m + 1 : Nat) : Int)
      ((m.factorial : Nat) : Int) k hp hv (by push_cast; omega) hvin hf0 hfid hret hsl hfree
      (by rw [hsite]; exact hbody) s1 s3 h2fr
    have hval : wrapCell cfg (((m + 1 : Nat) : Int) * ((m.factorial : Nat) : Int)) =
        (((m + 1).factorial : Nat) : Int) := by
      rw [Nat.factorial_succ]
      push_cast
      apply wrapCell_of_inCell
      have := hin
      rw [Nat.factorial_succ] at this
      push_cast at this
      exact this
    rw [hval] at hstep
    refine ⟨_, hstep, rfl, ?_, rfl, ?_, ?_, ?_, ?_, ?_, ?_⟩
    · simp [s2, t2]
    · simp [s4, t9]
    · simp [s5, t8]
    · intro j hj
      simp [Function.update_noteq (ne_of_lt hj)]
      rw [s6 j (by omega), t7 j (by omega)]
    · intro j i hj hi0 hi1
      by_cases hjf : j = f
      · subst hjf
        by_cases hi : i = 0
        · subst hi; simp
        · simp [Function.update_noteq hi]
          rw [h2fr]
          exact hfree i (by omega) hi1
      · simp [Function.update_noteq hjf]
        exact s7 j i (by omega) hi0 hi1
    · simp [s8, t10]
    · simp [s9, t11]
theorem fillParams_loop (cfg : Config) (n : Nat) :
    ∀ (i : Int) (ps : Int → Int) (j : Int), 0 ≤ i → i ≤ (cfg.PARAMS : Int) →
      (cfg.PARAMS : Int) - i < (n : Int) →
      fillParams cfg n i ps j = if i ≤ j ∧ j < (cfg.PARAMS : Int) then (cfg.PARAMS : Int) else ps j := by
  have hP := cfg.params_le
  induction n with
  | zero => intro i ps j h0 h1 h2; simp at h2; omega
  | succ n ih =>
    intro i ps j h0 h1 h2
    rw [fillParams]
    by_cases hi : i < (cfg.PARAMS : Int)
    · have hu : u8 (i + 1) = i + 1 := by unfold u8; omega
      rw [if_pos hi, hu, ih (i + 1) _ j (by omega) (by omega) (by push_cast at h2; omega)]
      by_cases h : j = i
      · subst h; simp [hi]
      · have hiff : (i + 1 ≤ j ∧ j < (cfg.PARAMS : Int)) ↔ (i ≤ j ∧ j < (cfg.PARAMS : Int)) := by
          constructor
          · intro ⟨h1, h2⟩; exact ⟨by omega, by omega⟩
          · intro ⟨h1, h2⟩; exact ⟨by omega, by omega⟩
        simp [Function.update_noteq h, hiff]
    · rw [if_neg hi]
      have : ¬ (i ≤ j ∧ j < (cfg.PARAMS : Int)) := by omega
      rw [if_neg this]

theorem fillParams_apply (cfg : Config) (ps : Int → Int) (j : Int) :
    fillParams cfg 256 0 ps j = if 0 ≤ j ∧ j < (cfg.PARAMS : Int) then (cfg.PARAMS : Int) else ps j := by
  have hP := cfg.params_le
  exact fillParams_loop cfg 256 0 ps j (le_refl 0) (by omega) (by push_cast; omega)

set_option maxHeartbeats 1600000 in
set_option maxRecDepth 10000 in
theorem initialise_fact (cfg : Config) (host : Host) (hc : FactConfig cfg) :
    FactDefs cfg (initialise ⟨cfg, host, progFact⟩) ∧
    FramesFree cfg (initialise ⟨cfg, host, progFact⟩) 0 ∧
    (initialise ⟨cfg, host, progFact⟩).fun_id = 0 ∧
    (initialise ⟨cfg, host, progFact⟩).errors = [] := by
  obtain ⟨hO, hNV, hNV2, hP, hP2, hFM⟩ := hc
  have hlen : progFact.length + 1 = 51 := by decide
  have hu : u8 (cfg.NV : Int) = (cfg.NV : Int) := by unfold u8; omega
  have h1P : (1 : Int) < (cfg.PARAMS : Int) := by omega
  simp [initialise, index_function_definitions, hlen, indexLoop, byteAt, progFact, indexParams,
    set_default, fresh, decoder_goto, u16, charAt, i8, FactDefs, FramesFree, fillParams_apply, hu,
    h1P]

theorem fact_outer_site (cfg : Config) (host : Host) (T : State) (v : Int) (k : Nat)
    (hc : FactConfig cfg) (hd : FactDefs cfg T) (hp : T.pos = 6)
    (hf1 : T.fun_id < (cfg.FD : Int))
    (hv : T.vars 2 = v) (hvin : InCell cfg v) :
    ∃ T2, function_call ⟨cfg, host, progFact⟩ (k + 20) T =
        bodyLoop ⟨cfg, host, progFact⟩ (k + 19) T2 ∧
      T2.pos = 22 ∧ T2.vars = Function.update T.vars 2 v ∧ T2.fun_id = T.fun_id + 1 ∧
      (T2.functions T.fun_id).address = 11 ∧
      (T2.functions T.fun_id).params 0 = ⟨v, 2⟩ ∧
      (∀ i : Int, i ≠ 0 → (T2.functions T.fun_id).params i = (T.functions T.fun_id).params i) ∧
      (∀ j : Int, j ≠ T.fun_id → T2.functions j = T.functions j) ∧
      T2.definitions = T.definitions ∧ T2.errors = T.errors ∧ T2.out = T.out ∧
      T2.ended = T.ended := by
  obtain ⟨hO, hNV, hNV2, hP, hP2, hFM⟩ := hc
  have hd' := hd
  obtain ⟨d0, d1, d2, d3, d4⟩ := hd
  generalize henv : (⟨cfg, host, progFact⟩ : Env) = env
  have hprog : env.prog = progFact := by rw [← henv]
  have hcfg : env.cfg = cfg := by rw [← henv]
  have hfd : ∀ s : State, s.definitions = T.definitions → find_definition env 65 s = (1, s) := by
    intro s hs
    exact find_definition_second env 65 s (by decide) (by rw [hs]; exact d0) (by rw [hs]; exact d1)
      (by rw [hcfg]; exact hFM)
  have hfp : ∀ s : State, s.definitions = T.definitions →
      find_param_list_length env 65 s = some (2, s) := by
    intro s hs
    exact find_param_list_length_fact env s (by rw [hcfg]; exact ⟨hO, hNV, hNV2, hP, hP2, hFM⟩)
      (by rw [hcfg]; unfold FactDefs; rw [hs]; exact hd')
  have hg : ∀ s : State, get_variable env 2 s = (s.vars 2, s) :=
    fun s => get_variable_ok env 2 s (by norm_num) (by rw [hcfg]; omega)
  have hs : ∀ (x : Int) (s : State),
      set_variable env 2 x s = { s with vars := Function.update s.vars 2 x } :=
    fun x s => set_variable_ok env 2 x s (by norm_num) (by rw [hcfg]; omega)
  have harg : ∀ s : State, s.pos = 9 → s.vars 2 = v →
      relation env (k + 18) s = some (v, decoder_goto 11 s) := by
    intro s h1 h2
    have hok : Operand.ok env.cfg s.vars (.var 50) := by
      simp only [Operand.ok, hcfg, hO]
      norm_num
      refine ⟨by omega, ?_⟩
      rw [h2]; exact hvin
    have := relation_chain env s ⟨⟨⟨.var 50, []⟩, []⟩, []⟩ s.pos 4 (progFact.drop 12)
      (k + 18) (by rw [h1, hprog]; simp [progFact, RelS.bytes, ExprS.bytes, TermS.bytes,
        chainBytes, Operand.bytes])
      (by simp [RelS.ok, ExprS.ok, TermS.ok, NoTrap, hok])
      (by simp [RelEnd, ExprEnd, TermEnd, AtomEnd, isDigit, isTermOp, isExpressionOp, isRelationOp])
      (by simp [RelS.bytes, ExprS.bytes, TermS.bytes, chainBytes, Operand.bytes])
    rw [decoder_goto_self] at this
    rw [this]
    simp [RelS.value, ExprS.value, TermS.value, foldOps, Operand.value, hcfg, hO, h2,
      RelS.bytes, ExprS.bytes, TermS.bytes, chainBytes, Operand.bytes, h1]
  refine ⟨{ T with
    fun_cycle_id := T.cycle_id, pos := 22, vars := Function.update T.vars 2 v,
    functions := Function.update T.functions T.fun_id
      { address := 11, params := Function.update (T.functions T.fun_id).params 0 ⟨v, 2⟩ },
    fun_id := T.fun_id + 1 }, ?_, ?_⟩
  · simp [function_call, find_function_end, findFunctionEndLoop, decoder_get_eq, decoder_next_eq,
      hp, hprog, u8, u16, i16, i8, expect_hit, ignore_hit, charBefore, byteBefore,
      hfp, hfd, bindLoop, hcfg, hO, d3, d4, setParamId, setParamValue, hg, hs, harg, hv, hf1, d2,
      decoder_goto]
  · simp
    refine ⟨fun i hi => ?_, fun j hj => ?_⟩
    · simp [Function.update_noteq hi]
    · simp [Function.update_noteq hj]

/-! ## Scans that run off the end of the stream -/

theorem decoder_next_pos_le (env : Env) (s : State) : s.pos ≤ (decoder_next env s).pos := by
  simp [decoder_next]

theorem continueLoop_never_returns (env : Env) (p : Nat)
    (h : ∀ q, p ≤ q → byteAt env.prog q ≠ BP_NEXT ∧ byteAt env.prog q ≠ BP_REDO ∧
      byteAt env.prog q ≠ BP_WHILE ∧ byteAt env.prog q ≠ BP_FOR) :
    ∀ (fuel : Nat) (id : Int) (s : State), p ≤ s.pos → id ≤ s.cycle_id →
      continueLoop env fuel id s = none := by
  intro fuel
  induction fuel with
  | zero => intro id s _ _; simp [continueLoop]
  | succ n ih =>
    intro id s hp hid
    obtain ⟨h1, h2, h3, h4⟩ := h s.pos hp
    have hnext := ih id (decoder_next env s) (le_trans hp (decoder_next_pos_le env s)) hid
    simp only [continueLoop, decoder_get_eq, ge_iff_le, hid, if_true, h1, h2, h3, h4, or_self,
      if_false]
    exact hnext

theorem continue_call_never_returns (env : Env) (s : State)
    (h : ∀ q, s.pos ≤ q → byteAt env.prog q ≠ BP_NEXT ∧ byteAt env.prog q ≠ BP_REDO ∧
      byteAt env.prog q ≠ BP_WHILE ∧ byteAt env.prog q ≠ BP_FOR) (fuel : Nat) :
    continue_call env fuel s = none ∧ break_call env fuel s = none := by
  have hc : continue_call env fuel s = none :=
    continueLoop_never_returns env s.pos h fuel s.cycle_id s (le_refl _) (le_refl _)
  exact ⟨hc, by simp [break_call, hc]⟩

theorem progStuck_tail (q : Nat) (hq : 11 ≤ q) :
    byteAt progStuck q ≠ BP_NEXT ∧ byteAt progStuck q ≠ BP_REDO ∧
      byteAt progStuck q ≠ BP_WHILE ∧ byteAt progStuck q ≠ BP_FOR := by
  by_cases h : q < 16
  · interval_cases q <;> decide
  · have h0 : byteAt progStuck q = 0 := by
      unfold byteAt
      rw [List.getD_eq_default]
      simp [progStuck]; omega
    rw [h0]; decide

/-! ## Writing one byte of a string slot -/

theorem netCount_bound (r : List Bool) : -(r.length : Int) ≤ netCount r ∧ netCount r ≤ r.length := by
  induction r with
  | nil => simp [netCount]
  | cons b l ih =>
    simp only [netCount, List.length_cons, Nat.cast_add, Nat.cast_one]
    cases b <;> simp <;> omega

theorem unaryLoop_run (env : Env) (st : State) (r : List Bool) :
    ∀ (u : Int) (p t : Nat) (rest : List Nat) (fuel : Nat),
      env.prog.drop p = runBytes r ++ t :: rest → t ≠ 12 → t ≠ 13 →
      -(127 : Int) + r.length ≤ u → u ≤ 127 - (r.length : Int) → r.length + 1 ≤ fuel →
      unaryLoop env fuel u (decoder_goto p st) =
        some (u + netCount r, decoder_goto (p + r.length) st) := by
  induction r with
  | nil =>
    intro u p t rest fuel hp h12 h13 _ _ hf
    obtain ⟨k, rfl⟩ : ∃ k, fuel = k + 1 := ⟨fuel - 1, by omega⟩
    have h0 := byteAt_of_drop hp 0
    simp [runBytes] at h0
    simp [unaryLoop, h0, h12, h13, netCount]
  | cons b l ih =>
    intro u p t rest fuel hp h12 h13 hlo hhi hf
    obtain ⟨k, rfl⟩ : ∃ k, fuel = k + 1 := ⟨fuel - 1, by omega⟩
    simp only [List.length_cons, Nat.cast_add, Nat.cast_one] at hlo hhi hf
    have h0 := byteAt_of_drop hp 0
    have h1 := drop_of_drop hp 1
    simp only [runBytes, List.map_cons, List.cons_append, List.getD_cons_zero, Nat.add_zero,
      List.drop_succ_cons, List.drop_zero] at h0 h1
    cases b with
    | true =>
      simp only [if_true] at h0
      have hlen : tokenLength env.prog p = 1 := by simp [tokenLength, h0]
      have hi : i8 (u + 1) = u + 1 := by unfold i8; omega
      have := ih (u + 1) (p + 1) t rest k h1 h12 h13 (by omega) (by omega) (by omega)
      simp only [unaryLoop, decoder_get_goto, h0, BP_INCREMENT, true_or, if_true,
        decoder_next_goto, hlen, hi, this, netCount, List.length_cons]
      congr 2
      · omega
      · congr 1; omega
    | false =>
      simp only [Bool.false_eq_true, if_false] at h0
      have hlen : tokenLength env.prog p = 1 := by simp [tokenLength, h0]
      have hi : i8 (u - 1) = u - 1 := by unfold i8; omega
      have := ih (u - 1) (p + 1) t rest k h1 h12 h13 (by omega) (by omega) (by omega)
      simp only [unaryLoop, decoder_get_goto, h0, BP_INCREMENT, BP_DECREMENT, or_true, if_true,
        decoder_next_goto, hlen, hi, netCount, List.length_cons]
      simp
      rw [this]
      congr 2
      · omega
      · congr 1; omega

theorem runBytes_length (r : List Bool) : (runBytes r).length = r.length := by
  simp [runBytes]

/-- The trailing run of `var_factor`: `unary` is called only when the run is not
empty, and the count is 0 otherwise. -/
theorem post_run (env : Env) (st : State) (r : List Bool) (q t : Nat) (rest : List Nat) (k : Nat)
    (hp : env.prog.drop q = runBytes r ++ t :: rest) (h12 : t ≠ 12) (h13 : t ≠ 13)
    (hl : r.length ≤ 127) (hf : r.length + 1 ≤ k) :
    (if decoder_get env (decoder_goto q st) = BP_INCREMENT ∨
        decoder_get env (decoder_goto q st) = BP_DECREMENT
      then unary env k (decoder_goto q st) else some (0, decoder_goto q st)) =
      some (netCount r, decoder_goto (q + r.length) st) := by
  cases r with
  | nil =>
    have h0 := byteAt_of_drop hp 0
    simp [runBytes] at h0
    simp [h0, h12, h13, netCount]
  | cons b l =>
    have h0 := byteAt_of_drop hp 0
    simp only [runBytes, List.map_cons, List.cons_append, List.getD_cons_zero, Nat.add_zero]
      at h0
    have hc : decoder_get env (decoder_goto q st) = BP_INCREMENT ∨
        decoder_get env (decoder_goto q st) = BP_DECREMENT := by
      rw [decoder_get_goto, h0]
      cases b <;> simp
    rw [if_pos hc]
    have := unaryLoop_run env st (b :: l) 0 q t rest k hp h12 h13 (by omega) (by omega) hf
    simpa [unary] using this

/-! ## Indexing of the function definitions -/

theorem post_any {α : Type} (Q : α → Prop) (r : Option α) :
    Post Q r = ∀ a, Used r (some a) → Q a := rfl

/-- C1: the stream `a PLUS b MULT c` (operands `NUMBER` literals that fit an
`int` and a cell, or `ADDRESS` variables in range whose payload byte is below
128; no overflow) evaluates with `relation` to `a + b * c`, and the decoder is
left just after `c`. -/
theorem relation_plus_mult (env : Env) (st : State) (oa ob oc : Operand) (t : Nat)
    (rest : List Nat) (fuel : Nat)
    (hp : env.prog.drop st.pos =
      oa.bytes ++ BP_PLUS :: (ob.bytes ++ BP_MULT :: (oc.bytes ++ t :: rest)))
    (ha : oa.ok env.cfg st.vars) (hb : ob.ok env.cfg st.vars) (hc : oc.ok env.cfg st.vars) (ht : RelEnd t)
    (hbc : InCell env.cfg (ob.value env.cfg st.vars * oc.value env.cfg st.vars))
    (habc : InCell env.cfg
      (oa.value env.cfg st.vars + ob.value env.cfg st.vars * oc.value env.cfg st.vars))
    (hf : oa.bytes.length + ob.bytes.length + oc.bytes.length + 11 ≤ fuel) :
    relation env fuel st =
      some (oa.value env.cfg st.vars + ob.value env.cfg st.vars * oc.value env.cfg st.vars,
            decoder_goto
              (st.pos + (oa.bytes.length + 1 + ob.bytes.length + 1 + oc.bytes.length)) st) := by
  have h := relation_chain env st ⟨⟨⟨oa, []⟩, [(BP_PLUS, ⟨ob, [(BP_MULT, oc)]⟩)]⟩, []⟩ st.pos t rest
    fuel (by simpa [RelS.bytes, ExprS.bytes, TermS.bytes, chainBytes] using hp)
    (by simp [RelS.ok, ExprS.ok, TermS.ok, NoTrap, termOp, ha, hb, hc, isExpressionOp, isTermOp]) ht
    (by simp [RelS.bytes, ExprS.bytes, TermS.bytes, chainBytes]; omega)
  rw [decoder_goto_self] at h
  rw [h]
  simp only [RelS.value, ExprS.value, TermS.value, foldOps, expressionOp, termValue, termOp,
    Option.getD_some, RelS.bytes, ExprS.bytes, TermS.bytes, chainBytes, BP_PLUS, BP_MULT, if_true,
    wrapCell_of_inCell _ _ hbc, wrapCell_of_inCell _ _ habc]
  congr 3
  simp; omega

theorem relation_plus_mult_witness :
    relation ⟨cfgEx, hostEx, progSum⟩ 20 stSum = some (11, decoder_goto 8 stSum) := by
  have h := relation_plus_mult ⟨cfgEx, hostEx, progSum⟩ stSum (.var 48) (.var 49) (.num 2) BP_CR [0] 20
    (by simp [progSum, stSum, fresh, Operand.bytes, decimal])
    (by simp [Operand.ok, cfgEx, stSum, InCell])
    (by simp [Operand.ok, cfgEx, stSum, InCell])
    (by simp [Operand.ok, cfgEx, InCell])
    (by simp [RelEnd, ExprEnd, TermEnd, AtomEnd, isDigit, isTermOp, isExpressionOp, isRelationOp])
    (by simp [Operand.value, cfgEx, stSum, InCell])
    (by simp [Operand.value, cfgEx, stSum, InCell])
    (by simp [Operand.bytes, decimal])
  simpa [Operand.value, Operand.bytes, cfgEx, stSum, fresh, decimal] using h
/-- C2 (as stated, refuted): on the stream of `1 < 2 && 5 < 3` the function
`relation` returns 1, whereas `(1 < 2) && (5 < 3)` is 0. -/
theorem relation_and_not_grouped :
    (relation ⟨cfgEx, hostEx, progCmp⟩ 40 (fresh cfgEx)).map Prod.fst = some 1 ∧
    (relation ⟨cfgEx, hostEx, progCmp⟩ 40 (fresh cfgEx)).map Prod.fst ≠
      some (b2i ((1 : Int) < 2 ∧ (5 : Int) < 3)) := by
  decide!

/-- C2 (amended): `relation` applies the operators of `a LT b LOGIC_AND c LT d`
from left to right with one precedence: the result is `((a < b) && c) < d`
(operands `NUMBER` literals that fit an `int` and a cell, or `ADDRESS` variables
in range whose payload byte is below 128). -/
theorem relation_lt_and_lt (env : Env) (st : State) (oa ob oc od : Operand) (t : Nat)
    (rest : List Nat) (fuel : Nat)
    (hp : env.prog.drop st.pos =
      oa.bytes ++ BP_LT :: (ob.bytes ++ BP_LOGIC_AND :: (oc.bytes ++ BP_LT ::
        (od.bytes ++ t :: rest))))
    (ha : oa.ok env.cfg st.vars) (hb : ob.ok env.cfg st.vars) (hc : oc.ok env.cfg st.vars)
    (hd : od.ok env.cfg st.vars) (ht : RelEnd t)
    (hf : oa.bytes.length + ob.bytes.length + oc.bytes.length + od.bytes.length + 12 ≤ fuel) :
    relation env fuel st =
      some (b2i (b2i (oa.value env.cfg st.vars < ob.value env.cfg st.vars ∧ oc.value env.cfg st.vars ≠ 0)
                  < od.value env.cfg st.vars),
            decoder_goto
              (st.pos + (oa.bytes.length + 1 + ob.bytes.length + 1 + oc.bytes.length + 1 +
                od.bytes.length)) st) := by
  have h := relation_chain env st
    ⟨⟨⟨oa, []⟩, []⟩, [(BP_LT, ⟨⟨ob, []⟩, []⟩), (BP_LOGIC_AND, ⟨⟨oc, []⟩, []⟩),
      (BP_LT, ⟨⟨od, []⟩, []⟩)]⟩ st.pos t rest
    fuel (by simpa [RelS.bytes, ExprS.bytes, TermS.bytes, chainBytes] using hp)
    (by simp [RelS.ok, ExprS.ok, TermS.ok, NoTrap, ha, hb, hc, hd, isRelationOp]) ht
    (by simp [RelS.bytes, ExprS.bytes, TermS.bytes, chainBytes]; omega)
  rw [decoder_goto_self] at h
  rw [h]
  have hb2i : ∀ (p : Prop) [Decidable p], b2i p ≠ 0 ↔ p := by
    intro p _; unfold b2i; split <;> simp_all
  have hlt : ∀ x y : Int, relationOp BP_LT x y = b2i (x < y) := fun x y => by simp [relationOp]
  have hand : ∀ x y : Int, relationOp BP_LOGIC_AND x y = b2i (x ≠ 0 ∧ y ≠ 0) :=
    fun x y => by simp [relationOp]
  simp only [RelS.value, ExprS.value, TermS.value, foldOps, hlt, hand, RelS.bytes,
    ExprS.bytes, TermS.bytes, chainBytes, hb2i]
  congr 3
  simp; omega

theorem relation_lt_and_lt_witness :
    relation ⟨cfgEx, hostEx, progCmp⟩ 40 (fresh cfgEx) =
      some (1, decoder_goto 11 (fresh cfgEx)) := by
  have h := relation_lt_and_lt ⟨cfgEx, hostEx, progCmp⟩ (fresh cfgEx) (.num 1) (.num 2) (.num 5)
    (.num 3) BP_CR [0] 40
    (by simp [progCmp, fresh, Operand.bytes, decimal])
    (by simp [Operand.ok, cfgEx, InCell])
    (by simp [Operand.ok, cfgEx, InCell])
    (by simp [Operand.ok, cfgEx, InCell])
    (by simp [Operand.ok, cfgEx, InCell])
    (by simp [RelEnd, ExprEnd, TermEnd, AtomEnd, isDigit, isTermOp, isExpressionOp, isRelationOp])
    (by simp [Operand.bytes, decimal])
  simpa [Operand.value, Operand.bytes, fresh, decimal, b2i] using h
theorem foldOps_arith (cfg : Config) {α : Type} (val : α → Int) (l : List (Nat × α)) :
    ∀ v : Int, (∀ x ∈ l, isArithOp x.1) → NoOverflow cfg val v l →
      foldOps (expressionOp cfg) val v l = l.foldl (fun v x => arithOp x.1 v (val x.2)) v := by
  induction l with
  | nil => intro v _ _; rfl
  | cons x l ih =>
    intro v hops hno
    obtain ⟨h1, _, h3⟩ := hno
    have hstep : expressionOp cfg x.1 v (val x.2) = arithOp x.1 v (val x.2) := by
      rcases hops x (by simp) with h | h | h | h
      · rw [h] at h1 ⊢
        simp only [arithOp, BP_PLUS, if_true] at h1
        simp [expressionOp, arithOp, wrapCell_of_inCell _ _ h1]
      · rw [h] at h1 ⊢
        simp [arithOp] at h1
        simp [expressionOp, arithOp, wrapCell_of_inCell _ _ h1]
      · rw [h] at h1 ⊢
        simp [arithOp] at h1
        simp [expressionOp, arithOp, wrapCell_of_inCell _ _ h1]
      · rw [h]
        simp [expressionOp, arithOp]
    simp only [foldOps, List.foldl_cons, hstep]
    exact ih _ (fun y hy => hops y (by simp [hy])) h3

/-- C3: `expression` is left-associative.  On a chain `t₀ op₁ t₁ ... opₙ tₙ` with
operators among `+`, `-`, `<<`, `>>` (no overflow, shift amounts in `0 .. W - 1`)
it returns the left fold of the operators over the term values, so
`a op₁ b op₂ c` yields `(a op₁ b) op₂ c`; the decoder ends after the chain.  The
terms are products of literals that fit an `int` and a cell and of variables in
range whose payload byte is below 128, and no division in them traps (no zero
divisor, no least cell value divided by -1). -/
theorem expression_left_assoc (env : Env) (st : State) (c : ExprS) (t : Nat) (rest : List Nat)
    (fuel : Nat) (hp : env.prog.drop st.pos = c.bytes ++ t :: rest) (hok : c.ok env.cfg st.vars)
    (hops : ∀ x ∈ c.tail, isArithOp x.1)
    (hno : NoOverflow env.cfg (TermS.value env.cfg st.vars) (c.head.value env.cfg st.vars) c.tail)
    (ht : ExprEnd t) (hf : c.bytes.length + 7 ≤ fuel) :
    expression env fuel st =
      some (c.tail.foldl (fun v x => arithOp x.1 v (x.2.value env.cfg st.vars))
              (c.head.value env.cfg st.vars),
            decoder_goto (st.pos + c.bytes.length) st) := by
  have h := expression_chain env st c st.pos t rest fuel hp hok ht hf
  rw [decoder_goto_self] at h
  rw [h, ExprS.value, foldOps_arith env.cfg _ _ _ hops hno]

theorem expression_left_assoc_witness :
    expression ⟨cfgEx, hostEx, progSub⟩ 20 (fresh cfgEx) =
      some ((10 - 3) - 2, decoder_goto 9 (fresh cfgEx)) := by
  have h := expression_left_assoc ⟨cfgEx, hostEx, progSub⟩ (fresh cfgEx)
    ⟨⟨.num 10, []⟩, [(BP_MINUS, ⟨.num 3, []⟩), (BP_MINUS, ⟨.num 2, []⟩)]⟩ BP_CR [0] 20
    (by simp [progSub, fresh, ExprS.bytes, TermS.bytes, chainBytes, Operand.bytes, decimal])
    (by simp [ExprS.ok, TermS.ok, NoTrap, Operand.ok, cfgEx, InCell, isExpressionOp])
    (by simp [isArithOp])
    (by simp [NoOverflow, TermS.value, foldOps, Operand.value, arithOp, cfgEx, InCell])
    (by simp [ExprEnd, TermEnd, AtomEnd, isDigit, isTermOp, isExpressionOp])
    (by simp [ExprS.bytes, TermS.bytes, chainBytes, Operand.bytes, decimal])
  simpa [TermS.value, foldOps, Operand.value, Operand.bytes, ExprS.bytes, TermS.bytes,
    chainBytes, fresh, decimal, arithOp] using h
/-- C4 (code bug): in `progNested` the call `f(g(1))` is made with `x = 7`; it
returns 1 without any error and with `fun_id` back at 0, but `x`, which the body
of `f` only reads, is left at 1: the slot that saved `x` was overwritten and
cleared by the call of `g` in the argument. -/
theorem nested_argument_call_leaks :
    stNested.vars 3 = 7 ∧
    (function_call envNested 60 stNested).map
      (fun r => (r.1, r.2.vars 3, r.2.errors, r.2.fun_id)) = some (1, 1, [], 0) := by
  decide!

/-- C6 (code bug): in `progBreak` the loop variable holds 9 before `FOR`; after
the statements `FOR` and `BREAK` the loop is left (`cycle_id = 0`, decoder past `NEXT`) and the
variable holds 1: `break_call` does not set the saved value back. -/
theorem break_keeps_loop_value :
    (runUntilFinished envBreak 40 2 (initialise envBreak)).map
      (fun s => (s.pos, s.vars 0)) = some (5, 9) ∧
    (runUntilFinished envBreak 40 4 (initialise envBreak)).map
      (fun s => (s.pos, s.cycle_id, s.vars 0, s.errors)) = some (19, 0, 1, []) := by
  decide!

/-- C8 (code bug): `statement` on `BREAK` with `cycle_id = 0` ends with
`cycle_id = 255`, above `BP_CYCLE_DEPTH = 4`, and reports no error. -/
theorem stray_break_wraps_cycle_id :
    (initialise envStray).cycle_id = 0 ∧
    (statement envStray 20 (initialise envStray)).map
      (fun s => (s.cycle_id, decide (s.cycle_id ≤ (envStray.cfg.CD : Int)), s.errors)) =
      some (255, false, []) := by
  decide!

/-- C10 (code bug): `for_call` with the cycle stack full calls the error callback
once with `CYCLE_MAX` and pushes no frame, but leaves `ended` false, so that
`finished` is false. -/
theorem for_full_stack_not_ended :
    (for_call envFor 20 stForFull).map
      (fun s => (s.errors, s.cycle_id, s.ended, finished envFor s)) =
      some ([(11, Err.CYCLE_MAX)], 4, false, false) := by
  decide!
/-- C7: a loop `FOR vi, a, b ... NEXT` whose body changes neither `vi` nor the
cycle stack.  `for_call` enters the loop at the body; if `a ≤ b` the body is run
at the states `loopStates 0 .. b - a` with `vi = a, a + 1, ..., b`, and the
`NEXT` after run `b - a` leaves the loop; if `a > b` it is run at the states
`loopStates 0 .. a - b` with `vi = a, a - 1, ..., b`.  After the loop `cycle_id`
is back to its value before `FOR` (and `vi` to its value before `FOR`).  The
bounds `a`, `b` are literals that fit an `int` and a cell, or variables in range
whose payload byte is below 128. -/
theorem for_next_runs (env : Env) (st : State) (x : Nat) (A B : Operand) (rest : List Nat)
    (body : State → State) (pn fuel : Nat)
    (hp : env.prog.drop st.pos = BP_FOR :: BP_L_RPARENT :: BP_ADDRESS :: x ::
      (A.bytes ++ BP_COMMA :: (B.bytes ++ BP_R_RPARENT :: BP_CR :: rest)))
    (hn : byteAt env.prog pn = BP_NEXT)
    (hx1 : env.cfg.OFFSET ≤ x) (hx2 : x < 256)
    (hx3 : (x : Int) - (env.cfg.OFFSET : Int) < (env.cfg.NV : Int))
    (hA : A.ok env.cfg st.vars)
    (hB : B.ok env.cfg (Function.update st.vars ((x : Int) - (env.cfg.OFFSET : Int))
      (A.value env.cfg st.vars)))
    (hc0 : 0 ≤ st.cycle_id) (hc1 : st.cycle_id < (env.cfg.CD : Int)) (hCD : env.cfg.CD ≤ 255)
    (hbody : ∀ s : State, s.pos = st.pos + (A.bytes.length + B.bytes.length + 7) →
      s.cycle_id = st.cycle_id + 1 →
      (body s).pos = pn ∧
      (body s).vars ((x : Int) - (env.cfg.OFFSET : Int)) =
        s.vars ((x : Int) - (env.cfg.OFFSET : Int)) ∧
      (body s).cycle_id = s.cycle_id ∧ (body s).cycles st.cycle_id = s.cycles st.cycle_id)
    (hf : A.bytes.length + B.bytes.length + 10 ≤ fuel) :
    ∃ s1, for_call env fuel st = some s1 ∧
      (A.value env.cfg st.vars ≤ B.value env.cfg s1.vars →
        (∀ k : Nat, (k : Int) ≤ B.value env.cfg s1.vars - A.value env.cfg st.vars →
          (loopStates env body k s1).pos = st.pos + (A.bytes.length + B.bytes.length + 7) ∧
          (loopStates env body k s1).cycle_id = st.cycle_id + 1 ∧
          (loopStates env body k s1).vars ((x : Int) - (env.cfg.OFFSET : Int)) =
            A.value env.cfg st.vars + k) ∧
        (loopStates env body
          ((B.value env.cfg s1.vars - A.value env.cfg st.vars).toNat + 1) s1).cycle_id =
            st.cycle_id ∧
        (loopStates env body
          ((B.value env.cfg s1.vars - A.value env.cfg st.vars).toNat + 1) s1).pos = pn + 1 ∧
        (loopStates env body
          ((B.value env.cfg s1.vars - A.value env.cfg st.vars).toNat + 1) s1).vars
            ((x : Int) - (env.cfg.OFFSET : Int)) = st.vars ((x : Int) - (env.cfg.OFFSET : Int))) ∧
      (B.value env.cfg s1.vars < A.value env.cfg st.vars →
        (∀ k : Nat, (k : Int) ≤ A.value env.cfg st.vars - B.value env.cfg s1.vars →
          (loopStates env body k s1).pos = st.pos + (A.bytes.length + B.bytes.length + 7) ∧
          (loopStates env body k s1).cycle_id = st.cycle_id + 1 ∧
          (loopStates env body k s1).vars ((x : Int) - (env.cfg.OFFSET : Int)) =
            A.value env.cfg st.vars - k) ∧
        (loopStates env body
          ((A.value env.cfg st.vars - B.value env.cfg s1.vars).toNat + 1) s1).cycle_id =
            st.cycle_id ∧
        (loopStates env body
          ((A.value env.cfg st.vars - B.value env.cfg s1.vars).toNat + 1) s1).pos = pn + 1 ∧
        (loopStates env body
          ((A.value env.cfg st.vars - B.value env.cfg s1.vars).toNat + 1) s1).vars
            ((x : Int) - (env.cfg.OFFSET : Int)) = st.vars ((x : Int) - (env.cfg.OFFSET : Int))) := by
  obtain ⟨s1, hs1, hpos, hcyc, hvars, hframe, _⟩ :=
    for_call_enter env st x A B rest fuel hp hx1 hx2 hx3 hA hB hc0 hc1 hCD hf
  refine ⟨s1, hs1, ?_⟩
  rw [hvars]
  generalize hvi : (x : Int) - (env.cfg.OFFSET : Int) = vi at *
  generalize ha : A.value env.cfg st.vars = a at *
  generalize hb : B.value env.cfg (Function.update st.vars vi a) = b at *
  have hain : InCell env.cfg a := by
    rw [← ha]; cases A with
    | num n => exact hA.1
    | var y => exact hA.2.2.2
  have hbin : InCell env.cfg b := by
    rw [← hb]; cases B with
    | num n => exact hB.1
    | var y => exact hB.2.2.2
  have hv0 : 0 ≤ vi := by omega
  generalize hF : (⟨st.pos + (A.bytes.length + B.bytes.length + 7), decide (a < b), st.vars vi,
    vi, b⟩ : cycle_type) = F at hframe
  have hFa : F.address = st.pos + (A.bytes.length + B.bytes.length + 7) := by rw [← hF]
  have hFd : F.direction = decide (a < b) := by rw [← hF]
  have hFv : F.var = st.vars vi := by rw [← hF]
  have hFi : F.var_id = vi := by rw [← hF]
  have hFt : F.to_ = b := by rw [← hF]
  have hbody2 : ∀ s : State, s.pos = F.address → s.cycle_id = st.cycle_id + 1 →
      (body s).pos = pn ∧ (body s).vars F.var_id = s.vars F.var_id ∧
      (body s).cycle_id = s.cycle_id ∧ (body s).cycles st.cycle_id = s.cycles st.cycle_id := by
    intro s h1 h2
    rw [hFi]
    exact hbody s (by rw [h1, hFa]) h2
  have hs1v : s1.vars F.var_id = a := by rw [hvars, hFi]; simp
  have runs := loop_runs env body st.cycle_id F pn hn hc0 (by rw [hFi]; exact hv0)
    (by rw [hFi]; exact hx3) (by rw [hFt]; exact hbin) hbody2
  have leaves := loop_leaves env body st.cycle_id F pn hn hc0 (by omega) (by rw [hFi]; exact hv0)
    (by rw [hFi]; exact hx3) hbody2
  have key : ∀ (n : Nat), ((F.direction = true ∧ a + n = b) ∨ (F.direction = false ∧ a - n = b)) →
      (∀ k : Nat, k ≤ n →
        (loopStates env body k s1).pos = F.address ∧
        (loopStates env body k s1).cycle_id = st.cycle_id + 1 ∧
        (loopStates env body k s1).vars vi = (if F.direction then a + k else a - k)) ∧
      (loopStates env body (n + 1) s1).cycle_id = st.cycle_id ∧
      (loopStates env body (n + 1) s1).pos = pn + 1 ∧
      (loopStates env body (n + 1) s1).vars vi = st.vars vi := by
    intro n hn2
    have hall : ∀ k : Nat, k ≤ n →
        (loopStates env body k s1).pos = F.address ∧
        (loopStates env body k s1).cycle_id = st.cycle_id + 1 ∧
        (loopStates env body k s1).cycles st.cycle_id = F ∧
        (loopStates env body k s1).vars F.var_id = (if F.direction then a + k else a - k) := by
      intro k hk
      have := runs k s1 (by rw [hpos, hFa]) hcyc hframe (by rw [hs1v]; exact hain) (by
        rw [hs1v, hFt]
        rcases hn2 with h | h
        · exact Or.inl ⟨h.1, by have : (k : Int) ≤ n := by exact_mod_cast hk
                                omega⟩
        · exact Or.inr ⟨h.1, by have : (k : Int) ≤ n := by exact_mod_cast hk
                                omega⟩)
      rw [hs1v] at this
      exact this
    refine ⟨fun k hk => ?_, ?_⟩
    · obtain ⟨h1, h2, _, h4⟩ := hall k hk
      rw [hFi] at h4
      exact ⟨h1, h2, h4⟩
    · obtain ⟨h1, h2, h3, h4⟩ := hall n (le_refl n)
      have hlast : (loopStates env body n s1).vars F.var_id = F.to_ := by
        rw [h4, hFt]
        rcases hn2 with h | h
        · simp only [h.1, if_true]; exact h.2
        · simp only [h.1, Bool.false_eq_true, if_false]; exact h.2
      have := leaves (loopStates env body n s1) h1 h2 h3 hlast
      rw [loopStates_succ]
      rw [hFi, hFv] at this
      exact ⟨this.2.1, this.1, this.2.2⟩
  constructor
  · intro hab
    by_cases hlt : a < b
    · have hd : F.direction = true := by rw [hFd]; simpa using hlt
      obtain ⟨k1, k2⟩ := key (b - a).toNat (Or.inl ⟨hd, by omega⟩)
      refine ⟨fun k hk => ?_, k2⟩
      have := k1 k (by omega)
      simpa [hd, hFa] using this
    · have hd : F.direction = false := by rw [hFd]; simpa using hlt
      have heq : a = b := by omega
      obtain ⟨k1, k2⟩ := key 0 (Or.inr ⟨hd, by simp [heq]⟩)
      have h0 : (b - a).toNat = 0 := by omega
      rw [h0]
      refine ⟨fun k hk => ?_, k2⟩
      have hk0 : k = 0 := by omega
      have := k1 k (by omega)
      simpa [hd, hFa, hk0] using this
  · intro hba
    have hd : F.direction = false := by rw [hFd]; simp; omega
    obtain ⟨k1, k2⟩ := key (a - b).toNat (Or.inr ⟨hd, by omega⟩)
    refine ⟨fun k hk => ?_, k2⟩
    have := k1 k (by omega)
    simpa [hd, hFa] using this
theorem for_next_runs_witness :
    ∃ s1, for_call envCount 20 (fresh cfgEx) = some s1 ∧
      (loopStates envCount bodyCount 0 s1).vars 0 = 1 ∧
      (loopStates envCount bodyCount 1 s1).vars 0 = 2 ∧
      (loopStates envCount bodyCount 2 s1).vars 0 = 3 ∧
      (loopStates envCount bodyCount 3 s1).cycle_id = 0 ∧
      (loopStates envCount bodyCount 3 s1).pos = 13 := by
  have hbody : ∀ s : State, s.pos = 11 → s.cycle_id = 0 + 1 →
      (bodyCount s).pos = 12 ∧ (bodyCount s).vars 0 = s.vars 0 ∧
      (bodyCount s).cycle_id = s.cycle_id ∧ (bodyCount s).cycles 0 = s.cycles 0 := by
    intro s h _
    simp [bodyCount, statement, decoder_get_eq, decoder_next_eq, h, envCount, progCount, byteAt,
      tokenLength]
  obtain ⟨s1, h1, h2, _⟩ := for_next_runs envCount (fresh cfgEx) 48 (.num 1) (.num 3) [58, 64, 58, 70, 0]
    bodyCount 12 20
    (by simp [envCount, progCount, fresh, Operand.bytes, decimal])
    (by simp [envCount, progCount, byteAt])
    (by simp [envCount, cfgEx]) (by norm_num) (by simp [envCount, cfgEx])
    (by simp [Operand.ok, envCount, cfgEx, InCell])
    (by simp [Operand.ok, envCount, cfgEx, InCell])
    (by simp [fresh]) (by simp [fresh, envCount, cfgEx]) (by simp [envCount, cfgEx])
    (by simpa [fresh, envCount, cfgEx, Operand.bytes, decimal] using hbody)
    (by simp [Operand.bytes, decimal])
  simp only [Operand.value, envCount, cfgEx, fresh, Operand.bytes, decimal] at h2
  norm_num at h2
  obtain ⟨k1, k2, k3, _⟩ := h2
  refine ⟨s1, h1, ?_, ?_, ?_, ?_, ?_⟩
  · simpa using (k1 0 (by norm_num)).2.2
  · simpa using (k1 1 (by norm_num)).2.2
  · simpa using (k1 2 (by norm_num)).2.2
  · simpa [fresh] using k2
  · simpa using k3
/-- C5: in `progFact` (`n = 5; print fact(n); end` and the definition
`fact(n) = if n <= 1 return 1 endif return n * fact(n - 1)`), for every `n` with
`1 ≤ n ≤ BP_FUN_DEPTH` whose factorial fits a cell, the call `fact(n)` made from
the initialised interpreter with the variable `n` holding `n` returns `n!` with
enough fuel, reports no error, leaves `fun_id` at its value before the call (0),
leaves every variable (the caller's `n` too) at its value, and ends at the
closing parenthesis of the call; the program itself, run to its end, prints 120
and reports no error. -/
theorem fact_call_returns (cfg : Config) (host : Host) (n : Nat) (vars : Int → Int) (fuel : Nat)
    (hc : FactConfig cfg) (hn1 : 1 ≤ n) (hn2 : n ≤ cfg.FD)
    (hin : InCell cfg ((n.factorial : Nat) : Int)) (hv : vars 2 = (n : Int))
    (hf : 10 * n + 40 ≤ fuel) :
    ∃ st', function_call ⟨cfg, host, progFact⟩ fuel (stFact cfg host vars) =
        some (((n.factorial : Nat) : Int), st') ∧
      st'.errors = [] ∧ st'.fun_id = (stFact cfg host vars).fun_id ∧ st'.fun_id = 0 ∧
      st'.vars = vars ∧ st'.pos = 11 ∧
      (runUntilFinished ⟨cfgEx, hostEx, progFact⟩ 100 10
        (initialise ⟨cfgEx, hostEx, progFact⟩)).map
        (fun s => (s.out, s.errors, finished ⟨cfgEx, hostEx, progFact⟩ s)) =
        some ([Event.printInt 120], [], true) := by
  obtain ⟨k, rfl⟩ : ∃ k, fuel = k + 20 := ⟨fuel - 20, by omega⟩
  obtain ⟨i1, i2, i3, i4⟩ := initialise_fact cfg host hc
  have hvin : InCell cfg (n : Int) := inCell_of_nat_le cfg _ _ (Nat.self_le_factorial n) hin
  have hfid : (stFact cfg host vars).fun_id = 0 := by
    rw [← i3]; simp only [stFact]
  have hdefs : (stFact cfg host vars).definitions =
      (initialise ⟨cfg, host, progFact⟩).definitions := by simp only [stFact]
  have hfuns : (stFact cfg host vars).functions =
      (initialise ⟨cfg, host, progFact⟩).functions := by simp only [stFact]
  have herrs : (stFact cfg host vars).errors = [] := by
    rw [← i4]; simp only [stFact]
  have hvars : (stFact cfg host vars).vars = vars := by simp only [stFact]
  have hpos : (stFact cfg host vars).pos = 6 := by simp only [stFact]
  have j1 : FactDefs cfg (stFact cfg host vars) := by
    unfold FactDefs; rw [hdefs]; exact i1
  have j2 : FramesFree cfg (stFact cfg host vars) 0 := by
    unfold FramesFree; rw [hfuns]; exact i2
  generalize stFact cfg host vars = T at hfid hdefs hfuns herrs hvars hpos j1 j2 ⊢
  clear i1 i2 i3 i4 hdefs hfuns
  obtain ⟨T2, hsite, t1, t2, t3, t4, t5, t6, t7, t8, t9, t10, t11⟩ :=
    fact_outer_site cfg host T (n : Int) k hc j1 hpos
      (by rw [hfid]; exact_mod_cast (by omega : 0 < cfg.FD))
      (by rw [hvars]; exact hv) hvin
  rw [hfid] at t3 t4 t5 t6 t7
  obtain ⟨S2, hbody, s1, s2, s3, s4, s5, s6, s7, s8, s9⟩ :=
    fact_body cfg host hc n hn1 T2 0 11 (n : Int) (k + 19)
      (by unfold FactDefs; rw [t8]; exact j1) t1 (by rw [t2]; simp) hin (le_refl 0)
      (by rw [t3]) (by simp; exact_mod_cast hn2) t4 t5
      (by intro i hi1 hi2
          rw [t6 i (by omega)]
          exact j2 0 i (le_refl 0) (by omega) hi2)
      (by intro j i hj hi0 hi1
          rw [t7 j (by omega)]
          exact j2 j i (by omega) hi0 hi1)
      (by omega)
  refine ⟨S2, by rw [hsite]; exact hbody, ?_, ?_, s3, ?_, s1, by decide!⟩
  · rw [s4, t9]; exact herrs
  · rw [s3, hfid]
  · rw [s2, t2, hvars]
    funext j
    by_cases hj : j = 2
    · subst hj; simp [hv]
    · simp [Function.update_noteq hj]

/-- C5, an instance: `fact(5)` with BP_FUN_DEPTH = 6 and 32-bit cells returns
`5! = 120`. -/
theorem fact_call_returns_witness :
    FactConfig cfgEx ∧ 5 ≤ cfgEx.FD ∧ InCell cfgEx ((Nat.factorial 5 : Nat) : Int) ∧
    ∃ st', function_call ⟨cfgEx, hostEx, progFact⟩ 90
        (stFact cfgEx hostEx (fun i => if i = 2 then 5 else 0)) =
        some (((Nat.factorial 5 : Nat) : Int), st') ∧
      st'.errors = [] ∧
      st'.fun_id = (stFact cfgEx hostEx (fun i => if i = 2 then 5 else 0)).fun_id ∧
      st'.fun_id = 0 ∧
      st'.vars = (fun i => if i = 2 then 5 else 0) ∧ st'.pos = 11 ∧
      (runUntilFinished ⟨cfgEx, hostEx, progFact⟩ 100 10
        (initialise ⟨cfgEx, hostEx, progFact⟩)).map
        (fun s => (s.out, s.errors, finished ⟨cfgEx, hostEx, progFact⟩ s)) =
        some ([Event.printInt 120], [], true) :=
  ⟨by simp [FactConfig, cfgEx], by decide, by simp [InCell, cfgEx, Nat.factorial],
    fact_call_returns cfgEx hostEx 5 (fun i => if i = 2 then 5 else 0) 90
      (by simp [FactConfig, cfgEx]) (by decide) (by decide)
      (by simp [InCell, cfgEx, Nat.factorial]) (by simp) (by decide)⟩

/-- C9 (code bug): `progRestart`, run from `initialise`, reaches the statement
`x = g()` with `fun_id = 0` and no error; after that one statement `fun_id` is
`-1`, below its bound.  The call `g()` alone, made there, returns with
`fun_id = -1`, and so does `return_call` at the `return h()` of `g` entered with
`fun_id = 1`: it tests `fun_id > 0` before it evaluates the returned expression
and decrements afterwards, and the `restart` in `h` has set `fun_id` to 0 in
between (`BP_FUN_DEPTH` is 6). -/
theorem return_after_restart_underflows :
    (runUntilFinished envRestart 60 3 (initialise envRestart)).map
      (fun s => (s.pos, s.fun_id, s.errors)) = some (12, 0, []) ∧
    (runUntilFinished envRestart 60 4 (initialise envRestart)).map
      (fun s => (s.fun_id, decide (0 ≤ s.fun_id), s.errors)) =
      some (-1, false, [(22, Err.RETURN)]) ∧
    ((runUntilFinished envRestart 60 3 (initialise envRestart)).bind
      (fun s => function_call envRestart 60 (decoder_goto 14 s))).map
      (fun r => r.2.fun_id) = some (-1) ∧
    ((runUntilFinished envRestart 60 3 (initialise envRestart)).bind
      (fun s => return_call envRestart 60 { decoder_goto 30 s with fun_id := 1 })).map
      (fun r => r.2.fun_id) = some (-1) := by
  decide!

/-- C11: `run` is a no-op once finished: in every state in which `finished` is
true (`ended` set by an `END` statement or by `error`, or the decoder exhausted)
`run` executes no statement and returns the state as it is, with its variables,
strings, cycle and call stacks, decoder position, error log and host output. -/
theorem run_noop_when_finished (env : Env) (fuel : Nat) (st : State)
    (hf : finished env st = true) : run env fuel st = some st := by
  have hd : decoder_finished env st = true := by
    simp only [finished, Bool.or_eq_true] at hf
    rcases hf with h | h
    · simp [decoder_finished, h]
    · exact h
  simp [run, hd]

/-- C11, an instance: in `progEnd` (`end`, `print 7`) the first `run` executes
`END` and arrives in the state `end_call` leaves, in which `finished` is true;
`run` in that state changes nothing, and two more calls of `run` leave the
decoder at 1 and print nothing. -/
theorem run_noop_when_finished_witness :
    finished envEnd (end_call envEnd (initialise envEnd)) = true ∧
    run envEnd 20 (end_call envEnd (initialise envEnd)) =
      some (end_call envEnd (initialise envEnd)) ∧
    (run envEnd 20 (initialise envEnd)).map
      (fun s => (s.ended, s.pos, s.out)) = some (true, 1, []) ∧
    (((run envEnd 20 (initialise envEnd)).bind (run envEnd 20)).bind (run envEnd 20)).map
      (fun s => (s.ended, s.pos, s.out)) = some (true, 1, []) :=
  ⟨by decide, run_noop_when_finished envEnd 20 (end_call envEnd (initialise envEnd)) (by decide),
    by decide!, by decide!⟩

/-- C13 (code bug): the id `BP_VARIABLES` passes the test of `get_variable` and of
`set_variable`: the cell `variables[BP_VARIABLES]` is read and written and no
error is reported; in `progSent` the statements `s = 5`, `x = s` with the id 16
of 16 variables run without error and leave 5 in `x`. -/
theorem variable_sentinel_accepted (env : Env) (st : State) (v : Int) :
    get_variable env (env.cfg.NV : Int) st = (st.vars (env.cfg.NV : Int), st) ∧
    set_variable env (env.cfg.NV : Int) v st =
      { st with vars := Function.update st.vars (env.cfg.NV : Int) v } ∧
    (runUntilFinished envSent 20 3 (initialise envSent)).map
      (fun s => (s.vars 16, s.vars 0, s.errors)) = some (5, 5, []) := by
  refine ⟨?_, ?_, by decide!⟩
  · simp [get_variable]
  · simp [set_variable]

/-- C14: `return_call` entered with `fun_id = 0` returns 0 (with one unit of
fuel), invokes the error callback exactly once, with `RETURN` at the position
behind the `RETURN` opcode, sets `ended`, and leaves `fun_id`, `cycle_id` and
every variable as they were. -/
theorem return_at_top_level (env : Env) (fuel : Nat) (st : State) (h : st.fun_id = 0) :
    ∃ st', return_call env (fuel + 1) st = some (0, st') ∧
      st'.errors = st.errors ++ [((decoder_next env st).pos, Err.RETURN)] ∧
      st'.ended = true ∧ st'.fun_id = st.fun_id ∧ st'.cycle_id = st.cycle_id ∧
      st'.vars = st.vars := by
  refine ⟨error (decoder_next env st) Err.RETURN, ?_, rfl, rfl, rfl, rfl, rfl⟩
  have h0 : ¬ (decoder_next env st).fun_id > 0 := by
    show ¬ st.fun_id > 0
    omega
  simp [return_call, h0]

/-- C14, an instance: the `return` of the main program of `progRestart`, at
address 21, with `fun_id = 0`. -/
theorem return_at_top_level_witness :
    (decoder_goto 21 (initialise envRestart)).fun_id = 0 ∧
    ∃ st', return_call envRestart 1 (decoder_goto 21 (initialise envRestart)) = some (0, st') ∧
      st'.errors = (decoder_goto 21 (initialise envRestart)).errors ++
        [((decoder_next envRestart (decoder_goto 21 (initialise envRestart))).pos, Err.RETURN)] ∧
      st'.ended = true ∧ st'.fun_id = (decoder_goto 21 (initialise envRestart)).fun_id ∧
      st'.cycle_id = (decoder_goto 21 (initialise envRestart)).cycle_id ∧
      st'.vars = (decoder_goto 21 (initialise envRestart)).vars :=
  ⟨by decide, return_at_top_level envRestart 0 (decoder_goto 21 (initialise envRestart))
    (by decide)⟩

/-- C16 (code bug): in `progCyc` the call `f()`, at address 2, starts with `cycle_id = 0` and
returns, without error and with `fun_id` back at 0, with `cycle_id = 1`: the
call of `g` inside the loop of `f` has overwritten the snapshot `fun_cycle_id`
with 1, and the `return` of `f`, after its loop has ended, restores that value.
After the statement `x = f()` of the program `cycle_id` is 1 as well. -/
theorem nested_call_clobbers_cycle_snapshot :
    (initialise envCyc).cycle_id = 0 ∧
    (function_call envCyc 60 (decoder_goto 2 (initialise envCyc))).map
      (fun r => (r.2.cycle_id, r.2.fun_id, r.2.errors)) = some (1, 0, []) ∧
    (runUntilFinished envCyc 60 1 (initialise envCyc)).map
      (fun s => (s.pos, s.cycle_id)) = some (6, 1) := by
  decide!

/-- C17 (code bug): in `progElse` the inner `IF`, at address 4, has the condition
0 and no `ELSE`; its `ENDIF` is at address 12 and the `ELSE` of the enclosing
`IF`, whose condition is 1, follows at 13.  `if_call` on the inner `IF` ends at
address 15, behind that `ELSE` and its `CR`, not at 13, and the program prints
2, the else-branch of the enclosing `IF`; no error is reported. -/
theorem if_call_consumes_enclosing_else :
    (runUntilFinished envElse 40 1 (initialise envElse)).map
      (fun s => (s.pos, decoder_get envElse s)) = some (4, BP_IF) ∧
    byteAt progElse 12 = BP_ENDIF ∧ byteAt progElse 13 = BP_ELSE ∧
    ((runUntilFinished envElse 40 1 (initialise envElse)).bind (if_call envElse 40)).map
      (fun s => (s.pos, s.errors)) = some (15, []) ∧
    (runUntilFinished envElse 40 8 (initialise envElse)).map
      (fun s => (s.out, s.errors, finished envElse s)) =
      some ([Event.printInt 2], [], true) := by
  decide!

/-- C18 (code bug): in `progWhile` the outer `WHILE` has the condition 0 and its
body is one complete `WHILE ... REDO` block; `while_call` ends at address 8, the
`REDO` of the inner block, not at 10, the `REDO` of the outer loop. -/
theorem while_skip_stops_at_inner_redo :
    byteAt progWhile 8 = BP_REDO ∧ byteAt progWhile 10 = BP_REDO ∧
    (while_call envWhile 40 (initialise envWhile)).map
      (fun s => (s.pos, s.cycle_id, s.errors)) = some (8, 0, []) := by
  decide!

/-- C19 (code bug): in `progCont` the statement `CONTINUE`, at address 18 in the
body of the outer loop (`cycle_id = 1`, first round), is followed by a complete
inner `FOR ... NEXT` block; `continue_call` ends at address 23, right behind the
opcode `FOR` of the inner block, not at 35, the `NEXT` of the outer loop, and
`break_call` ends at 24, not at 36.  The program then stops with a `STATEMENT`
error at address 23. -/
theorem continue_stops_inside_nested_loop :
    (runUntilFinished envCont 40 2 (initialise envCont)).map
      (fun s => (s.pos, s.cycle_id, decoder_get envCont s)) = some (18, 1, BP_CONTINUE) ∧
    byteAt progCont 22 = BP_FOR ∧ byteAt progCont 35 = BP_NEXT ∧
    ((runUntilFinished envCont 40 2 (initialise envCont)).bind (continue_call envCont 40)).map
      (fun s => (s.pos, s.cycle_id)) = some (23, 1) ∧
    ((runUntilFinished envCont 40 2 (initialise envCont)).bind (break_call envCont 40)).map
      (fun s => (s.pos, s.cycle_id)) = some (24, 0) ∧
    (runUntilFinished envCont 40 9 (initialise envCont)).map
      (fun s => (s.pos, s.errors)) = some (23, [(23, Err.STATEMENT)]) := by
  decide!

/-- C20 (code bug): `progStuck`, run from `initialise`, reaches the statement
`BREAK` at address 11 inside the loop (`cycle_id = 1`); no `NEXT` or `REDO`
follows up to `END_OF_INPUT`.  From that state `continue_call`, `break_call`
and the statement itself return with no amount of fuel: the scan never ends,
and no `BLOCK` error is reported. -/
theorem break_without_next_never_returns :
    (runUntilFinished envStuck 40 1 (initialise envStuck)).map
      (fun s => (s.pos, s.cycle_id, decoder_get envStuck s)) = some (11, 1, BP_BREAK) ∧
    ∀ fuel : Nat,
      (runUntilFinished envStuck 40 1 (initialise envStuck)).bind (continue_call envStuck fuel) =
        none ∧
      (runUntilFinished envStuck 40 1 (initialise envStuck)).bind (break_call envStuck fuel) =
        none ∧
      (runUntilFinished envStuck 40 1 (initialise envStuck)).bind (statement envStuck fuel) =
        none := by
  have h1 : (runUntilFinished envStuck 40 1 (initialise envStuck)).map
      (fun s => (s.pos, s.cycle_id, decoder_get envStuck s)) = some (11, 1, BP_BREAK) := by
    decide!
  refine ⟨h1, fun fuel => ?_⟩
  cases hs : runUntilFinished envStuck 40 1 (initialise envStuck) with
  | none => simp
  | some s =>
    rw [hs] at h1
    simp only [Option.map_some', Option.some.injEq, Prod.mk.injEq] at h1
    obtain ⟨hp, hc, hg⟩ := h1
    have htail : ∀ (t : State), t.pos = 11 → ∀ q, t.pos ≤ q →
        byteAt envStuck.prog q ≠ BP_NEXT ∧ byteAt envStuck.prog q ≠ BP_REDO ∧
        byteAt envStuck.prog q ≠ BP_WHILE ∧ byteAt envStuck.prog q ≠ BP_FOR := by
      intro t ht q hq
      exact progStuck_tail q (by omega)
    have hcb := continue_call_never_returns envStuck s (htail s hp) fuel
    refine ⟨by simpa using hcb.1, by simpa using hcb.2, ?_⟩
    simp only [Option.some_bind]
    cases fuel with
    | zero => simp [statement]
    | succ n =>
      have hb := (continue_call_never_returns envStuck { s with return_type := 0 }
        (htail _ hp) n).2
      have hg2 : decoder_get envStuck { s with return_type := 0 } = 67 := hg
      simp [statement, hg2, hb]

/-- C23 (code bug): `progSkip`, run from `initialise` with `cycle_id = 0`: the
statement `WHILE`, whose condition is 0, leaves the decoder on the `REDO` at
address 8; the next statement executes that `REDO`, which reports a `REDO`
error at address 9 and sets `ended`.  No statement of the body has run, but the
loop is not left without error. -/
theorem false_while_ends_in_redo_error :
    (initialise envSkip).cycle_id = 0 ∧ byteAt progSkip 8 = BP_REDO ∧
    (runUntilFinished envSkip 40 1 (initialise envSkip)).map
      (fun s => (s.pos, s.cycle_id, s.errors)) = some (8, 0, []) ∧
    (runUntilFinished envSkip 40 2 (initialise envSkip)).map
      (fun s => (s.pos, s.errors, s.ended, s.out)) = some (9, [(9, Err.REDO)], true, []) := by
  decide!

/-- C24 (code bug): in `progRedo` the statement `WHILE` (condition 2) enters the
loop and leaves the decoder at address 8, on the `PRINT` that opens the body;
after the first round the statement `REDO` finds the condition 1 and leaves the
decoder at address 9, behind that `PRINT`, with `cycle_id` still 1.  The second
round prints nothing and the program ends with a `STATEMENT` error at 9. -/
theorem redo_skips_first_body_token :
    byteAt progRedo 8 = BP_PRINT ∧
    (runUntilFinished envRedo 40 3 (initialise envRedo)).map
      (fun s => (s.pos, s.cycle_id)) = some (8, 1) ∧
    (runUntilFinished envRedo 40 7 (initialise envRedo)).map
      (fun s => (s.pos, s.cycle_id, decoder_get envRedo s)) = some (20, 1, BP_REDO) ∧
    (runUntilFinished envRedo 40 8 (initialise envRedo)).map
      (fun s => (s.pos, s.cycle_id, s.vars 0)) = some (9, 1, 1) ∧
    (runUntilFinished envRedo 40 12 (initialise envRedo)).map
      (fun s => (s.out, s.errors)) = some ([Event.printInt 7], [(9, Err.STATEMENT)]) := by
  decide!

/-- C21: `var_factor` on `<run> ADDRESS x <run> t`, the two runs of `++`/`--`
tokens at most 127 long with the net counts `pre` and `post`, the id of `x` in
range with the value `v` (the payload is read through `char`, so with an id in
range the payload byte is below 128), and `v + pre`, `v + pre + post`
representable: it
returns `v + pre` (with enough fuel); the variable holds `v + pre + post` when
`pre ≠ 0` or `post ≠ 0` and is left as it is otherwise; no other variable has
changed, no error is reported, and the decoder is just behind the trailing run. -/
theorem var_factor_counts (env : Env) (st : State) (rpre rpost : List Bool) (x t : Nat)
    (rest : List Nat) (fuel : Nat)
    (hp : env.prog.drop st.pos =
      runBytes rpre ++ BP_ADDRESS :: x :: (runBytes rpost ++ t :: rest))
    (hok : Operand.ok env.cfg st.vars (.var x))
    (ht : t ≠ BP_INCREMENT ∧ t ≠ BP_DECREMENT)
    (hl1 : rpre.length ≤ 127) (hl2 : rpost.length ≤ 127)
    (hin1 : InCell env.cfg (st.vars ((x : Int) - (env.cfg.OFFSET : Int)) + netCount rpre))
    (hin2 : InCell env.cfg
      (st.vars ((x : Int) - (env.cfg.OFFSET : Int)) + netCount rpre + netCount rpost))
    (hf : rpre.length + rpost.length + 3 ≤ fuel) :
    ∃ st', var_factor env fuel st =
        some (st.vars ((x : Int) - (env.cfg.OFFSET : Int)) + netCount rpre, st') ∧
      st'.vars = (if netCount rpre ≠ 0 ∨ netCount rpost ≠ 0
        then Function.update st.vars ((x : Int) - (env.cfg.OFFSET : Int))
          (st.vars ((x : Int) - (env.cfg.OFFSET : Int)) + netCount rpre + netCount rpost)
        else st.vars) ∧
      st'.pos = st.pos + rpre.length + 2 + rpost.length ∧
      st'.errors = st.errors := by
  obtain ⟨k, rfl⟩ : ∃ k, fuel = k + 1 := ⟨fuel - 1, by omega⟩
  obtain ⟨hx1, hx2, hx3, hx4⟩ := hok
  obtain ⟨h12, h13⟩ := ht
  simp only [BP_INCREMENT, BP_DECREMENT] at h12 h13
  have hpre := unaryLoop_run env st rpre 0 st.pos BP_ADDRESS (x :: (runBytes rpost ++ t :: rest))
    k hp (by decide) (by decide) (by omega) (by omega) (by omega)
  rw [decoder_goto_self] at hpre
  have hd1 : env.prog.drop (st.pos + rpre.length) =
      BP_ADDRESS :: x :: (runBytes rpost ++ t :: rest) := by
    have := drop_of_drop hp rpre.length
    rw [← runBytes_length rpre, List.drop_left] at this
    rw [← runBytes_length rpre]
    exact this
  have hb0 : byteAt env.prog (st.pos + rpre.length) = BP_ADDRESS := by
    have := byteAt_of_drop hd1 0
    simpa using this
  have hb1 : byteAt env.prog (st.pos + rpre.length + 1) = x := by
    have := byteAt_of_drop hd1 1
    simpa using this
  have htl : tokenLength env.prog (st.pos + rpre.length) = 2 := by simp [tokenLength, hb0]
  have hd2 : env.prog.drop (st.pos + rpre.length + 2) = runBytes rpost ++ t :: rest := by
    have := drop_of_drop hd1 2
    simpa using this
  have hpost := post_run env st rpost (st.pos + rpre.length + 2) t rest k hd2 h12 h13 hl2
    (by omega)
  simp only [decoder_get_goto, BP_INCREMENT, BP_DECREMENT, unary] at hpost
  have hid : i16 ((x : Int) - (env.cfg.OFFSET : Int)) = (x : Int) - (env.cfg.OFFSET : Int) := by
    unfold i16; omega
  have hg : get_variable env ((x : Int) - (env.cfg.OFFSET : Int))
      (decoder_goto (st.pos + rpre.length + 2) st) =
      (st.vars ((x : Int) - (env.cfg.OFFSET : Int)), decoder_goto (st.pos + rpre.length + 2) st) :=
    get_variable_ok _ _ _ (by omega) (by omega)
  have hs : ∀ (y : Int) (s : State),
      set_variable env ((x : Int) - (env.cfg.OFFSET : Int)) y s =
        { s with vars := Function.update s.vars ((x : Int) - (env.cfg.OFFSET : Int)) y } :=
    fun y s => set_variable_ok env _ y s (by omega) (by omega)
  have hcall : var_factor env (k + 1) st =
      some (st.vars ((x : Int) - (env.cfg.OFFSET : Int)) + netCount rpre,
        if netCount rpre ≠ 0 ∨ netCount rpost ≠ 0 then
          { decoder_goto (st.pos + rpre.length + 2 + rpost.length) st with
            vars := Function.update st.vars ((x : Int) - (env.cfg.OFFSET : Int))
              (st.vars ((x : Int) - (env.cfg.OFFSET : Int)) + netCount rpre + netCount rpost) }
        else decoder_goto (st.pos + rpre.length + 2 + rpost.length) st) := by
    simp only [var_factor, unary, hpre, decoder_get_goto, hb0, decoder_next_goto, htl, payloadId,
      decoder_goto_pos, charBefore, byteBefore, if_true, hid, hg, hpost, Int.zero_add, hs,
      wrapCell_of_inCell _ _ hin1, wrapCell_of_inCell _ _ hin2]
    simp [hb1, i8_of_lt x hx2, hid, hg, hpost, hs, wrapCell_of_inCell _ _ hin1,
      wrapCell_of_inCell _ _ hin2]
  refine ⟨_, hcall, ?_, ?_, ?_⟩
  · split <;> rfl
  · split <;> rfl
  · split <;> rfl

/-- C21, an instance: `++ ++ x --` with `x = 10` returns 12 and leaves 11 in `x`. -/
theorem var_factor_counts_witness :
    ∃ st', var_factor ⟨cfgEx, hostEx, progUnary⟩ 10 stUnary = some (12, st') ∧
      st'.vars = Function.update stUnary.vars 0 11 ∧ st'.pos = 5 ∧
      st'.errors = stUnary.errors := by
  have h := var_factor_counts ⟨cfgEx, hostEx, progUnary⟩ stUnary [true, true] [false] 48 BP_CR
    [0] 10
    (by simp [progUnary, stUnary, fresh, runBytes])
    (by simp [Operand.ok, cfgEx, stUnary, InCell])
    (by simp)
    (by simp) (by simp)
    (by simp [cfgEx, stUnary, InCell, netCount])
    (by simp [cfgEx, stUnary, InCell, netCount])
    (by simp)
  simpa [netCount, cfgEx, stUnary, fresh] using h

end BIPLAN
